import Mathlib

/-!
# sstest: a verification development

Shallow embedding of the assertion core of the `sstest` C++ unit-testing
library (`include/sstest/sstest_compare.h`, `sstest_assertion.h`,
`sstest_runner.h`, `sstest_summary.h`, `src/sstest_summary.cpp`,
`src/sstest_test.cpp`) together with theorems about it.

Conventions of the embedding.

* C++ templates range over arbitrary operand types.  Here all operands and
  intermediate results live in one value domain `V`; the operand types'
  own ("native") operators are a parameter `NativeOps V`.
* A `std::tuple<const Types&...>` of captured references is a `List V` of the
  referenced values, in tuple order.
* Side effects (a call counter, the number of `operator bool` conversions,
  the runner's tally) are explicit state that is passed through.
-/

namespace sstest

/-! ## Values of built-in C++ types (used for the concrete examples) -/

/-- A small universe of built-in C++ values: `int`-like integers, `bool`,
object pointers (by address) and the `nullptr` literal of type
`std::nullptr_t`. -/
inductive Value where
  | int (i : Int)
  | bool (b : Bool)
  | ptr (addr : Nat)
  | nullptr
  deriving DecidableEq, Repr

namespace Value

/-- Contextual conversion to `bool` of a built-in value: integers and pointers
are true when non-zero, `bool(nullptr)` is false. -/
def toBool : Value → Bool
  | int i => decide (i ≠ 0)
  | bool b => b
  | ptr a => decide (a ≠ 0)
  | nullptr => false

/-- Integral promotion used by the built-in arithmetic and relational
operators (`false`/`true` become `0`/`1`; pointers compare by address). -/
def toInt : Value → Int
  | int i => i
  | bool b => if b then 1 else 0
  | ptr a => (a : Int)
  | nullptr => 0

end Value

namespace comparison

/-! ## Native operators -/

/-- The binary operators intercepted by `Collector`
(`operator==`, `!=`, `<`, `>`, `<=`, `>=`, `<<`, `>>`, `|`, `&`, `^`, `||`, `&&`). -/
inductive BinOp where
  | eq | ne | lt | gt | le | ge | shl | shr | bitOr | bitAnd | bitXor | logOr | logAnd
  deriving DecidableEq, Repr

/-- The operand types' own operators: what `lhs OP rhs` evaluates to when the
expression is written without the Collector. -/
structure NativeOps (V : Type) where
  eq : V → V → V
  ne : V → V → V
  lt : V → V → V
  gt : V → V → V
  le : V → V → V
  ge : V → V → V
  shl : V → V → V
  shr : V → V → V
  bitOr : V → V → V
  bitAnd : V → V → V
  bitXor : V → V → V
  logOr : V → V → V
  logAnd : V → V → V

/-- Evaluation of `lhs OP rhs` with the native operator named by `op`. -/
def NativeOps.eval {V : Type} (N : NativeOps V) : BinOp → V → V → V
  | .eq => N.eq
  | .ne => N.ne
  | .lt => N.lt
  | .gt => N.gt
  | .le => N.le
  | .ge => N.ge
  | .shl => N.shl
  | .shr => N.shr
  | .bitOr => N.bitOr
  | .bitAnd => N.bitAnd
  | .bitXor => N.bitXor
  | .logOr => N.logOr
  | .logAnd => N.logAnd

/-- The built-in operators of C++ on `Value` (integral operands, after
promotion): relational and logical operators yield `bool`, bitwise and shift
operators yield `int`. -/
def builtin : NativeOps Value where
  eq a b := .bool (decide (a.toInt = b.toInt))
  ne a b := .bool (decide (a.toInt ≠ b.toInt))
  lt a b := .bool (decide (a.toInt < b.toInt))
  gt a b := .bool (decide (a.toInt > b.toInt))
  le a b := .bool (decide (a.toInt ≤ b.toInt))
  ge a b := .bool (decide (a.toInt ≥ b.toInt))
  shl a b := .int (a.toInt * 2 ^ b.toInt.toNat)
  shr a b := .int (a.toInt / 2 ^ b.toInt.toNat)
  bitOr a b := .int (Int.lor a.toInt b.toInt)
  bitAnd a b := .int (Int.land a.toInt b.toInt)
  bitXor a b := .int (Int.xor a.toInt b.toInt)
  logOr a b := .bool (a.toBool || b.toBool)
  logAnd a b := .bool (a.toBool && b.toBool)

/-! ## `CompareHelper`, `Collector`, `Decomposer` -/

/-- `CompareHelper<Res, Types...>`: the public members `result` and `args`. -/
structure CompareHelper (Res : Type) (V : Type) where
  result : Res
  args : List V
  deriving DecidableEq, Repr

/-- `Collector<I, Types...>` derives from `CompareHelper<I, Types...>`; the
intermediate value is itself a value of the domain. -/
abbrev Collector (V : Type) := CompareHelper V V

namespace Collector

variable {V : Type}

/-- `Collector::eat(food, t)`:
`Collector<I2, Types..., T>(food, std::tuple_cat(this->args, std::tuple<const T&>(t)))`. -/
def eat (c : Collector V) (food : V) (t : V) : Collector V :=
  ⟨food, c.args ++ [t]⟩

/-- `operator==(t)`: `eat(result == t, t)`. -/
def opEq (N : NativeOps V) (c : Collector V) (t : V) : Collector V :=
  c.eat (N.eq c.result t) t

/-- `operator!=(t)`: `eat(result != t, t)`. -/
def opNe (N : NativeOps V) (c : Collector V) (t : V) : Collector V :=
  c.eat (N.ne c.result t) t

/-- `operator<(t)`: `eat(result < t, t)`. -/
def opLt (N : NativeOps V) (c : Collector V) (t : V) : Collector V :=
  c.eat (N.lt c.result t) t

/-- `operator>(t)`: `eat(result > t, t)`. -/
def opGt (N : NativeOps V) (c : Collector V) (t : V) : Collector V :=
  c.eat (N.gt c.result t) t

/-- `operator<=(t)`: `eat(result <= t, t)`. -/
def opLe (N : NativeOps V) (c : Collector V) (t : V) : Collector V :=
  c.eat (N.le c.result t) t

/-- `operator>=(t)`: `eat(result >= t, t)`. -/
def opGe (N : NativeOps V) (c : Collector V) (t : V) : Collector V :=
  c.eat (N.ge c.result t) t

/-- `operator<<(t)`: `eat(result << t, t)`. -/
def opShl (N : NativeOps V) (c : Collector V) (t : V) : Collector V :=
  c.eat (N.shl c.result t) t

/-- `operator>>(t)`: `eat(result >> t, t)`. -/
def opShr (N : NativeOps V) (c : Collector V) (t : V) : Collector V :=
  c.eat (N.shr c.result t) t

/-- `operator|(t)`: `eat(result | t, t)`. -/
def opBitOr (N : NativeOps V) (c : Collector V) (t : V) : Collector V :=
  c.eat (N.bitOr c.result t) t

/-- `operator&(t)`: `eat(result & t, t)`. -/
def opBitAnd (N : NativeOps V) (c : Collector V) (t : V) : Collector V :=
  c.eat (N.bitAnd c.result t) t

/-- `operator^(t)`: `eat(result ^ t, t)`. -/
def opBitXor (N : NativeOps V) (c : Collector V) (t : V) : Collector V :=
  c.eat (N.bitXor c.result t) t

/-- `operator||(t)`: `eat(result || t, t)`. -/
def opLogOr (N : NativeOps V) (c : Collector V) (t : V) : Collector V :=
  c.eat (N.logOr c.result t) t

/-- `operator&&(t)`: `eat(result && t, t)`. -/
def opLogAnd (N : NativeOps V) (c : Collector V) (t : V) : Collector V :=
  c.eat (N.logAnd c.result t) t

/-- One extension step of a chain: the member operator selected by `op`. -/
def apply (N : NativeOps V) (c : Collector V) (op : BinOp) (t : V) : Collector V :=
  match op with
  | .eq => c.opEq N t
  | .ne => c.opNe N t
  | .lt => c.opLt N t
  | .gt => c.opGt N t
  | .le => c.opLe N t
  | .ge => c.opGe N t
  | .shl => c.opShl N t
  | .shr => c.opShr N t
  | .bitOr => c.opBitOr N t
  | .bitAnd => c.opBitAnd N t
  | .bitXor => c.opBitXor N t
  | .logOr => c.opLogOr N t
  | .logAnd => c.opLogAnd N t

end Collector

namespace Decomposer

/-- `Decomposer::operator<<(t)`:
`Collector<decltype(t), T>(std::forward<T>(t), std::tuple<const T&>(t))`. -/
def shl {V : Type} (t : V) : Collector V :=
  ⟨t, [t]⟩

end Decomposer

/-- The chain `Decomposer() << a OP1 b1 OP2 b2 ... OPk bk`: the seed followed by
the member operators, applied left to right. -/
def chain {V : Type} (N : NativeOps V) (a : V) (steps : List (BinOp × V)) : Collector V :=
  steps.foldl (fun c s => c.apply N s.1 s.2) (Decomposer.shl a)

/-- The same expression without the Collector, as the spec words it: the left
fold `((a OP1 b1) OP2 b2) ... OPk bk` with the native operators. -/
def nativeLeftFold {V : Type} (N : NativeOps V) (a : V) (steps : List (BinOp × V)) : V :=
  steps.foldl (fun acc s => N.eval s.1 acc s.2) a

/-! ### Evaluation with side effects

Operand expressions and the operand types' operators may have side effects
(the `counter()` of example `3-1_basic.cpp`, a mutating `operator==`).  An
effectful computation is a function from the state before to the value and
the state after. -/

/-- Native operators with a side effect on a state `σ`. -/
structure NativeOpsM (σ : Type) (V : Type) where
  evalM : BinOp → V → V → σ → V × σ

/-- Every member operator of `Collector` has the body
`return this->eat(result OP t, t)`: the native operator is applied to the stored
intermediate and the new operand, and its value is handed to `eat`. -/
def Collector.applyM {σ V : Type} (N : NativeOpsM σ V) (c : Collector V) (op : BinOp) (t : V)
    (s : σ) : Collector V × σ :=
  let food := N.evalM op c.result t s
  (c.eat food.1 t, food.2)

/-- Extension of a chain by the operators and operand expressions of `steps`,
left to right: the operand expression is evaluated, then the member operator
is called on it.  The member operators `||` and `&&` are function calls, so
their right operand is evaluated like any other argument (there is no
short-circuit).  C++ leaves the relative order in which the operand
expressions of one full expression are evaluated partly unspecified; the model
fixes the left-to-right order. -/
def extendM {σ V : Type} (N : NativeOpsM σ V) :
    List (BinOp × (σ → V × σ)) → Collector V → σ → Collector V × σ
  | [], c, s => (c, s)
  | (op, e) :: rest, c, s =>
    let t := e s
    let c1 := c.applyM N op t.1 t.2
    extendM N rest c1.1 c1.2

/-- Evaluation of the full expression `Decomposer() << e0 OP1 e1 ... OPk ek`
whose operands are the expressions `e0`, `e1`, ..., `ek`. -/
def chainM {σ V : Type} (N : NativeOpsM σ V) (e0 : σ → V × σ)
    (steps : List (BinOp × (σ → V × σ))) (s : σ) : Collector V × σ :=
  let a := e0 s
  extendM N steps (Decomposer.shl a.1) a.2

/-- Evaluation of a function-call argument list, left to right. -/
def evalArgs {σ V : Type} : List (σ → V × σ) → σ → List V × σ
  | [], s => ([], s)
  | e :: rest, s =>
    let v := e s
    let vs := evalArgs rest v.2
    (v.1 :: vs.1, vs.2)

/-! ### Construction from a predicate -/

namespace CompareHelper

variable {Res V : Type}

/-- The protected direct constructor `CompareHelper(Res&& result, tuple)`. -/
def direct (result : Res) (tuple : List V) : CompareHelper Res V :=
  ⟨result, tuple⟩

/-- `CompareHelper(const Pred& pred, Types&&... types)`, which delegates to
`CompareHelper(pred(types...), std::tuple<const Types&...>(types...))`. -/
def ofPred (pred : List V → Res) (types : List V) : CompareHelper Res V :=
  direct (pred types) types

/-- The constructor from a predicate, instantiated for one argument. -/
def ofPred1 (pred : V → Res) (x : V) : CompareHelper Res V :=
  direct (pred x) [x]

/-- The constructor from a predicate, instantiated for two arguments. -/
def ofPred2 (pred : V → V → Res) (lhs rhs : V) : CompareHelper Res V :=
  direct (pred lhs rhs) [lhs, rhs]

/-- The constructor from a predicate when the predicate has a side effect:
`pred(types...)` is called once, on the already evaluated arguments. -/
def ofPredM {σ : Type} (pred : List V → σ → Res × σ) (types : List V) (s : σ) :
    CompareHelper Res V × σ :=
  let r := pred types s
  (direct r.1 types, r.2)

/-- `CompareHelper::operator bool()`: `return bool(std::forward<Res>(result))`.
The conversion `conv` of the result type to `bool` is the result type's own and
may have a side effect. -/
def opBool {σ : Type} (conv : Res → σ → Bool × σ) (c : CompareHelper Res V) (s : σ) : Bool × σ :=
  conv c.result s

end CompareHelper

/-- A conversion to `bool` without side effect. -/
def pureConv {σ Res : Type} (f : Res → Bool) : Res → σ → Bool × σ :=
  fun x s => (f x, s)

/-- The conversion to `bool` of a built-in value, made observable: the state
is the number of conversions performed so far. -/
def countingConv : Value → Nat → Bool × Nat :=
  fun x n => (x.toBool, n + 1)

/-- `always_true(args...)`. -/
def always_true {V : Type} (_args : List V) : Bool := true

/-- `identity(arg)`: returns its argument. -/
def identity {V : Type} (arg : V) : V := arg

/-- `negate(arg)`: `return !arg`, for an operand type that does not overload
`operator!`: the built-in `!` negates the contextual conversion to `bool`. -/
def negate {V : Type} (conv : V → Bool) (arg : V) : Bool := !(conv arg)

/-- `equal(lhs, rhs)`: `return lhs == rhs`. -/
def equal {V : Type} (N : NativeOps V) (lhs rhs : V) : V := N.eq lhs rhs

/-- `make_compare(result)`: `CompareHelper(identity<T>, result)`. -/
def make_compare1 {V : Type} (result : V) : CompareHelper V V :=
  CompareHelper.ofPred1 identity result

/-- `make_compare(pred, args...)`: `CompareHelper(pred, args...)`. -/
def make_compare {Res V : Type} (pred : List V → Res) (args : List V) : CompareHelper Res V :=
  CompareHelper.ofPred pred args

/-- The call `make_compare(pred, e1, ..., en)` with argument expressions and a
predicate that may have side effects: the arguments are evaluated, then the
constructor is called. -/
def make_compareM {σ Res V : Type} (pred : List V → σ → Res × σ) (args : List (σ → V × σ))
    (s : σ) : CompareHelper Res V × σ :=
  let vs := evalArgs args s
  CompareHelper.ofPredM pred vs.1 vs.2

/-- `make_equal_compare(lhs, rhs)`: `CompareHelper(equal<T1, T2>, lhs, rhs)`. -/
def make_equal_compare {V : Type} (N : NativeOps V) (lhs rhs : V) : CompareHelper V V :=
  CompareHelper.ofPred2 (equal N) lhs rhs

/-- `make_negation_compare`: the template
`CompareHelper(negate<T>, result)` and the overload for the `nullptr` literal,
`CompareHelper<bool, std::nullptr_t>(always_true<std::nullptr_t>, nullptr)`. -/
def make_negation_compare : Value → CompareHelper Value Value
  | .nullptr => CompareHelper.ofPred1 (fun x => .bool (always_true [x])) .nullptr
  | x => CompareHelper.ofPred1 (fun y => .bool (negate Value.toBool y)) x

/-! ### The counter of example `3-1_basic.cpp` -/

/-- Observable effects of evaluating an asserted expression: the `static int
count` of `counter()`, and how many times an operator or predicate of the
operand types has been applied. -/
structure Effects where
  count : Nat
  applications : Nat
  deriving DecidableEq, Repr

/-- `counter()`: `return count++`. -/
def counter (s : Effects) : Value × Effects :=
  (.int s.count, { s with count := s.count + 1 })

/-- Operand expressions of the counter example: a literal, or a call of
`counter()`. -/
inductive OperandExpr where
  | lit (v : Value)
  | counterCall
  deriving DecidableEq, Repr

/-- Evaluation of an operand expression. -/
def OperandExpr.eval : OperandExpr → Effects → Value × Effects
  | .lit v, s => (v, s)
  | .counterCall, s => counter s

/-- Number of calls of `counter()` written in an operand expression. -/
def OperandExpr.occurrences : OperandExpr → Nat
  | .lit _ => 0
  | .counterCall => 1

/-- Number of calls of `counter()` written in a list of operand expressions. -/
def OperandExpr.totalOccurrences (es : List OperandExpr) : Nat :=
  (es.map OperandExpr.occurrences).sum

/-- Operators of an operand type that record each application: the value is
the native one, and `applications` is incremented. -/
def recording (N : NativeOps Value) : NativeOpsM Effects Value where
  evalM op a b s := (N.eval op a b, { s with applications := s.applications + 1 })

/-- A predicate that records each application. -/
def recordingPred {Res : Type} (pred : List Value → Res) : List Value → Effects → Res × Effects :=
  fun xs s => (pred xs, { s with applications := s.applications + 1 })

end comparison

/-! ## Assertions (`sstest_assertion.h`, `sstest_info.h`) -/

/-- `enum class AssertionResult { INVALID = -1, FAIL = 0, SUCCESS = 1, PASS = SUCCESS }`. -/
inductive AssertionResult where
  | INVALID
  | FAIL
  | SUCCESS
  deriving DecidableEq, Repr

/-- The enumerator `PASS = SUCCESS`. -/
abbrev AssertionResult.PASS : AssertionResult := AssertionResult.SUCCESS

/-- `struct TestInfo`: the name (a `StringView`, here the viewed string). -/
structure TestInfo where
  name : String
  deriving DecidableEq, Repr

/-- `struct LineInfo`: file name and line number. -/
structure LineInfo where
  file_name : String
  line_no : Nat
  deriving DecidableEq, Repr

/-- Modelled from the spec: `LineInfo::where()` is declared in `sstest_info.h`
but its definition is not among the sources; the spec says that `where()`
returns a "file:line" formatted string. -/
def LineInfo.where_ (l : LineInfo) : String :=
  l.file_name ++ ":" ++ toString l.line_no

/-- `Assertion<Types...>`: holds the `CompareHelper` by reference together with
the macro name, the source location and the argument text. -/
structure Assertion (Res V : Type) where
  compare_ : comparison.CompareHelper Res V
  assertion_info : TestInfo
  line_info : LineInfo
  arg_text : String
  deriving DecidableEq, Repr

/-- `make_assertion(test_info, line_info, arg_text, compare)`: calls the
constructor of `Assertion<Args...>`, whose body is empty and whose initialiser
list binds `compare_` to the comparison. -/
def make_assertion {Res V : Type} (test_info : TestInfo) (line_info : LineInfo) (arg_text : String)
    (compare : comparison.CompareHelper Res V) : Assertion Res V :=
  { compare_ := compare, assertion_info := test_info, line_info := line_info,
    arg_text := arg_text }

namespace Assertion

variable {σ Res V : Type}

/-- `result()`: `return compare_ ? AssertionResult::PASS : AssertionResult::FAIL`,
which calls `CompareHelper::operator bool`. -/
def result (conv : Res → σ → Bool × σ) (a : Assertion Res V) (s : σ) : AssertionResult × σ :=
  let b := a.compare_.opBool conv s
  (if b.1 then AssertionResult.PASS else AssertionResult.FAIL, b.2)

/-- `passed()`: `return result() == AssertionResult::SUCCESS`. -/
def passed (conv : Res → σ → Bool × σ) (a : Assertion Res V) (s : σ) : Bool × σ :=
  let r := a.result conv s
  (decide (r.1 = AssertionResult.SUCCESS), r.2)

/-- `failed()`: `return result() == AssertionResult::FAIL`. -/
def failed (conv : Res → σ → Bool × σ) (a : Assertion Res V) (s : σ) : Bool × σ :=
  let r := a.result conv s
  (decide (r.1 = AssertionResult.FAIL), r.2)

/-- `operator bool()`: `return passed()`. -/
def opBool (conv : Res → σ → Bool × σ) (a : Assertion Res V) (s : σ) : Bool × σ :=
  a.passed conv s

/-- `operator!()`: `return !passed()`. -/
def opNot (conv : Res → σ → Bool × σ) (a : Assertion Res V) (s : σ) : Bool × σ :=
  let p := a.passed conv s
  (!p.1, p.2)

/-- `compare_result()`: `return compare_`. -/
def compare_result (a : Assertion Res V) : comparison.CompareHelper Res V :=
  a.compare_

/-- `where()`: `return line_info.where()`. -/
def where_ (a : Assertion Res V) : String :=
  a.line_info.where_

/-- `text()`: the name, followed by `" ( " + arg_text + " ) "` when `arg_text`
converts to true (a `StringView` is true when it is not empty). -/
def text (a : Assertion Res V) : String :=
  a.assertion_info.name ++ (if a.arg_text.length ≠ 0 then " ( " ++ a.arg_text ++ " ) " else "")

end Assertion

/-- The specialisation `Assertion<bool>`: the result is stored. -/
structure AssertionBool where
  result_ : AssertionResult
  assertion_info : TestInfo
  line_info : LineInfo
  arg_text : String
  deriving DecidableEq, Repr

namespace AssertionBool

/-- The default constructor `Assertion()`: result `INVALID`, empty name,
location and text. -/
def default : AssertionBool :=
  { result_ := AssertionResult.INVALID, assertion_info := ⟨""⟩, line_info := ⟨"", 0⟩,
    arg_text := "" }

/-- `Assertion(test_info, line_info, arg_text, eval)`:
`result_(eval ? AssertionResult::PASS : AssertionResult::FAIL)`. -/
def ofEval (test_info : TestInfo) (line_info : LineInfo) (arg_text : String) (eval : Bool) :
    AssertionBool :=
  { result_ := if eval then AssertionResult.PASS else AssertionResult.FAIL,
    assertion_info := test_info, line_info := line_info, arg_text := arg_text }

/-- `result()`: `return result_`. -/
def result (a : AssertionBool) : AssertionResult :=
  a.result_

/-- `passed()`: `return result() == AssertionResult::SUCCESS`. -/
def passed (a : AssertionBool) : Bool :=
  decide (a.result = AssertionResult.SUCCESS)

/-- `failed()`: `return result() == AssertionResult::FAIL`. -/
def failed (a : AssertionBool) : Bool :=
  decide (a.result = AssertionResult.FAIL)

/-- `operator bool()`: `return passed()`. -/
def opBool (a : AssertionBool) : Bool :=
  a.passed

/-- `operator!()`: `return !passed()`. -/
def opNot (a : AssertionBool) : Bool :=
  !a.passed

/-- `where()`: `return line_info.where()`. -/
def where_ (a : AssertionBool) : String :=
  a.line_info.where_

/-- `text()`: as for the primary template. -/
def text (a : AssertionBool) : String :=
  a.assertion_info.name ++ (if a.arg_text.length ≠ 0 then " ( " ++ a.arg_text ++ " ) " else "")

end AssertionBool

/-- `make_assertion(test_info, line_info, arg_text, eval)` for a `bool`. -/
def make_assertion_bool (test_info : TestInfo) (line_info : LineInfo) (arg_text : String)
    (eval : Bool) : AssertionBool :=
  AssertionBool.ofEval test_info line_info arg_text eval

/-! ## Tallies (`sstest_summary.h`, `sstest_summary.cpp`)

The counters are `size_t` in the source; they are natural numbers here, so
wrap-around after `2^64` increments is outside the model. -/

/-- `struct TestTotals`. -/
structure TestTotals where
  test_functions_total : Nat
  test_functions_ran : Nat
  test_functions_passed : Nat
  test_suites_total : Nat
  test_suites_ran : Nat
  test_suites_passed : Nat
  assertions_total : Nat
  assertions_ran : Nat
  assertions_passed : Nat
  deriving DecidableEq, Repr

namespace TestTotals

/-- `TestTotals::TestTotals()`: all counters zero. -/
def zero : TestTotals :=
  { test_functions_total := 0, test_functions_ran := 0, test_functions_passed := 0,
    test_suites_total := 0, test_suites_ran := 0, test_suites_passed := 0,
    assertions_total := 0, assertions_ran := 0, assertions_passed := 0 }

/-- `TestTotals::operator+`, field by field as written in the source. -/
def add (t rhs : TestTotals) : TestTotals :=
  { test_functions_total := t.test_functions_total + rhs.test_functions_total,
    test_functions_ran := t.test_functions_ran + rhs.test_functions_ran,
    test_functions_passed := t.test_functions_passed + rhs.test_functions_passed,
    test_suites_total := t.test_functions_total + rhs.test_functions_total,
    test_suites_ran := t.test_functions_ran + rhs.test_functions_ran,
    test_suites_passed := t.test_functions_passed + rhs.test_functions_passed,
    assertions_total := t.assertions_total + rhs.assertions_total,
    assertions_ran := t.assertions_total + rhs.assertions_total,
    assertions_passed := t.assertions_total + rhs.assertions_total }

/-- `TestTotals::allTestsPassed(pass_vacuous, pass_skipped)`. -/
def allTestsPassed (t : TestTotals) (pass_vacuous pass_skipped : Bool) : Bool :=
  if t.test_functions_ran = 0 then pass_vacuous
  else
    let total_counted := if pass_skipped then t.test_functions_ran else t.test_functions_total
    decide (total_counted = t.test_functions_passed)

/-- `TestTotals::allAssertionsPassed(pass_vacuous, pass_skipped)`. -/
def allAssertionsPassed (t : TestTotals) (pass_vacuous pass_skipped : Bool) : Bool :=
  if t.assertions_ran = 0 then pass_vacuous
  else
    let total_counted := if pass_skipped then t.assertions_ran else t.assertions_total
    decide (total_counted = t.assertions_passed)

/-- `TestTotals::validate()`. -/
def validate (t : TestTotals) : Bool :=
  decide (t.test_functions_total ≥ t.test_functions_ran) &&
  decide (t.test_functions_total ≥ t.test_functions_passed) &&
  decide (t.test_functions_ran ≥ t.test_functions_passed) &&
  decide (t.test_suites_total ≥ t.test_suites_ran) &&
  decide (t.test_suites_total ≥ t.test_suites_passed) &&
  decide (t.test_suites_ran ≥ t.test_suites_passed) &&
  decide (t.assertions_total ≥ t.assertions_ran) &&
  decide (t.assertions_total ≥ t.assertions_passed) &&
  decide (t.assertions_ran ≥ t.assertions_passed)

/-- The totals `t2` arise from `t` by counting `n` further assertions, `p` of
them passed, and nothing else. -/
def countedFrom (t t2 : TestTotals) : Prop :=
  ∃ n p : Nat, p ≤ n ∧
    t2 = { t with assertions_total := t.assertions_total + n,
                  assertions_ran := t.assertions_ran + n,
                  assertions_passed := t.assertions_passed + p }

/-- `TestTotals::reset()`: `*this = TestTotals()`. -/
def reset (_t : TestTotals) : TestTotals :=
  zero

end TestTotals

/-! ## Tests and suites (`sstest_test.h`, `sstest_test.cpp`) -/

/-- `enum class TestResult { INVALID = -1, FAIL = 0, SUCCESS = 1, THROW = 3, PASS = SUCCESS }`. -/
inductive TestResult where
  | INVALID
  | FAIL
  | SUCCESS
  | THROW
  deriving DecidableEq, Repr

/-- The enumerator `PASS = SUCCESS`. -/
abbrev TestResult.PASS : TestResult := TestResult.SUCCESS

/-- The `on_fail` argument of the assertion macros: `INTERNAL_SSTEST_EXIT`
(`return INTERNAL_SSTEST_MESSAGE()`) or `INTERNAL_SSTEST_CONTINUE`
(`INTERNAL_SSTEST_MESSAGE()`). -/
inductive OnFail where
  | EXIT
  | CONTINUE
  deriving DecidableEq, Repr

/-- Statements of a test body: a test body is a sequence of these.
`assertion` is an expansion of `INTERNAL_SSTEST_ASSERTION` (the `REQUIRE` and
`EXPECT` macros built on a `CompareHelper`), `assertionBool` one of
`INTERNAL_SSTEST_ASSERTION_BOOL` (`REQUIRE_TRUE`, `EXPECT_FALSE`, ...);
`on_fail` is `EXIT` for the `REQUIRE` family and `CONTINUE` for the `EXPECT`
family.  `failure` is `FAIL()`, `success` is `SUCCEED()`, and `throwException`
is any statement that throws. -/
inductive Stmt where
  | assertion (on_fail : OnFail) (a : Assertion Value Value)
  | assertionBool (on_fail : OnFail) (a : AssertionBool)
  | failure
  | success
  | throwException
  deriving DecidableEq, Repr

/-- `class TestInterface` (with `TestFunction` as its concrete class): name,
location, the body `invoker` and the result. -/
structure TestInterface where
  test_info : TestInfo
  line_info : LineInfo
  invoker : List Stmt
  result_ : TestResult
  deriving DecidableEq, Repr

namespace TestInterface

/-- `TestInterface(tinfo, linfo, test_callback)`: `result_(TestResult::INVALID)`. -/
def new (tinfo : TestInfo) (linfo : LineInfo) (test_callback : List Stmt) : TestInterface :=
  { test_info := tinfo, line_info := linfo, invoker := test_callback,
    result_ := TestResult.INVALID }

/-- `name()`: `return test_info.name`. -/
def name (t : TestInterface) : String :=
  t.test_info.name

/-- `ran()`: `return result_ != TestResult::INVALID`. -/
def ran (t : TestInterface) : Bool :=
  decide (t.result_ ≠ TestResult.INVALID)

/-- `passed()`: `return result_ == TestResult::PASS`. -/
def passed (t : TestInterface) : Bool :=
  decide (t.result_ = TestResult.PASS)

/-- `result()`: `return result_`. -/
def result (t : TestInterface) : TestResult :=
  t.result_

/-- `fail(bool fail)`: `result_ = (fail) ? TestResult::FAIL : result_`. -/
def fail (t : TestInterface) (fail : Bool) : TestInterface :=
  { t with result_ := if fail then TestResult.FAIL else t.result_ }

end TestInterface

/-- `class TestSuite`: `test_map` lists the owned tests in the iteration order
of the `std::unordered_map` (one entry per name). -/
structure TestSuite where
  test_map : List TestInterface
  test_info : TestInfo
  pass : Bool
  finished : Bool
  num_ran : Nat
  deriving DecidableEq, Repr

namespace TestSuite

/-- `TestSuite(tinfo)`: `pass(false), finished(false), num_ran(0)`. -/
def new (tinfo : TestInfo) : TestSuite :=
  { test_map := [], test_info := tinfo, pass := false, finished := false, num_ran := 0 }

/-- `clear()`. -/
def clear (s : TestSuite) : TestSuite :=
  { s with test_map := [], num_ran := 0, pass := false, finished := false }

/-- `empty()`: `return test_map.empty()`. -/
def empty (s : TestSuite) : Bool :=
  s.test_map.isEmpty

/-- `size()`: `return test_map.size()`. -/
def size (s : TestSuite) : Nat :=
  s.test_map.length

/-- `numTestsPassed()`: the loop `count += kv.second->passed() ? 1 : 0`. -/
def numTestsPassed (s : TestSuite) : Nat :=
  s.test_map.foldl (fun count t => count + (if t.passed then 1 else 0)) 0

/-- `numTestsRan()`: `return num_ran`. -/
def numTestsRan (s : TestSuite) : Nat :=
  s.num_ran

/-- `name()`: `return test_info.name`. -/
def name (s : TestSuite) : String :=
  s.test_info.name

/-- `ran()`: `return finished`. -/
def ran (s : TestSuite) : Bool :=
  s.finished

/-- `passed()`: `return pass`. -/
def passed (s : TestSuite) : Bool :=
  s.pass

/-- `addTest(test)`: stores a clone under the name of the test when the name is
not in the map, and throws `InvalidArgument` otherwise. -/
def addTest (s : TestSuite) (test : TestInterface) : Except String TestSuite :=
  match s.test_map.find? (fun t => decide (t.name = test.name)) with
  | none => .ok { s with test_map := s.test_map ++ [test] }
  | some _ => .error (test.name ++ " already exists")

/-- `getTest(name)`: the test stored under `name`, or `InvalidArgument`. -/
def getTest (s : TestSuite) (name : String) : Except String TestInterface :=
  match s.test_map.find? (fun t => decide (t.name = name)) with
  | some t => .ok t
  | none => .error (name ++ " is not defined")

end TestSuite

/-- `struct TestSummary`: wraps the private member `totals`. -/
structure TestSummary where
  totals : TestTotals
  deriving DecidableEq, Repr

namespace TestSummary

/-- `TestSummary()`: the totals are zero-initialised. -/
def blank : TestSummary :=
  { totals := TestTotals.zero }

/-- `TestSummary(suites)`: `test_suites_total = suites.size()` and
`test_functions_total += suite->size()` for each suite. -/
def ofSuites (suites : List TestSuite) : TestSummary :=
  { totals :=
      suites.foldl
        (fun totals suite =>
          { totals with test_functions_total := totals.test_functions_total + suite.size })
        { TestTotals.zero with test_suites_total := suites.length } }

/-- `reset()`: `totals.reset()`. -/
def reset (sm : TestSummary) : TestSummary :=
  { totals := sm.totals.reset }

/-- `getTotals()`: `return totals`. -/
def getTotals (sm : TestSummary) : TestTotals :=
  sm.totals

/-- `operator+`: `ret.totals = this->totals + rhs.totals`. -/
def add (sm rhs : TestSummary) : TestSummary :=
  { totals := sm.totals.add rhs.totals }

/-- `addTestSuiteResult(suite)`. -/
def addTestSuiteResult (sm : TestSummary) (suite : TestSuite) : TestSummary :=
  let t1 := { sm.totals with
    test_suites_passed := sm.totals.test_suites_passed + (if suite.passed then 1 else 0) }
  let t2 := { t1 with test_suites_ran := t1.test_suites_ran + 1 }
  let t3 := { t2 with test_functions_passed := t2.test_functions_passed + suite.numTestsPassed }
  { totals := { t3 with test_functions_ran := t3.test_functions_ran + suite.numTestsRan } }

/-- The body of `addAssertionResult` once `assertion.passed()` is known:
`if (passed) totals.assertions_passed++; totals.assertions_total++;
totals.assertions_ran++`. -/
def countAssertion (sm : TestSummary) (passed : Bool) : TestSummary :=
  let t1 := if passed then { sm.totals with assertions_passed := sm.totals.assertions_passed + 1 }
    else sm.totals
  let t2 := { t1 with assertions_total := t1.assertions_total + 1 }
  { totals := { t2 with assertions_ran := t2.assertions_ran + 1 } }

/-- `addAssertionResult(assertion)` for an `Assertion<Types...>`. -/
def addAssertionResult {σ : Type} (conv : Value → σ → Bool × σ) (sm : TestSummary)
    (assertion : Assertion Value Value) (s : σ) : TestSummary × σ :=
  let p := assertion.passed conv s
  (sm.countAssertion p.1, p.2)

/-- `addAssertionResult(assertion)` for an `Assertion<bool>`. -/
def addAssertionResultBool (sm : TestSummary) (assertion : AssertionBool) : TestSummary :=
  sm.countAssertion assertion.passed

end TestSummary

/-! ## Reporter and runner (`sstest_runner.h`, `sstest_runner.cpp`)

Only the output of assertion reports is modelled: a `Logger` is the sequence
of write operations made on its stream, without colours; the banners of
tests, suites and the global summary are left out. -/

/-- One write operation on a `Logger`; `writeLineValue v` stands for
`writeLine(formatTypeAsString(v))`. -/
inductive LogItem where
  | write (s : String)
  | writeLine (s : String)
  | writeLineValue (v : Value)
  | tab
  deriving DecidableEq, Repr

/-- `class Logger`: the operations written to `out`, oldest first. -/
structure Logger where
  out : List LogItem
  deriving DecidableEq, Repr

namespace Logger

/-- `write(str)`. -/
def write (l : Logger) (str : String) : Logger :=
  { out := l.out ++ [LogItem.write str] }

/-- `writeLine(str)`. -/
def writeLine (l : Logger) (str : String) : Logger :=
  { out := l.out ++ [LogItem.writeLine str] }

/-- `writeLine(formatTypeAsString(v))`. -/
def writeLineValue (l : Logger) (v : Value) : Logger :=
  { out := l.out ++ [LogItem.writeLineValue v] }

/-- `tab()`. -/
def tab (l : Logger) : Logger :=
  { out := l.out ++ [LogItem.tab] }

end Logger

/-- `struct TestRunner::Configuration`. -/
structure Configuration where
  show_assertion_pass : Bool
  show_assertion_fail : Bool
  expand_args_assertion_pass : Bool
  expand_args_assertion_fail : Bool
  max_assertions : Nat
  max_tests : Nat
  deriving DecidableEq, Repr

/-- `Configuration::default_settings = Configuration(false, true, false, true)`. -/
def Configuration.default_settings : Configuration :=
  { show_assertion_pass := false, show_assertion_fail := true,
    expand_args_assertion_pass := false, expand_args_assertion_fail := true,
    max_assertions := 0, max_tests := 0 }

/-- `class TestRunner::Reporter`: the loggers.  Its member `settings` is a
reference to the settings of the runner and is passed as an argument. -/
structure Reporter where
  loggers : List Logger
  deriving DecidableEq, Repr

namespace Reporter

/-- `tuplePrinter<Tuple, N>::print`: for `N = 0` nothing; otherwise
`tuplePrinter<Tuple, N - 1>::print(logger, tup)` followed by
`logger.writeLine(formatTypeAsString(std::get<N - 1>(tup)))`. -/
def tuplePrinter : Nat → Logger → List Value → Logger
  | 0, logger, _ => logger
  | N + 1, logger, tup =>
    let logger1 := tuplePrinter N logger tup
    match tup[N]? with
    | some v => logger1.writeLineValue v
    | none => logger1

/-- `printComparison(logger, compare)`. -/
def printComparison (logger : Logger) (compare : comparison.CompareHelper Value Value) : Logger :=
  let l1 := logger.writeLine "evaluated to:"
  let l2 := l1.writeLineValue compare.result
  let l3 := l2.writeLine "with arguments:"
  tuplePrinter compare.args.length l3 compare.args

/-- The banner line chosen by the `switch` of `printAssertionResult`. -/
def banner : AssertionResult → String
  | .SUCCESS => "assertion passed:"
  | .FAIL => "assertion failed:"
  | .INVALID => "invalid assertion result:"

/-- `printAssertionResult(logger, assertion)` for an `Assertion<Args...>`. -/
def printAssertionResult {σ : Type} (conv : Value → σ → Bool × σ) (logger : Logger)
    (assertion : Assertion Value Value) (s : σ) : Logger × σ :=
  let l1 := logger.write (assertion.where_ ++ ": ")
  let r := assertion.result conv s
  let l2 := l1.writeLine (banner r.1)
  let l3 := l2.tab
  (l3.writeLine assertion.text, r.2)

/-- `printAssertionResult(logger, assertion)` for an `Assertion<bool>`. -/
def printAssertionResultBool (logger : Logger) (assertion : AssertionBool) : Logger :=
  let l1 := logger.write (assertion.where_ ++ ": ")
  let l2 := l1.writeLine (banner assertion.result)
  let l3 := l2.tab
  l3.writeLine assertion.text

/-- The lambda that `reportAssertion(const Assertion<Args...>&)` runs for each
logger. -/
def reportAssertionTo {σ : Type} (conv : Value → σ → Bool × σ) (settings : Configuration)
    (assertion : Assertion Value Value) (logger : Logger) (s : σ) : Logger × σ :=
  let r := assertion.result conv s
  let print_result :=
    match r.1 with
    | .SUCCESS => settings.show_assertion_pass
    | .FAIL => settings.show_assertion_fail
    | .INVALID => true
  let print_args :=
    match r.1 with
    | .SUCCESS => settings.expand_args_assertion_pass
    | .FAIL => settings.expand_args_assertion_fail
    | .INVALID => false
  let p := if print_result then printAssertionResult conv logger assertion r.2 else (logger, r.2)
  if print_args then (printComparison p.1 assertion.compare_result, p.2) else p

/-- The lambda that `reportAssertion(const Assertion<bool>&)` runs for each
logger. -/
def reportAssertionBoolTo (settings : Configuration) (assertion : AssertionBool)
    (logger : Logger) : Logger :=
  let print_result :=
    match assertion.result with
    | .SUCCESS => settings.show_assertion_pass
    | .FAIL => settings.show_assertion_fail
    | .INVALID => true
  if print_result then printAssertionResultBool logger assertion else logger

/-- `forEachLogger(func)` for a function with a side effect on `σ`: the
loggers are visited in order. -/
def forEachLoggerM {σ : Type} (func : Logger → σ → Logger × σ) : List Logger → σ → List Logger × σ
  | [], s => ([], s)
  | logger :: rest, s =>
    let l := func logger s
    let ls := forEachLoggerM func rest l.2
    (l.1 :: ls.1, ls.2)

/-- `reportAssertion(assertion)` for an `Assertion<Args...>`. -/
def reportAssertion {σ : Type} (conv : Value → σ → Bool × σ) (rep : Reporter)
    (settings : Configuration) (assertion : Assertion Value Value) (s : σ) : Reporter × σ :=
  let ls := forEachLoggerM (reportAssertionTo conv settings assertion) rep.loggers s
  ({ loggers := ls.1 }, ls.2)

/-- `reportAssertion(assertion)` for an `Assertion<bool>`. -/
def reportAssertionBool (rep : Reporter) (settings : Configuration) (assertion : AssertionBool) :
    Reporter :=
  { loggers := rep.loggers.map (reportAssertionBoolTo settings assertion) }

/-- `reportExplicitFailure()`: each logger receives `"explicit failure"` and a
newline. -/
def reportExplicitFailure (rep : Reporter) : Reporter :=
  { loggers := rep.loggers.map (fun logger => logger.write "explicit failure\n") }

end Reporter

/-- `class TestRunner`: the members used when assertions are reported and
tests are run.  `curr_test` holds the test object that the pointer `curr_test`
points at (`none` for `nullptr`). -/
structure TestRunner where
  curr_test : Option TestInterface
  test_summary : TestSummary
  settings : Configuration
  reporter_ : Reporter
  deriving DecidableEq, Repr

namespace TestRunner

/-- `curr_test->fail()`. -/
def failCurrent (r : TestRunner) : TestRunner :=
  { r with curr_test := r.curr_test.map (fun t => t.fail true) }

/-- `reportAssertion(assertion)` for an `Assertion<Args...>`:
`reporter_->reportAssertion(assertion); test_summary.addAssertionResult(assertion);
if (assertion.failed()) curr_test->fail(); return assertion`. -/
def reportAssertion {σ : Type} (conv : Value → σ → Bool × σ) (r : TestRunner)
    (assertion : Assertion Value Value) (s : σ) : TestRunner × σ :=
  let rep := r.reporter_.reportAssertion conv r.settings assertion s
  let sm := r.test_summary.addAssertionResult conv assertion rep.2
  let r1 := { r with reporter_ := rep.1, test_summary := sm.1 }
  let f := assertion.failed conv sm.2
  (if f.1 then r1.failCurrent else r1, f.2)

/-- `reportAssertion(assertion)` for an `Assertion<bool>`. -/
def reportAssertionBool (r : TestRunner) (assertion : AssertionBool) : TestRunner :=
  let r1 := { r with
    reporter_ := r.reporter_.reportAssertionBool r.settings assertion,
    test_summary := r.test_summary.addAssertionResultBool assertion }
  if assertion.failed then r1.failCurrent else r1

/-- `explicitFailure()`: `reporter_->reportExplicitFailure(); curr_test->fail()`. -/
def explicitFailure (r : TestRunner) : TestRunner :=
  { r with reporter_ := r.reporter_.reportExplicitFailure }.failCurrent

end TestRunner

/-- Conversion to `bool` of the results of the assertions written in test
bodies: built-in values, without side effect. -/
def bodyConv : Value → Unit → Bool × Unit :=
  comparison.pureConv Value.toBool

/-- Execution of a test body, the call `invoker()`: the runner afterwards, and
whether an exception left the body.  An assertion statement is
`if (!runner.reportAssertion(make_assertion(...))) on_fail()`, where
`INTERNAL_SSTEST_EXIT` returns from the test function and
`INTERNAL_SSTEST_CONTINUE` does not; `FAIL()` is `explicitFailure()` followed by
a return, and `SUCCEED()` is a return. -/
def execBody : List Stmt → TestRunner → TestRunner × Bool
  | [], r => (r, false)
  | Stmt.assertion on_fail a :: rest, r =>
    let r1 := (r.reportAssertion bodyConv a ()).1
    if (a.opNot bodyConv ()).1 then
      match on_fail with
      | OnFail.EXIT => (r1, false)
      | OnFail.CONTINUE => execBody rest r1
    else execBody rest r1
  | Stmt.assertionBool on_fail a :: rest, r =>
    let r1 := r.reportAssertionBool a
    if a.opNot then
      match on_fail with
      | OnFail.EXIT => (r1, false)
      | OnFail.CONTINUE => execBody rest r1
    else execBody rest r1
  | Stmt.failure :: _, r => (r.explicitFailure, false)
  | Stmt.success :: _, r => (r, false)
  | Stmt.throwException :: _, r => (r, true)

namespace Stmt

/-- The statement is an assertion macro. -/
def isAssertion : Stmt → Bool
  | assertion _ _ => true
  | assertionBool _ _ => true
  | _ => false

/-- The statement is of the `REQUIRE` family (`on_fail` is
`INTERNAL_SSTEST_EXIT`). -/
def isRequire : Stmt → Bool
  | assertion on_fail _ => decide (on_fail = OnFail.EXIT)
  | assertionBool on_fail _ => decide (on_fail = OnFail.EXIT)
  | _ => false

/-- The statement is of the `EXPECT` family (`on_fail` is
`INTERNAL_SSTEST_CONTINUE`). -/
def isExpect : Stmt → Bool
  | assertion on_fail _ => decide (on_fail = OnFail.CONTINUE)
  | assertionBool on_fail _ => decide (on_fail = OnFail.CONTINUE)
  | _ => false

/-- The assertion of the statement passes. -/
def passes : Stmt → Bool
  | assertion _ a => (a.passed bodyConv ()).1
  | assertionBool _ a => a.passed
  | _ => false

/-- The report of the assertion of the statement to the runner, the call
`reportAssertion(make_assertion(...))`. -/
def report (r : TestRunner) : Stmt → TestRunner
  | assertion _ a => (r.reportAssertion bodyConv a ()).1
  | assertionBool _ a => r.reportAssertionBool a
  | _ => r

end Stmt

/-- The runner after the assertions of `stmts` have been reported in order. -/
def reportAll (stmts : List Stmt) (r : TestRunner) : TestRunner :=
  stmts.foldl Stmt.report r

/-- The statement `REQUIRE_TRUE(x)` at line `line`, when `x` evaluates to
`eval`. -/
def REQUIRE_TRUE (line : Nat) (eval : Bool) : Stmt :=
  Stmt.assertionBool OnFail.EXIT
    (make_assertion_bool ⟨"REQUIRE_TRUE"⟩ ⟨"test.cpp", line⟩ "x" eval)

/-- The statement `EXPECT_TRUE(x)` at line `line`, when `x` evaluates to
`eval`. -/
def EXPECT_TRUE (line : Nat) (eval : Bool) : Stmt :=
  Stmt.assertionBool OnFail.CONTINUE
    (make_assertion_bool ⟨"EXPECT_TRUE"⟩ ⟨"test.cpp", line⟩ "x" eval)

/-- The statement `REQUIRE(a == b)` at line `line` for integers `a` and `b`. -/
def REQUIRE_EQ (line : Nat) (a b : Int) : Stmt :=
  Stmt.assertion OnFail.EXIT
    (make_assertion ⟨"REQUIRE"⟩ ⟨"test.cpp", line⟩ "a == b"
      (comparison.chain comparison.builtin (.int a) [(comparison.BinOp.eq, .int b)]))

/-- `TestInterface::runTestHelper(test)`: `try { test.invoker(); }` with both
handlers setting `test.result_ = TestResult::THROW`.  While the body runs,
`curr_test`, when it is not `nullptr`, points at `test` (the start callback of
the runner has just set it), so `curr_test->fail()` acts on `test`. -/
def TestInterface.runTestHelper (test : TestInterface) (r : TestRunner) :
    TestInterface × TestRunner :=
  let r0 := { r with curr_test := r.curr_test.map (fun _ => test) }
  let out := execBody test.invoker r0
  let test1 := out.1.curr_test.getD test
  let test2 := if out.2 then { test1 with result_ := TestResult.THROW } else test1
  (test2, { out.1 with curr_test := out.1.curr_test.map (fun _ => test2) })

/-- `TestFunction::run()`: `result_ = TestResult::PASS; runTestHelper(*this)`. -/
def TestFunction.run (test : TestInterface) (r : TestRunner) : TestInterface × TestRunner :=
  TestInterface.runTestHelper { test with result_ := TestResult.PASS } r

/-- A callback `sstest_callback`, with its effect on the runner. -/
abbrev sstest_callback := TestInterface → TestRunner → TestRunner

/-- `TestSuite::runSingleTestHelper(test, start_cb, finish_cb)`:
`if (start_cb) start_cb(test); test.run(); if (finish_cb) finish_cb(test)`. -/
def TestSuite.runSingleTestHelper (test : TestInterface)
    (start_cb finish_cb : Option sstest_callback) (r : TestRunner) : TestInterface × TestRunner :=
  let r1 := match start_cb with
    | some cb => cb test r
    | none => r
  let out := TestFunction.run test r1
  let r2 := match finish_cb with
    | some cb => cb out.1 out.2
    | none => out.2
  (out.1, r2)

/-- The variables of the loop of `TestSuite::run`. -/
structure RunLoop where
  tests : List TestInterface
  pass : Bool
  num_ran : Nat
  deriving DecidableEq, Repr

/-- The loop of `TestSuite::run` over the tests still to run:
`curr_pass = runSingleTestHelper(*child, ...).passed(); pass = pass && curr_pass;
num_ran++`. -/
def TestSuite.runLoop (start_cb finish_cb : Option sstest_callback) :
    List TestInterface → Bool → Nat → TestRunner → RunLoop × TestRunner
  | [], pass, num_ran, r => ({ tests := [], pass := pass, num_ran := num_ran }, r)
  | child :: rest, pass, num_ran, r =>
    let out := TestSuite.runSingleTestHelper child start_cb finish_cb r
    let curr_pass := out.1.passed
    let tail := TestSuite.runLoop start_cb finish_cb rest (pass && curr_pass) (num_ran + 1) out.2
    ({ tail.1 with tests := out.1 :: tail.1.tests }, tail.2)

/-- `TestSuite::run(start_cb, finish_cb)` with the default `cmp = nullptr` (the
tests run in the iteration order of the map): `num_ran = 0; pass = true;` the
loop; `finished = true`. -/
def TestSuite.run (suite : TestSuite) (start_cb finish_cb : Option sstest_callback)
    (r : TestRunner) : TestSuite × TestRunner :=
  let out := TestSuite.runLoop start_cb finish_cb suite.test_map true 0 r
  ({ suite with test_map := out.1.tests, pass := out.1.pass, num_ran := out.1.num_ran,
                finished := true }, out.2)

namespace TestRunner

/-- `TestRunner()`: `curr_test(nullptr)`, the default settings, a reporter with
the logger on `std::cout` and the logger on `test.log`, and a blank summary. -/
def initial : TestRunner :=
  { curr_test := none, test_summary := TestSummary.blank,
    settings := Configuration.default_settings,
    reporter_ := { loggers := [{ out := [] }, { out := [] }] } }

/-- The start callback of `runTestCasesHelper`:
`curr_test = &test; this->settings = config`. -/
def startCallback (config : Configuration) : sstest_callback :=
  fun test r => { r with curr_test := some test, settings := config }

/-- The finish callback of `runTestCasesHelper`: `curr_test = nullptr`. -/
def finishCallback : sstest_callback :=
  fun _ r => { r with curr_test := none }

/-- The loop of `runTestCasesHelper` over the suites:
`suite->run(start, finish); curr_test = nullptr;
test_summary.addTestSuiteResult(*suite)`. -/
def runSuites (config : Configuration) : List TestSuite → TestRunner → List TestSuite × TestRunner
  | [], r => ([], r)
  | suite :: rest, r =>
    let out := suite.run (some (startCallback config)) (some finishCallback) r
    let r1 := { out.2 with curr_test := none }
    let r2 := { r1 with test_summary := r1.test_summary.addTestSuiteResult out.1 }
    let tail := runSuites config rest r2
    (out.1 :: tail.1, tail.2)

/-- `runTestCasesHelper(suites)`: `test_summary = TestSummary(suites)`, the
loop over the suites, and `return test_summary`. -/
def runTestCasesHelper (r : TestRunner) (suites : List TestSuite) :
    TestSummary × List TestSuite × TestRunner :=
  let r1 := { r with test_summary := TestSummary.ofSuites suites }
  let out := runSuites r1.settings suites r1
  (out.2.test_summary, out.1, out.2)

end TestRunner

/-! ## Comparator primitives over several arguments (`sstest_compare.h`)

A parameter pack `first, next, rest...` is the first argument, and the list of
those that follow it.  The result of a predicate is converted to `bool` by the
built-in `&&`, with the conversion `conv` of the result type. -/

namespace comparison

/-- `not_equal(lhs, rhs)`: `return lhs != rhs`. -/
def not_equal {V : Type} (N : NativeOps V) (lhs rhs : V) : V := N.ne lhs rhs

/-- `less(lhs, rhs)`: `return lhs < rhs`. -/
def less {V : Type} (N : NativeOps V) (lhs rhs : V) : V := N.lt lhs rhs

/-- `greater(lhs, rhs)`: `return lhs > rhs`. -/
def greater {V : Type} (N : NativeOps V) (lhs rhs : V) : V := N.gt lhs rhs

/-- `less_equal(lhs, rhs)`: `return lhs <= rhs`. -/
def less_equal {V : Type} (N : NativeOps V) (lhs rhs : V) : V := N.le lhs rhs

/-- `greater_equal(lhs, rhs)`: `return lhs >= rhs`. -/
def greater_equal {V : Type} (N : NativeOps V) (lhs rhs : V) : V := N.ge lhs rhs

/-- `all(t)`, the overload for one argument: `return bool(t)`. -/
def all1 {V : Type} (conv : V → Bool) (t : V) : Bool := conv t

/-- `all(first, next, rest...)`: `return all(first) && all(next, rest...)`; with
no further argument it is the overload for one argument. -/
def all {V : Type} (conv : V → Bool) : V → List V → Bool
  | t, [] => all1 conv t
  | first, next :: rest => all1 conv first && all conv next rest

/-- `any(t)`, the overload for one argument: `return bool(t)`. -/
def any1 {V : Type} (conv : V → Bool) (t : V) : Bool := conv t

/-- `any(first, next, rest...)`: `return any(first) || any(next, rest...)`; with
no further argument it is the overload for one argument. -/
def any {V : Type} (conv : V → Bool) : V → List V → Bool
  | t, [] => any1 conv t
  | first, next :: rest => any1 conv first || any conv next rest

/-- `approx_equal(lhs, rhs, del)`: `return std::abs(rhs - lhs) <= del`, over
exact numbers (an ordered additive group, such as the integers or the
rationals). -/
def approx_equal {α : Type} [LinearOrderedAddCommGroup α] (lhs rhs del : α) : Bool :=
  decide (|rhs - lhs| ≤ del)

namespace internal

variable {V : Type}

/-- `binary_ncompare_first(pred, first, rest...)`: `true` for one argument,
otherwise `pred(first, next) && binary_ncompare_first(pred, first, rest...)`. -/
def binary_ncompare_first (conv : V → Bool) (pred : V → V → V) : V → List V → Bool
  | _, [] => true
  | first, next :: rest =>
    conv (pred first next) && binary_ncompare_first conv pred first rest

/-- `binary_ncompare_adjacent(pred, first, rest...)`: `true` for one argument,
otherwise `pred(first, next) && binary_ncompare_adjacent(pred, next, rest...)`. -/
def binary_ncompare_adjacent (conv : V → Bool) (pred : V → V → V) : V → List V → Bool
  | _, [] => true
  | first, next :: rest =>
    conv (pred first next) && binary_ncompare_adjacent conv pred next rest

/-- `binary_ncompare_each(pred, first, rest...)`: `true` for one argument,
otherwise `binary_ncompare_first(pred, first, next, rest...) &&
binary_ncompare_each(pred, next, rest...)`. -/
def binary_ncompare_each (conv : V → Bool) (pred : V → V → V) : V → List V → Bool
  | _, [] => true
  | first, next :: rest =>
    binary_ncompare_first conv pred first (next :: rest) &&
      binary_ncompare_each conv pred next rest

end internal

section variadic

variable {V : Type}

/-- `all_equal_first(first, next, rest...)`:
`binary_ncompare_first(equal_object(), first, next, rest...)`. -/
def all_equal_first (conv : V → Bool) (N : NativeOps V) (first next : V) (rest : List V) : Bool :=
  internal.binary_ncompare_first conv (equal N) first (next :: rest)

/-- `all_equal_each(first, next, rest...)`:
`binary_ncompare_each(equal_object(), first, next, rest...)`. -/
def all_equal_each (conv : V → Bool) (N : NativeOps V) (first next : V) (rest : List V) : Bool :=
  internal.binary_ncompare_each conv (equal N) first (next :: rest)

/-- `ascending(first, next, rest...)`:
`binary_ncompare_adjacent(less_equal_object(), first, next, rest...)`. -/
def ascending (conv : V → Bool) (N : NativeOps V) (first next : V) (rest : List V) : Bool :=
  internal.binary_ncompare_adjacent conv (less_equal N) first (next :: rest)

/-- `descending(first, next, rest...)`:
`binary_ncompare_adjacent(greater_equal_object(), first, next, rest...)`. -/
def descending (conv : V → Bool) (N : NativeOps V) (first next : V) (rest : List V) : Bool :=
  internal.binary_ncompare_adjacent conv (greater_equal N) first (next :: rest)

/-- `strictly_ascending(first, next, rest...)`:
`binary_ncompare_adjacent(less_object(), first, next, rest...)`. -/
def strictly_ascending (conv : V → Bool) (N : NativeOps V) (first next : V) (rest : List V) :
    Bool :=
  internal.binary_ncompare_adjacent conv (less N) first (next :: rest)

/-- `strictly_descending(first, next, rest...)`:
`binary_ncompare_adjacent(greater_object(), first, next, rest...)`. -/
def strictly_descending (conv : V → Bool) (N : NativeOps V) (first next : V) (rest : List V) :
    Bool :=
  internal.binary_ncompare_adjacent conv (greater N) first (next :: rest)

end variadic

/-- An operand type whose `==` is symmetric but not transitive: two integers
compare equal when they differ by at most `1`.  The other operators are the
built-in ones. -/
def nearlyEqual : NativeOps Value :=
  { builtin with eq := fun a b => .bool (decide (|a.toInt - b.toInt| ≤ 1)) }

end comparison

/-! ## Example suites -/

/-- A test function with an empty body, as `[]() {}` in `test_summary.cpp`. -/
def passingTest (name : String) : TestInterface :=
  TestInterface.new ⟨name⟩ ⟨"", 0⟩ []

/-- A test function whose body throws, as the second test of suite `A` in
`test_summary_multi_test` (its `getTest("A")` throws `InvalidArgument`). -/
def throwingTest (name : String) : TestInterface :=
  TestInterface.new ⟨name⟩ ⟨"", 0⟩ [Stmt.throwException]

/-- A test function whose body is `FAIL();`. -/
def failingTest (name : String) : TestInterface :=
  TestInterface.new ⟨name⟩ ⟨"", 0⟩ [Stmt.failure]

/-- Suite `A` of `test_summary_multi_test` once its two tests have been added:
one test with an empty body and one whose body throws. -/
def suiteOnePassOneThrow : TestSuite :=
  { test_map := [passingTest "1", throwingTest "2"], test_info := ⟨"A"⟩, pass := false,
    finished := false, num_ran := 0 }

/-- A suite with one test with an empty body and one test whose body is
`FAIL();`. -/
def suiteOnePassOneFail : TestSuite :=
  { test_map := [passingTest "1", failingTest "2"], test_info := ⟨"A"⟩, pass := false,
    finished := false, num_ran := 0 }

/-- The nine counters of a `TestTotals`, in declaration order. -/
def TestTotals.counters (t : TestTotals) : List Nat :=
  [t.test_functions_total, t.test_functions_ran, t.test_functions_passed,
   t.test_suites_total, t.test_suites_ran, t.test_suites_passed,
   t.assertions_total, t.assertions_ran, t.assertions_passed]

/-- The totals of `test_summary_multi_test` after the result of suite `B` has
been added: three test functions in two suites, of which one has run and
passed. -/
def totalsOneOfThreeRan : TestTotals :=
  { TestTotals.zero with
      test_functions_total := 3, test_functions_ran := 1, test_functions_passed := 1,
      test_suites_total := 2, test_suites_ran := 1, test_suites_passed := 1 }

/-! ## Calls of `fail()` made by a test body -/

/-- The statement, when executed, calls `curr_test->fail()`: an assertion
statement whose assertion `failed()` (through `TestRunner::reportAssertion`), or
`FAIL()` (through `TestRunner::explicitFailure`). -/
def Stmt.callsFail : Stmt → Bool
  | Stmt.assertion _ a => (a.failed bodyConv ()).1
  | Stmt.assertionBool _ a => a.failed
  | Stmt.failure => true
  | Stmt.success => false
  | Stmt.throwException => false

/-- Execution goes on with the next statement after this one: an assertion
statement that passes or that is of the `EXPECT` family. -/
def Stmt.continues (st : Stmt) : Bool :=
  st.isAssertion && (st.passes || st.isExpect)

/-- The execution of the body reaches a statement that calls
`curr_test->fail()`. -/
def callsFail : List Stmt → Bool
  | [] => false
  | st :: rest => st.callsFail || (st.continues && callsFail rest)

/-- A test function whose body is `EXPECT_TRUE(false);` followed by a statement
that throws. -/
def expectThenThrowTest (name : String) : TestInterface :=
  TestInterface.new ⟨name⟩ ⟨"", 0⟩ [EXPECT_TRUE 1 false, Stmt.throwException]

/-- A suite whose first test throws and whose second test has an empty body. -/
def suiteOneThrowOnePass : TestSuite :=
  { test_map := [throwingTest "1", passingTest "2"], test_info := ⟨"A"⟩, pass := false,
    finished := false, num_ran := 0 }

/-! ## The registry (`sstest_registry.h`, `sstest_registry.cpp`) -/

/-- `class TestRegistry`: `test_map` lists the owned suites in the iteration
order of the `std::unordered_map`, each stored under its name. -/
structure TestRegistry where
  test_map : List TestSuite
  deriving DecidableEq, Repr

namespace TestRegistry

/-- `TestRegistry()`: `test_map[""] = new TestSuite(TestInfo(""))`. -/
def new : TestRegistry :=
  { test_map := [TestSuite.new ⟨""⟩] }

/-- `clear()`: every suite is deleted and the map is cleared. -/
def clear (_reg : TestRegistry) : TestRegistry :=
  { test_map := [] }

/-- `getDefaultTestCase()`: the suite stored under the empty name (`none` stands
for the null pointer that `test_map[""]` yields when there is none). -/
def getDefaultTestCase (reg : TestRegistry) : Option TestSuite :=
  reg.test_map.find? (fun suite => decide (suite.name = ""))

/-- `getTestCase(name)`: throws `InvalidArgument` when `name.empty()`; otherwise
returns the suite found under `name`, or a new `TestSuite(TestInfo(name))` that
it stores under `name`.  The result is the suite returned and the registry
after the call. -/
def getTestCase (reg : TestRegistry) (name : String) : Except String (TestSuite × TestRegistry) :=
  if name.length = 0 then .error "Test Group \"\" is reserved for default"
  else
    match reg.test_map.find? (fun suite => decide (suite.name = name)) with
    | none =>
      let test_case := TestSuite.new ⟨name⟩
      .ok (test_case, { test_map := reg.test_map ++ [test_case] })
    | some test_case => .ok (test_case, reg)

/-- `getTestCases(include_empty)` with the default `cmp = nullptr`: the suites
of the map, without the empty ones unless `include_empty`. -/
def getTestCases (reg : TestRegistry) (include_empty : Bool) : List TestSuite :=
  reg.test_map.filter (fun suite => include_empty || !suite.empty)

/-- The registry after a call of `getTestCase(name)`, whether it returned or
threw. -/
def afterGetTestCase (reg : TestRegistry) (name : String) : TestRegistry :=
  match reg.getTestCase name with
  | .ok out => out.2
  | .error _ => reg

/-- The registry after the calls `getTestCase(name)` for the names of `names`,
in order, starting from a newly constructed registry. -/
def afterCalls (names : List String) : TestRegistry :=
  names.foldl afterGetTestCase TestRegistry.new

end TestRegistry

end sstest

/-! ## Exit code (`sstest_run.h`, `sstest_run.cpp`) -/

namespace testing

/-- `SSTEST_SUCCESS`, defined as `EXIT_SUCCESS` of `<cstdlib>`: `0`. -/
def SSTEST_SUCCESS : Int := 0

/-- `SSTEST_FAILURE`, defined as `EXIT_FAILURE` of `<cstdlib>`: `1`. -/
def SSTEST_FAILURE : Int := 1

/-- `ExitCode(totals)`:
`return totals.allTestsPassed() ? SSTEST_SUCCESS : SSTEST_FAILURE`, where the
default arguments of `allTestsPassed` are `pass_vacuous = true` and
`pass_skipped = false`. -/
def ExitCode (totals : sstest.TestTotals) : Int :=
  if totals.allTestsPassed true false then SSTEST_SUCCESS else SSTEST_FAILURE

end testing

/-! ## Examples for the claims on invalid assertions, totals and sticky failure -/

namespace sstest

/-- A test whose body reports a default-constructed `Assertion<bool>` (result
`INVALID`) through a statement of the `EXPECT` family. -/
def invalidAssertionTest (name : String) : TestInterface :=
  TestInterface.new ⟨name⟩ ⟨"", 0⟩ [Stmt.assertionBool OnFail.CONTINUE AssertionBool.default]

/-- The totals after one assertion ran and failed: `assertions_total = 1`,
`assertions_ran = 1`, `assertions_passed = 0`, the other counters `0`. -/
def totalsOneAssertionFailed : TestTotals :=
  { TestTotals.zero with assertions_total := 1, assertions_ran := 1 }

/-- A test whose body is `EXPECT_TRUE(false); EXPECT_TRUE(true);`. -/
def expectFailThenPassTest (name : String) : TestInterface :=
  TestInterface.new ⟨name⟩ ⟨"", 0⟩ [EXPECT_TRUE 1 false, EXPECT_TRUE 2 true]

/-! ## `sstest_utility.h` and `sstest_string.h`

A `const char*` is the list of the `char` values from the position pointed at
to the end of the array; `&p[k]` is `p.drop k`.  A `char` value is an integer
(in `-128..127` where `char` is signed, in `0..255` where it is unsigned).
Reading past the end of the array, undefined in C++, reads `0` here.
`size_t` is `Nat`. -/

/-- `min(lhs, rhs)`: `lhs < rhs ? lhs : rhs`, at `size_t`. -/
def min (lhs rhs : Nat) : Nat :=
  if lhs < rhs then lhs else rhs

/-- `cstrlen(str)`: `(*str == 0) ? 0 : 1 + cstrlen(&str[1])`. -/
def cstrlen : List Int → Nat
  | [] => 0
  | c :: rest => if c = 0 then 0 else 1 + cstrlen rest

/-- `cmemcmp(lhs, rhs, n)`: `0` when `n == 0`, `-1` when `lhs[0] < rhs[0]`, `1`
when `lhs[0] > rhs[0]` (both compared as `char`), and otherwise
`cmemcmp(&lhs[1], &rhs[1], n - 1)`. -/
def cmemcmp : List Int → List Int → Nat → Int
  | _, _, 0 => 0
  | lhs, rhs, n + 1 =>
    if lhs.headD 0 < rhs.headD 0 then -1
    else if lhs.headD 0 > rhs.headD 0 then 1
    else cmemcmp lhs.tail rhs.tail n

/-- The sign of the C library `memcmp(lhs, rhs, n)` as the specification
describes it: decided by the first differing byte among the first `n`, the
bytes compared as `unsigned char` (the `char` value modulo `256`), and `0` when
the first `n` bytes are equal. -/
def memcmp_sign : List Int → List Int → Nat → Int
  | _, _, 0 => 0
  | lhs, rhs, n + 1 =>
    if lhs.headD 0 % 256 < rhs.headD 0 % 256 then -1
    else if lhs.headD 0 % 256 > rhs.headD 0 % 256 then 1
    else memcmp_sign lhs.tail rhs.tail n

/-- A string literal: the character codes followed by the terminating `0`. -/
def literal (s : String) : List Int :=
  s.toList.map (fun c => (c.toNat : Int)) ++ [0]

/-- `class StringView`: the pointer `data_` and the length `length_`. -/
structure StringView where
  data_ : List Int
  length_ : Nat
  deriving DecidableEq, Repr

namespace StringView

/-- `npos`: `std::numeric_limits<size_t>::max()`, with a `size_t` of 64 bits. -/
def npos : Nat := 2 ^ 64 - 1

/-- `StringView()`: `data_(nullptr), length_(0)`. -/
def new : StringView :=
  { data_ := [], length_ := 0 }

/-- `StringView(const char* str)`: `data_(str), length_(cstrlen(str))`. -/
def ofCStr (str : List Int) : StringView :=
  { data_ := str, length_ := cstrlen str }

/-- `StringView(const char* str, size_t size)`: `data_(str), length_(size)`. -/
def ofCStrN (str : List Int) (size : Nat) : StringView :=
  { data_ := str, length_ := size }

/-- `at(n)`, also `operator[]`: `return data_[n]`. -/
def at_ (s : StringView) (n : Nat) : Int :=
  s.data_.getD n 0

/-- `data()`: `return data_`. -/
def data (s : StringView) : List Int :=
  s.data_

/-- `length()`: `return length_`. -/
def length (s : StringView) : Nat :=
  s.length_

/-- `size()`: `return length()`. -/
def size (s : StringView) : Nat :=
  s.length

/-- `empty()`: `return (length() == 0)`. -/
def empty (s : StringView) : Bool :=
  decide (s.length = 0)

/-- `operator bool()`: `return !this->empty()`. -/
def opBool (s : StringView) : Bool :=
  !s.empty

/-- `substr(pos, count)`:
`(pos >= length_) ? "" : StringView(&data_[pos], min(length_ - pos, count))`. -/
def substr (s : StringView) (pos count : Nat) : StringView :=
  if pos ≥ s.length_ then ofCStr (literal "")
  else ofCStrN (s.data_.drop pos) (sstest.min (s.length_ - pos) count)

/-- `operator<(str1, str2)`. -/
def lt (str1 str2 : StringView) : Bool :=
  decide (cmemcmp str1.data str2.data (sstest.min str1.length str2.length) < 0)
    || (decide (cmemcmp str1.data str2.data (sstest.min str1.length str2.length) = 0)
        && decide (str1.length < str2.length))

/-- `operator>(str1, str2)`. -/
def gt (str1 str2 : StringView) : Bool :=
  decide (cmemcmp str1.data str2.data (sstest.min str1.length str2.length) > 0)
    || (decide (cmemcmp str1.data str2.data (sstest.min str1.length str2.length) = 0)
        && decide (str1.length > str2.length))

/-- `operator==(str1, str2)`:
`(str1.length() == str2.length()) && (cmemcmp(str1.data(), str2.data(), str1.length()) == 0)`. -/
def eq (str1 str2 : StringView) : Bool :=
  decide (str1.length = str2.length)
    && decide (cmemcmp str1.data str2.data str1.length = 0)

/-- `operator!=(str1, str2)`: `!(str1 == str2)`. -/
def ne (str1 str2 : StringView) : Bool :=
  !(str1.eq str2)

end StringView

/-- `compare(str1, str2)`: `(str1 == str2) ? 0 : (str1 < str2) ? -1 : 1`. -/
def compare (str1 str2 : StringView) : Int :=
  if str1.eq str2 then 0 else if str1.lt str2 then -1 else 1

/-- `compare(str1, str2, n)`: `compare(str1.substr(0, n), str2.substr(0, n))`. -/
def compareN (str1 str2 : StringView) (n : Nat) : Int :=
  compare (str1.substr 0 n) (str2.substr 0 n)

/-! ## `sstest_traits.h`: `range` and `iterable_range`, at `N = int`

The values stay between `lower` and `upper` during an iteration, so `++current`
does not overflow and `int` is `Int`. -/

/-- `struct range<N>`. -/
structure range where
  lower : Int
  upper : Int
  deriving DecidableEq, Repr

/-- `in_range(n)`: `return (n >= lower) && (n <= upper)`. -/
def range.in_range (r : range) (n : Int) : Bool :=
  decide (n ≥ r.lower) && decide (n ≤ r.upper)

/-- `operator==(lhs, rhs)` of ranges:
`(lhs.lower == rhs.lower) && (lhs.upper == rhs.upper)`. -/
def range.eq (lhs rhs : range) : Bool :=
  decide (lhs.lower = rhs.lower) && decide (lhs.upper = rhs.upper)

/-- `struct iterable_range<N> : range<N>`, which adds no member. -/
abbrev iterable_range := range

namespace iterable_range

/-- `class const_iterator`: the range iterated and the current value. -/
structure const_iterator where
  range : sstest.range
  current : Int
  deriving DecidableEq, Repr

namespace const_iterator

/-- `const_iterator(range, begin)`: `current(begin)`, then
`if (!range.in_range(begin)) current = range.lower`. -/
def new (range : sstest.range) ( begin : Int) : const_iterator :=
  { range := range, current := if !range.in_range begin then range.lower else begin }

/-- `operator++()`: `++current`. -/
def inc (it : const_iterator) : const_iterator :=
  { it with current := it.current + 1 }

/-- `operator==(other)`:
`(this->range == other.range) && (this->current == other.current)`. -/
def eq (it other : const_iterator) : Bool :=
  it.range.eq other.range && decide (it.current = other.current)

/-- `operator!=(other)`: `!(*this == other)`. -/
def ne (it other : const_iterator) : Bool :=
  !(it.eq other)

/-- `operator*()`: `return current`. -/
def deref (it : const_iterator) : Int :=
  it.current

end const_iterator

/-- `begin()`: `return const_iterator(*this, this->lower)`. -/
def first (r : iterable_range) : const_iterator :=
  const_iterator.new r r.lower

/-- `end()`: `return const_iterator(*this, this->upper)`. -/
def last (r : iterable_range) : const_iterator :=
  const_iterator.new r r.upper

/-- The loop `for (int x : r) v.push_back(x);`, that is
`for (it = begin; it != end; ++it) v.push_back(*it);`, run for at most `fuel`
evaluations of the loop condition: the values pushed, or `none` when the loop
has not ended by then. -/
def rangeFor : Nat → const_iterator → const_iterator → Option (List Int)
  | 0, _, _ => none
  | fuel + 1, it, last =>
    if it.ne last then (rangeFor fuel it.inc last).map (fun rest => it.deref :: rest)
    else some []

/-- The values of `for (int x : r)` within `fuel` evaluations of the loop
condition. -/
def values (r : iterable_range) (fuel : Nat) : Option (List Int) :=
  rangeFor fuel (first r) (last r)

end iterable_range

end sstest

/-! # Theorems -/

namespace sstest

namespace comparison

/-! ## The Collector chain -/

section chain

variable {V : Type}

theorem Collector.apply_eq_eat (N : NativeOps V) (c : Collector V) (op : BinOp) (t : V) :
    c.apply N op t = c.eat (N.eval op c.result t) t := by
  cases op <;> rfl

theorem Collector.args_apply (N : NativeOps V) (c : Collector V) (op : BinOp) (t : V) :
    (c.apply N op t).args = c.args ++ [t] := by
  rw [Collector.apply_eq_eat]; rfl

theorem Collector.result_apply (N : NativeOps V) (c : Collector V) (op : BinOp) (t : V) :
    (c.apply N op t).result = N.eval op c.result t := by
  rw [Collector.apply_eq_eat]; rfl

theorem args_foldl_apply (N : NativeOps V) (steps : List (BinOp × V)) (c : Collector V) :
    (steps.foldl (fun c s => c.apply N s.1 s.2) c).args = c.args ++ steps.map Prod.snd := by
  induction steps generalizing c with
  | nil => simp
  | cons s rest ih => simp [List.foldl_cons, ih, Collector.args_apply]

theorem result_foldl_apply (N : NativeOps V) (steps : List (BinOp × V)) (c : Collector V) :
    (steps.foldl (fun c s => c.apply N s.1 s.2) c).result
      = steps.foldl (fun acc s => N.eval s.1 acc s.2) c.result := by
  induction steps generalizing c with
  | nil => rfl
  | cons s rest ih => simp [List.foldl_cons, ih, Collector.result_apply]

theorem chain_snoc (N : NativeOps V) (a : V) (steps : List (BinOp × V)) (op : BinOp) (t : V) :
    chain N a (steps ++ [(op, t)]) = (chain N a steps).apply N op t := by
  simp [chain, List.foldl_append]

/-- C1: a chain seeded with `Decomposer() << a` and extended by `k` intercepted
binary operators captures exactly `k + 1` operands; with no operator it
captures exactly one. -/
theorem chain_args_length (N : NativeOps V) (a : V) (steps : List (BinOp × V)) :
    (chain N a steps).args.length = steps.length + 1 ∧ (chain N a []).args.length = 1 := by
  refine ⟨?_, rfl⟩
  simp [chain, args_foldl_apply, Decomposer.shl]

/-- C2: the captured operands are the seed followed by the right-hand operands
in application order; every extension step keeps the operands captured so far
as they are and appends exactly the new right-hand operand; for
`a OP1 b OP2 c` the captured list is `[a, b, c]`. -/
theorem chain_args_order (N : NativeOps V) (a : V) (steps : List (BinOp × V)) :
    (chain N a steps).args = a :: steps.map Prod.snd ∧
    (∀ (op : BinOp) (t : V),
      (chain N a (steps ++ [(op, t)])).args = (chain N a steps).args ++ [t]) ∧
    (∀ (c : Collector V) (op : BinOp) (t : V), (c.apply N op t).args = c.args ++ [t]) ∧
    (∀ (op1 op2 : BinOp) (b c : V), (chain N a [(op1, b), (op2, c)]).args = [a, b, c]) := by
  refine ⟨?_, ?_, ?_, ?_⟩
  · simp [chain, args_foldl_apply, Decomposer.shl]
  · intro op t
    rw [chain_snoc, Collector.args_apply]
  · intro c op t
    exact Collector.args_apply N c op t
  · intro op1 op2 b c
    simp [chain, Collector.args_apply, Decomposer.shl]

/-- C3: the stored `result` of a chain equals the left fold
`((a OP1 b1) OP2 b2) ... OPk bk` computed with the native operators; for the
built-in integers `(d << 0x0f ^ 0x07 | 0x010).result` is `(0x0f ^ 0x07 | 0x010)`,
that is `24`. -/
theorem chain_result_eq_nativeLeftFold (N : NativeOps V) (a : V) (steps : List (BinOp × V)) :
    (chain N a steps).result = nativeLeftFold N a steps ∧
    (chain builtin (.int 0x0f) [(.bitXor, .int 0x07), (.bitOr, .int 0x010)]).result
      = builtin.bitOr (builtin.bitXor (.int 0x0f) (.int 0x07)) (.int 0x010) ∧
    builtin.bitOr (builtin.bitXor (.int 0x0f) (.int 0x07)) (.int 0x010) = .int 24 := by
  refine ⟨?_, rfl, by decide⟩
  simp [chain, nativeLeftFold, result_foldl_apply, Decomposer.shl]

end chain

/-! ## Exactly-once evaluation -/

theorem evalArgs_effects (es : List OperandExpr) (s : Effects) :
    (evalArgs (es.map OperandExpr.eval) s).2
      = { s with count := s.count + OperandExpr.totalOccurrences es } := by
  induction es generalizing s with
  | nil => simp [evalArgs, OperandExpr.totalOccurrences]
  | cons e rest ih =>
    cases e with
    | lit v =>
      simp [evalArgs, ih, OperandExpr.eval, OperandExpr.totalOccurrences,
        OperandExpr.occurrences]
    | counterCall =>
      simp [evalArgs, ih, OperandExpr.eval, counter, OperandExpr.totalOccurrences,
        OperandExpr.occurrences]
      omega

theorem evalArgs_values (es : List OperandExpr) (s : Effects) (k : Nat) :
    (evalArgs (es.map OperandExpr.eval) { s with applications := k }).1
      = (evalArgs (es.map OperandExpr.eval) s).1 := by
  induction es generalizing s with
  | nil => rfl
  | cons e rest ih =>
    cases e with
    | lit v =>
      simp only [List.map_cons, evalArgs, OperandExpr.eval]
      rw [ih]
    | counterCall =>
      simp only [List.map_cons, evalArgs, OperandExpr.eval, counter]
      have h := ih { s with count := s.count + 1 }
      simp only at h
      rw [h]

theorem extendM_recording_effects (N : NativeOps Value) (steps : List (BinOp × OperandExpr))
    (c : Collector Value) (s : Effects) :
    (extendM (recording N) (steps.map (fun st => (st.1, st.2.eval))) c s).2
      = { count := s.count + OperandExpr.totalOccurrences (steps.map Prod.snd),
          applications := s.applications + steps.length } := by
  induction steps generalizing c s with
  | nil => simp [extendM, OperandExpr.totalOccurrences]
  | cons st rest ih =>
    obtain ⟨op, e⟩ := st
    simp only [List.map_cons, extendM, ih]
    cases e with
    | lit v =>
      simp [OperandExpr.eval, OperandExpr.totalOccurrences, OperandExpr.occurrences,
        Collector.applyM, recording]
      omega
    | counterCall =>
      simp [OperandExpr.eval, counter, OperandExpr.totalOccurrences, OperandExpr.occurrences,
        Collector.applyM, recording]
      omega

theorem extendM_recording_args (N : NativeOps Value) (steps : List (BinOp × OperandExpr))
    (c : Collector Value) (s : Effects) :
    (extendM (recording N) (steps.map (fun st => (st.1, st.2.eval))) c s).1.args
      = c.args ++ (evalArgs (steps.map (fun st => st.2.eval)) s).1 := by
  induction steps generalizing c s with
  | nil => simp [extendM, evalArgs]
  | cons st rest ih =>
    obtain ⟨op, e⟩ := st
    simp only [List.map_cons, extendM, ih, evalArgs]
    have hmap : rest.map (fun st => st.2.eval) = (rest.map Prod.snd).map OperandExpr.eval := by
      simp [List.map_map, Function.comp_def]
    cases e with
    | lit v =>
      have h := evalArgs_values (rest.map Prod.snd) s (s.applications + 1)
      simp only [OperandExpr.eval, Collector.applyM, recording, Collector.eat,
        List.append_assoc, List.singleton_append, hmap]
      rw [h]
    | counterCall =>
      have h := evalArgs_values (rest.map Prod.snd) { s with count := s.count + 1 }
        (s.applications + 1)
      simp only [OperandExpr.eval, counter, Collector.applyM, recording, Collector.eat,
        List.append_assoc, List.singleton_append, hmap]
      simp only at h
      rw [h]

/-- C4: when the operands of an asserted expression are literals and calls of
`counter()` and the operators record their applications, building the chain
`Decomposer() << e0 OP1 e1 ... OPk ek` increments the counter once per call of
`counter()` written in the expression and applies exactly `k` operators, and
the captured operands are the values of that single evaluation; building a
`CompareHelper` through `make_compare(pred, e1, ..., en)` likewise increments
the counter once per written call and applies `pred` once.  With the counter
at `0`, `make_compare(pred, 0, counter())` captures `[0, 0]` and leaves the
counter at `1`. -/
theorem evaluation_exactly_once (N : NativeOps Value) (e0 : OperandExpr)
    (steps : List (BinOp × OperandExpr)) (s : Effects) :
    (chainM (recording N) e0.eval (steps.map (fun st => (st.1, st.2.eval))) s).2
      = { count := s.count + OperandExpr.totalOccurrences (e0 :: steps.map Prod.snd),
          applications := s.applications + steps.length } ∧
    (chainM (recording N) e0.eval (steps.map (fun st => (st.1, st.2.eval))) s).1.args
      = (evalArgs ((e0 :: steps.map Prod.snd).map OperandExpr.eval) s).1 ∧
    (∀ (Res : Type) (pred : List Value → Res) (args : List OperandExpr),
      (make_compareM (recordingPred pred) (args.map OperandExpr.eval) s).2
        = { count := s.count + OperandExpr.totalOccurrences args,
            applications := s.applications + 1 } ∧
      (make_compareM (recordingPred pred) (args.map OperandExpr.eval) s).1.args
        = (evalArgs (args.map OperandExpr.eval) s).1) ∧
    (∀ (Res : Type) (pred : List Value → Res),
      (make_compareM (recordingPred pred)
          ([OperandExpr.lit (.int 0), OperandExpr.counterCall].map OperandExpr.eval)
          { count := 0, applications := 0 })
        = (⟨pred [.int 0, .int 0], [.int 0, .int 0]⟩, { count := 1, applications := 1 })) := by
  refine ⟨?_, ?_, ?_, ?_⟩
  · cases e0 with
    | lit v =>
      simp [chainM, extendM_recording_effects, OperandExpr.eval, OperandExpr.totalOccurrences,
        OperandExpr.occurrences]
    | counterCall =>
      simp [chainM, extendM_recording_effects, OperandExpr.eval, counter,
        OperandExpr.totalOccurrences, OperandExpr.occurrences]
      omega
  · cases e0 with
    | lit v =>
      simp [chainM, extendM_recording_args, OperandExpr.eval, evalArgs, Decomposer.shl,
        List.map_map, Function.comp_def]
    | counterCall =>
      simp [chainM, extendM_recording_args, OperandExpr.eval, counter, evalArgs, Decomposer.shl,
        List.map_map, Function.comp_def]
  · intro Res pred args
    simp [make_compareM, CompareHelper.ofPredM, CompareHelper.direct, recordingPred,
      evalArgs_effects]
  · intro Res pred
    rfl

end comparison

end sstest

namespace sstest

open comparison

/-! ## Conversion of the final result -/

theorem Assertion.result_countingConv (a : Assertion Value Value) (n : Nat) :
    a.result countingConv n
      = (if a.compare_.result.toBool then AssertionResult.PASS else AssertionResult.FAIL,
         n + 1) := rfl

theorem Assertion.passed_countingConv (a : Assertion Value Value) (n : Nat) :
    a.passed countingConv n = (a.compare_.result.toBool, n + 1) := by
  simp only [Assertion.passed, Assertion.result_countingConv]
  by_cases h : a.compare_.result.toBool = true <;> simp [h]

theorem Assertion.failed_countingConv (a : Assertion Value Value) (n : Nat) :
    a.failed countingConv n = (!a.compare_.result.toBool, n + 1) := by
  simp only [Assertion.failed, Assertion.result_countingConv]
  by_cases h : a.compare_.result.toBool = true <;> simp [h]

theorem Reporter.reportAssertionTo_countingConv (settings : Configuration)
    (a : Assertion Value Value) (logger : Logger) (n : Nat) :
    (Reporter.reportAssertionTo countingConv settings a logger n).2
      = n + 1 + (if (if a.compare_.result.toBool then settings.show_assertion_pass
                      else settings.show_assertion_fail) then 1 else 0) := by
  simp only [Reporter.reportAssertionTo, Reporter.printAssertionResult,
    Assertion.result_countingConv]
  cases a.compare_.result.toBool <;> cases settings.show_assertion_pass <;>
    cases settings.show_assertion_fail <;> cases settings.expand_args_assertion_pass <;>
    cases settings.expand_args_assertion_fail <;> simp

theorem Reporter.forEachLoggerM_count (func : Logger → Nat → Logger × Nat) (k : Nat)
    (hfunc : ∀ logger n, (func logger n).2 = n + k) (loggers : List Logger) (n : Nat) :
    (Reporter.forEachLoggerM func loggers n).2 = n + loggers.length * k := by
  induction loggers generalizing n with
  | nil => simp [Reporter.forEachLoggerM]
  | cons logger rest ih =>
    simp only [Reporter.forEachLoggerM, ih, hfunc, List.length_cons]
    ring

/-- C5 (as amended): constructing an `Assertion` from a comparison stores the
comparison and converts nothing; each call of `result()`, `passed()`,
`failed()`, `operator bool` and `operator!` converts the final result once
more; `TestRunner::reportAssertion` followed by the `operator!` of the macro
converts it `L * (1 + p) + 3` times for `L` loggers, where `p` is `1` when the
banner is printed and `0` otherwise.  The conversion of a built-in value gives
the same verdict at every call. -/
theorem assertion_converts_at_every_call (a : Assertion Value Value) (n : Nat) (r : TestRunner)
    (test_info : TestInfo) (line_info : LineInfo) (arg_text : String)
    (compare : CompareHelper Value Value) :
    (make_assertion test_info line_info arg_text compare).compare_ = compare ∧
    a.result countingConv n
      = (if a.compare_.result.toBool then AssertionResult.PASS else AssertionResult.FAIL,
         n + 1) ∧
    a.passed countingConv n = (a.compare_.result.toBool, n + 1) ∧
    a.failed countingConv n = (!a.compare_.result.toBool, n + 1) ∧
    a.opBool countingConv n = (a.compare_.result.toBool, n + 1) ∧
    a.opNot countingConv n = (!a.compare_.result.toBool, n + 1) ∧
    (a.opNot countingConv (r.reportAssertion countingConv a n).2).2
      = n + r.reporter_.loggers.length *
            (1 + (if (if a.compare_.result.toBool then r.settings.show_assertion_pass
                      else r.settings.show_assertion_fail) then 1 else 0)) + 3 := by
  refine ⟨rfl, rfl, Assertion.passed_countingConv a n, Assertion.failed_countingConv a n,
    Assertion.passed_countingConv a n, ?_, ?_⟩
  · simp [Assertion.opNot, Assertion.passed_countingConv]
  · simp only [Assertion.opNot, Assertion.passed_countingConv, TestRunner.reportAssertion,
      TestSummary.addAssertionResult, Assertion.failed_countingConv, Reporter.reportAssertion]
    rw [Reporter.forEachLoggerM_count _ _
      (fun logger m => by
        rw [Reporter.reportAssertionTo_countingConv, Nat.add_assoc])]

/-- C5, as stated, fails: for the assertion built from `Decomposer() << 1 == 1`
nothing has been converted when it is constructed, the first call of `result()`
converts once, a later call of `passed()` converts again, and reporting it to
a freshly constructed runner followed by the `operator!` of the macro converts
the final result five times. -/
theorem assertion_conversion_not_once :
    (Assertion.result countingConv
        (make_assertion ⟨"REQUIRE"⟩ ⟨"test.cpp", 1⟩ "1 == 1"
          (chain builtin (.int 1) [(BinOp.eq, .int 1)])) 0).2 = 1 ∧
    (Assertion.passed countingConv
        (make_assertion ⟨"REQUIRE"⟩ ⟨"test.cpp", 1⟩ "1 == 1"
          (chain builtin (.int 1) [(BinOp.eq, .int 1)])) 1).2 = 2 ∧
    (Assertion.opNot countingConv
        (make_assertion ⟨"REQUIRE"⟩ ⟨"test.cpp", 1⟩ "1 == 1"
          (chain builtin (.int 1) [(BinOp.eq, .int 1)]))
        (TestRunner.initial.reportAssertion countingConv
          (make_assertion ⟨"REQUIRE"⟩ ⟨"test.cpp", 1⟩ "1 == 1"
            (chain builtin (.int 1) [(BinOp.eq, .int 1)])) 0).2).2 = 5 := by
  refine ⟨rfl, rfl, rfl⟩

end sstest

namespace sstest

open comparison

/-! ## Comparisons built from a predicate -/

/-- C6: `make_compare(pred, x1, ..., xn)` has `result` equal to
`pred(x1, ..., xn)` and captures `x1, ..., xn` in argument order;
`make_equal_compare(a, b)` has result `a == b` and captures `[a, b]`, so on
integers it converts to true exactly when `a == b`: `make_equal_compare(0, 0)`
converts to true and `make_equal_compare(0, -1)` to false. -/
theorem make_compare_result_args {Res V : Type} (pred : List V → Res) (xs : List V)
    (N : NativeOps V) (a b : V) (i j : Int) :
    (make_compare pred xs).result = pred xs ∧
    (make_compare pred xs).args = xs ∧
    (make_equal_compare N a b).result = N.eq a b ∧
    (make_equal_compare N a b).args = [a, b] ∧
    (((make_equal_compare builtin (.int i) (.int j)).opBool (pureConv Value.toBool) ()).1 = true
      ↔ i = j) ∧
    ((make_equal_compare builtin (.int 0) (.int 0)).opBool (pureConv Value.toBool) ()).1 = true ∧
    ((make_equal_compare builtin (.int 0) (.int (-1))).opBool (pureConv Value.toBool) ()).1
      = false := by
  refine ⟨rfl, rfl, rfl, rfl, ?_, by decide, by decide⟩
  simp [make_equal_compare, CompareHelper.ofPred2, CompareHelper.direct, CompareHelper.opBool,
    pureConv, equal, builtin, Value.toBool, Value.toInt]

/-- C7: `make_negation_compare(x)` captures exactly the operand `x`, and its
result is the logical negation of the conversion of `x` to `bool`, so it
converts to true exactly when `bool(x)` is false; for the `nullptr` literal the
result is true. -/
theorem make_negation_compare_spec (x : Value) :
    (make_negation_compare x).args = [x] ∧
    (make_negation_compare x).result = .bool (!x.toBool) ∧
    (((make_negation_compare x).opBool (pureConv Value.toBool) ()).1 = true
      ↔ x.toBool = false) ∧
    (make_negation_compare .nullptr).result = .bool true ∧
    (make_negation_compare .nullptr).args = [.nullptr] := by
  cases x <;>
    simp [make_negation_compare, CompareHelper.ofPred1, CompareHelper.direct,
      CompareHelper.opBool, pureConv, negate, always_true, Value.toBool]

/-! ## `Assertion<bool>` -/

/-- C8: an `Assertion<bool>` constructed from `eval` has result `PASS` when
`eval` is true and `FAIL` when it is false; the default-constructed one has
result `INVALID`; `passed()` holds exactly for `PASS` and `failed()` exactly for
`FAIL`, so they are never both true, and an assertion is neither passed nor
failed exactly when it is `INVALID`. -/
theorem assertionBool_result_passed_failed (test_info : TestInfo) (line_info : LineInfo)
    (arg_text : String) (a : AssertionBool) :
    (AssertionBool.ofEval test_info line_info arg_text true).result = AssertionResult.PASS ∧
    (AssertionBool.ofEval test_info line_info arg_text false).result = AssertionResult.FAIL ∧
    AssertionBool.default.result = AssertionResult.INVALID ∧
    (a.passed = true ↔ a.result = AssertionResult.PASS) ∧
    (a.failed = true ↔ a.result = AssertionResult.FAIL) ∧
    ¬ (a.passed = true ∧ a.failed = true) ∧
    ((a.passed = false ∧ a.failed = false) ↔ a.result = AssertionResult.INVALID) := by
  obtain ⟨res, ti, li, txt⟩ := a
  refine ⟨rfl, rfl, rfl, ?_, ?_, ?_, ?_⟩ <;>
    simp only [AssertionBool.passed, AssertionBool.failed, AssertionBool.result] <;>
    cases res <;> simp

end sstest

namespace sstest

open comparison

/-! ## Test bodies: `REQUIRE` stops, `EXPECT` continues -/

theorem Stmt.continues_of_passes (st : Stmt) (rest : List Stmt) (r : TestRunner)
    (hst : st.isAssertion = true) (hpass : st.passes = true) :
    execBody (st :: rest) r = execBody rest (st.report r) := by
  cases st with
  | assertion on_fail a =>
    simp only [Stmt.passes] at hpass
    simp [execBody, Stmt.report, Assertion.opNot, hpass]
  | assertionBool on_fail a =>
    simp only [Stmt.passes] at hpass
    simp [execBody, Stmt.report, AssertionBool.opNot, hpass]
  | failure => simp [Stmt.isAssertion] at hst
  | success => simp [Stmt.isAssertion] at hst
  | throwException => simp [Stmt.isAssertion] at hst

theorem Stmt.continues_of_isExpect (st : Stmt) (rest : List Stmt) (r : TestRunner)
    (hst : st.isExpect = true) :
    execBody (st :: rest) r = execBody rest (st.report r) := by
  cases st with
  | assertion on_fail a =>
    simp only [Stmt.isExpect, decide_eq_true_eq] at hst
    subst hst
    simp only [execBody, Stmt.report]
    split <;> rfl
  | assertionBool on_fail a =>
    simp only [Stmt.isExpect, decide_eq_true_eq] at hst
    subst hst
    simp only [execBody, Stmt.report]
    split <;> rfl
  | failure => simp [Stmt.isExpect] at hst
  | success => simp [Stmt.isExpect] at hst
  | throwException => simp [Stmt.isExpect] at hst

theorem Stmt.stops_of_isRequire (st : Stmt) (rest : List Stmt) (r : TestRunner)
    (hst : st.isRequire = true) (hfail : st.passes = false) :
    execBody (st :: rest) r = (st.report r, false) := by
  cases st with
  | assertion on_fail a =>
    simp only [Stmt.isRequire, decide_eq_true_eq] at hst
    subst hst
    simp only [Stmt.passes] at hfail
    simp [execBody, Stmt.report, Assertion.opNot, hfail]
  | assertionBool on_fail a =>
    simp only [Stmt.isRequire, decide_eq_true_eq] at hst
    subst hst
    simp only [Stmt.passes] at hfail
    simp [execBody, Stmt.report, AssertionBool.opNot, hfail]
  | failure => simp [Stmt.isRequire] at hst
  | success => simp [Stmt.isRequire] at hst
  | throwException => simp [Stmt.isRequire] at hst

theorem execBody_append_of_continuing (pre rest : List Stmt) (r : TestRunner)
    (hpre : ∀ s ∈ pre, s.isExpect = true ∨ (s.isAssertion = true ∧ s.passes = true)) :
    execBody (pre ++ rest) r = execBody rest (reportAll pre r) := by
  induction pre generalizing r with
  | nil => rfl
  | cons st pre ih =>
    have hst := hpre st (List.mem_cons_self _ _)
    have hrest : ∀ s ∈ pre, s.isExpect = true ∨ (s.isAssertion = true ∧ s.passes = true) :=
      fun s hs => hpre s (List.mem_cons_of_mem _ hs)
    have hstep : execBody (st :: (pre ++ rest)) r = execBody (pre ++ rest) (st.report r) := by
      rcases hst with h | ⟨h1, h2⟩
      · exact Stmt.continues_of_isExpect st _ r h
      · exact Stmt.continues_of_passes st _ r h1 h2
    rw [List.cons_append, hstep, ih _ hrest]
    rfl

theorem reportAll_append (pre rest : List Stmt) (r : TestRunner) :
    reportAll (pre ++ rest) r = reportAll rest (reportAll pre r) := by
  simp [reportAll, List.foldl_append]

theorem TestSummary.assertions_ran_countAssertion (sm : TestSummary) (passed : Bool) :
    (sm.countAssertion passed).totals.assertions_ran = sm.totals.assertions_ran + 1 := by
  cases passed <;> rfl

theorem TestRunner.test_summary_failCurrent (r : TestRunner) :
    r.failCurrent.test_summary = r.test_summary := rfl

theorem TestRunner.test_summary_reportAssertionBool (r : TestRunner) (a : AssertionBool) :
    (r.reportAssertionBool a).test_summary = r.test_summary.countAssertion a.passed := by
  simp only [TestRunner.reportAssertionBool, TestSummary.addAssertionResultBool]
  split <;> rfl

theorem TestRunner.test_summary_reportAssertion (r : TestRunner) (a : Assertion Value Value) :
    (r.reportAssertion bodyConv a ()).1.test_summary
      = r.test_summary.countAssertion (a.passed bodyConv ()).1 := by
  simp only [TestRunner.reportAssertion, TestSummary.addAssertionResult]
  split <;> rfl

theorem Stmt.assertions_ran_report (st : Stmt) (r : TestRunner) (hst : st.isAssertion = true) :
    (st.report r).test_summary.totals.assertions_ran
      = r.test_summary.totals.assertions_ran + 1 := by
  cases st with
  | assertion on_fail a =>
    simp only [Stmt.report, TestRunner.test_summary_reportAssertion,
      TestSummary.assertions_ran_countAssertion]
  | assertionBool on_fail a =>
    simp only [Stmt.report, TestRunner.test_summary_reportAssertionBool,
      TestSummary.assertions_ran_countAssertion]
  | failure => simp [Stmt.isAssertion] at hst
  | success => simp [Stmt.isAssertion] at hst
  | throwException => simp [Stmt.isAssertion] at hst

theorem assertions_ran_reportAll (stmts : List Stmt) (r : TestRunner)
    (hall : ∀ s ∈ stmts, s.isAssertion = true) :
    (reportAll stmts r).test_summary.totals.assertions_ran
      = r.test_summary.totals.assertions_ran + stmts.length := by
  induction stmts generalizing r with
  | nil => rfl
  | cons st rest ih =>
    have h1 := Stmt.assertions_ran_report st r (hall st (List.mem_cons_self _ _))
    have h2 := ih (st.report r) (fun s hs => hall s (List.mem_cons_of_mem _ hs))
    simp only [reportAll, List.foldl_cons, List.length_cons] at h2 ⊢
    rw [h2, h1]
    omega

theorem Stmt.isAssertion_of_isExpect (st : Stmt) (h : st.isExpect = true) :
    st.isAssertion = true := by
  cases st <;> simp_all [Stmt.isExpect, Stmt.isAssertion]

/-- C9: in a test body made of assertion macros, let the statements of `pre`
be of the `EXPECT` family (passing or failing) or pass, and let the assertion
statement `st` follow them.  The body `pre` alone runs to its end and reports
every one of its assertions.  When `st` is of the `REQUIRE` family and fails, it
is reported and the body ends there, whatever statements `post` follow: none of
them is executed or reported, and the runner has tallied exactly the
assertions of `pre` and `st`.  Otherwise (`st` is of the `EXPECT` family, or it
passes) execution goes on with `post`. -/
theorem require_stops_expect_continues (pre post : List Stmt) (st : Stmt) (r : TestRunner)
    (hpre : ∀ s ∈ pre, s.isExpect = true ∨ (s.isAssertion = true ∧ s.passes = true))
    (hst : st.isAssertion = true) :
    execBody pre r = (reportAll pre r, false) ∧
    execBody (pre ++ st :: post) r
      = (if st.isRequire && !st.passes then (reportAll (pre ++ [st]) r, false)
         else execBody post (reportAll (pre ++ [st]) r)) ∧
    (reportAll (pre ++ [st]) r).test_summary.totals.assertions_ran
      = r.test_summary.totals.assertions_ran + pre.length + 1 := by
  refine ⟨?_, ?_, ?_⟩
  · have h := execBody_append_of_continuing pre [] r hpre
    rw [List.append_nil] at h
    rw [h]
    rfl
  · rw [execBody_append_of_continuing pre _ r hpre, reportAll_append]
    by_cases hreq : st.isRequire = true
    · by_cases hpass : st.passes = true
      · simp only [hreq, hpass, Bool.not_true, Bool.and_false, Bool.false_eq_true, if_false]
        rw [Stmt.continues_of_passes st post _ hst hpass]
        rfl
      · have hfail : st.passes = false := by simpa using hpass
        simp only [hreq, hfail, Bool.not_false, Bool.and_true, if_true]
        rw [Stmt.stops_of_isRequire st post _ hreq hfail]
        rfl
    · have hexp : st.isExpect = true := by
        cases st with
        | assertion on_fail a => cases on_fail <;> simp_all [Stmt.isRequire, Stmt.isExpect]
        | assertionBool on_fail a => cases on_fail <;> simp_all [Stmt.isRequire, Stmt.isExpect]
        | failure => simp [Stmt.isAssertion] at hst
        | success => simp [Stmt.isAssertion] at hst
        | throwException => simp [Stmt.isAssertion] at hst
      have hreq2 : st.isRequire = false := by simpa using hreq
      simp only [hreq2, Bool.false_and, Bool.false_eq_true, if_false]
      rw [Stmt.continues_of_isExpect st post _ hexp]
      rfl
  · rw [assertions_ran_reportAll]
    · simp only [List.length_append, List.length_singleton]
      omega
    · intro s hs
      rcases List.mem_append.mp hs with h | h
      · rcases hpre s h with h1 | ⟨h1, _⟩
        · exact Stmt.isAssertion_of_isExpect s h1
        · exact h1
      · rw [List.mem_singleton.mp h]
        exact hst

/-- Witness for C9: the body `EXPECT_TRUE(false); REQUIRE(1 == 1);
REQUIRE_TRUE(false); EXPECT_TRUE(true);` stops at the failing `REQUIRE_TRUE`: its
first three assertions are reported, the fourth is not. -/
theorem require_stops_expect_continues_witness :
    (∀ s ∈ [EXPECT_TRUE 1 false, REQUIRE_EQ 2 1 1],
      s.isExpect = true ∨ (s.isAssertion = true ∧ s.passes = true)) ∧
    (REQUIRE_TRUE 3 false).isAssertion = true ∧
    execBody [EXPECT_TRUE 1 false, REQUIRE_EQ 2 1 1] TestRunner.initial
      = (reportAll [EXPECT_TRUE 1 false, REQUIRE_EQ 2 1 1] TestRunner.initial, false) ∧
    execBody ([EXPECT_TRUE 1 false, REQUIRE_EQ 2 1 1] ++ REQUIRE_TRUE 3 false ::
        [EXPECT_TRUE 4 true]) TestRunner.initial
      = (reportAll ([EXPECT_TRUE 1 false, REQUIRE_EQ 2 1 1] ++ [REQUIRE_TRUE 3 false])
          TestRunner.initial, false) ∧
    (reportAll ([EXPECT_TRUE 1 false, REQUIRE_EQ 2 1 1] ++ [REQUIRE_TRUE 3 false])
        TestRunner.initial).test_summary.totals.assertions_ran
      = TestRunner.initial.test_summary.totals.assertions_ran + 2 + 1 :=
  ⟨by decide, by decide,
   require_stops_expect_continues [EXPECT_TRUE 1 false, REQUIRE_EQ 2 1 1] [EXPECT_TRUE 4 true]
     (REQUIRE_TRUE 3 false) TestRunner.initial (by decide) (by decide)⟩

end sstest

namespace sstest

open comparison

/-! ## Validity of the tally -/

theorem TestTotals.validate_iff (t : TestTotals) :
    t.validate = true ↔
      (t.test_functions_ran ≤ t.test_functions_total ∧
       t.test_functions_passed ≤ t.test_functions_total ∧
       t.test_functions_passed ≤ t.test_functions_ran ∧
       t.test_suites_ran ≤ t.test_suites_total ∧
       t.test_suites_passed ≤ t.test_suites_total ∧
       t.test_suites_passed ≤ t.test_suites_ran ∧
       t.assertions_ran ≤ t.assertions_total ∧
       t.assertions_passed ≤ t.assertions_total ∧
       t.assertions_passed ≤ t.assertions_ran) := by
  simp [TestTotals.validate, and_assoc]

theorem TestTotals.countedFrom_refl (t : TestTotals) : t.countedFrom t :=
  ⟨0, 0, Nat.le_refl 0, rfl⟩

theorem TestTotals.countedFrom_trans {t t2 t3 : TestTotals} (h1 : t.countedFrom t2)
    (h2 : t2.countedFrom t3) : t.countedFrom t3 := by
  obtain ⟨n, p, hp, rfl⟩ := h1
  obtain ⟨m, q, hq, rfl⟩ := h2
  exact ⟨n + m, p + q, by omega, by simp [Nat.add_assoc]⟩

theorem TestSummary.countedFrom_countAssertion (sm : TestSummary) (passed : Bool) :
    sm.totals.countedFrom (sm.countAssertion passed).totals := by
  cases passed
  · exact ⟨1, 0, by omega, rfl⟩
  · exact ⟨1, 1, by omega, rfl⟩

theorem Stmt.countedFrom_report (st : Stmt) (r : TestRunner) :
    r.test_summary.totals.countedFrom (st.report r).test_summary.totals := by
  cases st with
  | assertion on_fail a =>
    simp only [Stmt.report, TestRunner.test_summary_reportAssertion]
    exact TestSummary.countedFrom_countAssertion _ _
  | assertionBool on_fail a =>
    simp only [Stmt.report, TestRunner.test_summary_reportAssertionBool]
    exact TestSummary.countedFrom_countAssertion _ _
  | failure => exact TestTotals.countedFrom_refl _
  | success => exact TestTotals.countedFrom_refl _
  | throwException => exact TestTotals.countedFrom_refl _

theorem countedFrom_execBody (body : List Stmt) (r : TestRunner) :
    r.test_summary.totals.countedFrom (execBody body r).1.test_summary.totals := by
  induction body generalizing r with
  | nil => exact TestTotals.countedFrom_refl _
  | cons st rest ih =>
    cases st with
    | assertion on_fail a =>
      have h1 := Stmt.countedFrom_report (Stmt.assertion on_fail a) r
      simp only [Stmt.report] at h1
      simp only [execBody]
      split
      · cases on_fail
        · exact h1
        · exact TestTotals.countedFrom_trans h1 (ih _)
      · exact TestTotals.countedFrom_trans h1 (ih _)
    | assertionBool on_fail a =>
      have h1 := Stmt.countedFrom_report (Stmt.assertionBool on_fail a) r
      simp only [Stmt.report] at h1
      simp only [execBody]
      split
      · cases on_fail
        · exact h1
        · exact TestTotals.countedFrom_trans h1 (ih _)
      · exact TestTotals.countedFrom_trans h1 (ih _)
    | failure => exact TestTotals.countedFrom_refl _
    | success => exact TestTotals.countedFrom_refl _
    | throwException => exact TestTotals.countedFrom_refl _

theorem countedFrom_runTestHelper (test : TestInterface) (r : TestRunner) :
    r.test_summary.totals.countedFrom
      (TestInterface.runTestHelper test r).2.test_summary.totals := by
  simp only [TestInterface.runTestHelper]
  exact countedFrom_execBody test.invoker _

theorem countedFrom_runSingleTestHelper (config : Configuration) (test : TestInterface)
    (r : TestRunner) :
    r.test_summary.totals.countedFrom
      (TestSuite.runSingleTestHelper test (some (TestRunner.startCallback config))
        (some TestRunner.finishCallback) r).2.test_summary.totals := by
  simp only [TestSuite.runSingleTestHelper, TestRunner.finishCallback, TestFunction.run]
  exact countedFrom_runTestHelper _ (TestRunner.startCallback config test r)

theorem runLoop_spec (config : Configuration) (tests : List TestInterface) (pass : Bool)
    (num_ran : Nat) (r : TestRunner) :
    r.test_summary.totals.countedFrom
      (TestSuite.runLoop (some (TestRunner.startCallback config))
        (some TestRunner.finishCallback) tests pass num_ran r).2.test_summary.totals ∧
    (TestSuite.runLoop (some (TestRunner.startCallback config))
        (some TestRunner.finishCallback) tests pass num_ran r).1.tests.length = tests.length ∧
    (TestSuite.runLoop (some (TestRunner.startCallback config))
        (some TestRunner.finishCallback) tests pass num_ran r).1.num_ran
      = num_ran + tests.length := by
  induction tests generalizing pass num_ran r with
  | nil => exact ⟨TestTotals.countedFrom_refl _, rfl, rfl⟩
  | cons child rest ih =>
    simp only [TestSuite.runLoop, List.length_cons]
    obtain ⟨h1, h2, h3⟩ := ih
      (pass && (TestSuite.runSingleTestHelper child (some (TestRunner.startCallback config))
        (some TestRunner.finishCallback) r).1.passed) (num_ran + 1)
      (TestSuite.runSingleTestHelper child (some (TestRunner.startCallback config))
        (some TestRunner.finishCallback) r).2
    refine ⟨TestTotals.countedFrom_trans (countedFrom_runSingleTestHelper config child r) h1,
      by rw [h2], by rw [h3]; omega⟩

theorem foldl_count_le (tests : List TestInterface) (count : Nat) :
    tests.foldl (fun count t => count + (if t.passed then 1 else 0)) count
      ≤ count + tests.length := by
  induction tests generalizing count with
  | nil => simp
  | cons t rest ih =>
    simp only [List.foldl_cons, List.length_cons]
    have h := ih (count + (if t.passed then 1 else 0))
    have h2 : (if t.passed then 1 else 0) ≤ 1 := by split <;> omega
    omega

theorem TestSuite.numTestsPassed_le_size (s : TestSuite) : s.numTestsPassed ≤ s.size := by
  have h := foldl_count_le s.test_map 0
  simpa [TestSuite.numTestsPassed, TestSuite.size] using h

theorem TestSuite.run_spec (config : Configuration) (suite : TestSuite) (r : TestRunner) :
    r.test_summary.totals.countedFrom
      (suite.run (some (TestRunner.startCallback config))
        (some TestRunner.finishCallback) r).2.test_summary.totals ∧
    (suite.run (some (TestRunner.startCallback config))
        (some TestRunner.finishCallback) r).1.size = suite.size ∧
    (suite.run (some (TestRunner.startCallback config))
        (some TestRunner.finishCallback) r).1.numTestsRan = suite.size := by
  obtain ⟨h1, h2, h3⟩ := runLoop_spec config suite.test_map true 0 r
  refine ⟨h1, ?_, ?_⟩
  · simpa [TestSuite.run, TestSuite.size] using h2
  · simpa [TestSuite.run, TestSuite.numTestsRan, TestSuite.size] using h3

theorem foldl_ofSuites (suites : List TestSuite) (t : TestTotals) :
    suites.foldl
        (fun totals suite =>
          { totals with test_functions_total := totals.test_functions_total + suite.size }) t
      = { t with test_functions_total
            := t.test_functions_total + (suites.map TestSuite.size).sum } := by
  induction suites generalizing t with
  | nil => simp
  | cons s rest ih => simp [List.foldl_cons, ih, Nat.add_assoc]

theorem TestSummary.totals_ofSuites (suites : List TestSuite) :
    (TestSummary.ofSuites suites).totals
      = { TestTotals.zero with
            test_suites_total := suites.length,
            test_functions_total := (suites.map TestSuite.size).sum } := by
  simp [TestSummary.ofSuites, foldl_ofSuites, TestTotals.zero]

theorem runSuites_validate (config : Configuration) (suites : List TestSuite) (r : TestRunner)
    (h1 : r.test_summary.totals.test_suites_ran + suites.length
            ≤ r.test_summary.totals.test_suites_total)
    (h2 : r.test_summary.totals.test_suites_passed ≤ r.test_summary.totals.test_suites_ran)
    (h3 : r.test_summary.totals.test_functions_ran + (suites.map TestSuite.size).sum
            ≤ r.test_summary.totals.test_functions_total)
    (h4 : r.test_summary.totals.test_functions_passed
            ≤ r.test_summary.totals.test_functions_ran)
    (h5 : r.test_summary.totals.assertions_ran ≤ r.test_summary.totals.assertions_total)
    (h6 : r.test_summary.totals.assertions_passed ≤ r.test_summary.totals.assertions_ran) :
    (TestRunner.runSuites config suites r).2.test_summary.totals.validate = true := by
  induction suites generalizing r with
  | nil =>
    simp only [TestRunner.runSuites, TestTotals.validate_iff]
    simp only [List.length_nil, List.map_nil, List.sum_nil] at h1 h3
    omega
  | cons suite rest ih =>
    simp only [TestRunner.runSuites]
    obtain ⟨⟨n, p, hp, hc⟩, hsize, hran⟩ := TestSuite.run_spec config suite r
    have hpassed := TestSuite.numTestsPassed_le_size
      (suite.run (some (TestRunner.startCallback config)) (some TestRunner.finishCallback) r).1
    simp only [List.length_cons, List.map_cons, List.sum_cons] at h1 h3
    apply ih
    all_goals
      simp only [TestSummary.addTestSuiteResult, hc, hran]
      first
        | omega
        | (split <;> omega)

end sstest

namespace sstest

open comparison

theorem TestSummary.validate_countAssertion (sm : TestSummary) (passed : Bool) :
    (sm.getTotals.validate = true ∧ (sm.countAssertion passed).getTotals.validate = true)
      ↔ sm.getTotals.validate = true := by
  constructor
  · exact fun h => h.1
  · intro h
    refine ⟨h, ?_⟩
    obtain ⟨n, p, hp, hc⟩ := TestSummary.countedFrom_countAssertion sm passed
    simp only [TestSummary.getTotals, TestTotals.validate_iff] at h ⊢
    rw [hc]
    simp only
    omega

theorem TestSummary.validate_foldl_addAssertionResultBool (assertions : List AssertionBool)
    (sm : TestSummary) (h : sm.getTotals.validate = true) :
    (assertions.foldl TestSummary.addAssertionResultBool sm).getTotals.validate = true := by
  induction assertions generalizing sm with
  | nil => exact h
  | cons a rest ih =>
    simp only [List.foldl_cons]
    exact ih _ ((TestSummary.validate_countAssertion sm a.passed).mpr h).2

theorem TestSummary.validate_ofSuites (suites : List TestSuite) :
    (TestSummary.ofSuites suites).getTotals.validate = true := by
  simp [TestSummary.getTotals, TestSummary.totals_ofSuites, TestTotals.validate_iff,
    TestTotals.zero]

/-- C10 (as amended): a freshly constructed summary, `TestSummary()` or
`TestSummary(suites)`, is valid; `addAssertionResult` keeps a valid summary
valid, so every sequence of `addAssertionResult` calls from a fresh summary
ends in a valid one; the summary that `TestRunner::runTestCasesHelper` builds
(`TestSummary(suites)`, then every suite of the list run and added once, with
the assertions of the test bodies counted in between) is valid;
`addTestSuiteResult(s)` changes no `total` counter, and on a valid summary its
result is valid exactly when `test_suites_ran < test_suites_total`,
`test_functions_ran + s.numTestsRan() <= test_functions_total` and
`test_functions_passed + s.numTestsPassed() <= test_functions_ran + s.numTestsRan()`. -/
theorem validate_of_declared_totals (suites : List TestSuite) (assertions : List AssertionBool)
    (r : TestRunner) (sm : TestSummary) (s : TestSuite) (a : Assertion Value Value)
    (b : AssertionBool) :
    TestSummary.blank.getTotals.validate = true ∧
    (TestSummary.ofSuites suites).getTotals.validate = true ∧
    ((sm.getTotals.validate = true ∧ (sm.addAssertionResultBool b).getTotals.validate = true)
      ↔ sm.getTotals.validate = true) ∧
    ((sm.getTotals.validate = true ∧
        (sm.addAssertionResult bodyConv a ()).1.getTotals.validate = true)
      ↔ sm.getTotals.validate = true) ∧
    (assertions.foldl TestSummary.addAssertionResultBool TestSummary.blank).getTotals.validate
      = true ∧
    (assertions.foldl TestSummary.addAssertionResultBool
        (TestSummary.ofSuites suites)).getTotals.validate = true ∧
    (r.runTestCasesHelper suites).1.getTotals.validate = true ∧
    (sm.addTestSuiteResult s).getTotals.test_functions_total
      = sm.getTotals.test_functions_total ∧
    (sm.addTestSuiteResult s).getTotals.test_suites_total = sm.getTotals.test_suites_total ∧
    (sm.addTestSuiteResult s).getTotals.assertions_total = sm.getTotals.assertions_total ∧
    ((sm.getTotals.validate = true ∧ (sm.addTestSuiteResult s).getTotals.validate = true)
      ↔ (sm.getTotals.validate = true ∧
          sm.getTotals.test_suites_ran < sm.getTotals.test_suites_total ∧
          sm.getTotals.test_functions_ran + s.numTestsRan
            ≤ sm.getTotals.test_functions_total ∧
          sm.getTotals.test_functions_passed + s.numTestsPassed
            ≤ sm.getTotals.test_functions_ran + s.numTestsRan)) := by
  refine ⟨by decide, TestSummary.validate_ofSuites suites,
    TestSummary.validate_countAssertion sm b.passed,
    TestSummary.validate_countAssertion sm (a.passed bodyConv ()).1,
    TestSummary.validate_foldl_addAssertionResultBool assertions _ (by decide),
    TestSummary.validate_foldl_addAssertionResultBool assertions _
      (TestSummary.validate_ofSuites suites),
    ?_, rfl, rfl, rfl, ?_⟩
  · simp only [TestRunner.runTestCasesHelper, TestSummary.getTotals]
    apply runSuites_validate <;>
      simp [TestSummary.totals_ofSuites, TestTotals.zero]
  · simp only [TestSummary.getTotals, TestTotals.validate_iff, TestSummary.addTestSuiteResult]
    constructor
    · rintro ⟨h, h2⟩
      refine ⟨h, ?_⟩
      split at h2 <;> omega
    · rintro ⟨h, h2⟩
      refine ⟨h, ?_⟩
      split <;> omega

/-- C10, as stated, fails: from `TestSummary()`, adding the result of an empty
suite that has been run gives `test_suites_ran = 1 > 0 = test_suites_total`;
and from `TestSummary(suites)` for a one-suite list, adding that suite twice
gives `test_suites_ran = 2 > 1 = test_suites_total`.  In both cases
`validate()` is false. -/
theorem validate_fails_for_undeclared_suite :
    (TestSummary.blank.addTestSuiteResult
        ((TestSuite.new ⟨"A"⟩).run none none TestRunner.initial).1).getTotals.validate = false ∧
    (((TestSummary.ofSuites [TestSuite.new ⟨"A"⟩]).addTestSuiteResult
          ((TestSuite.new ⟨"A"⟩).run none none TestRunner.initial).1).addTestSuiteResult
        ((TestSuite.new ⟨"A"⟩).run none none TestRunner.initial).1).getTotals.validate
      = false := by
  constructor <;> decide

end sstest

namespace sstest

namespace comparison

/-! ## Comparators over several arguments -/

section variadic

variable {V : Type}

theorem internal.binary_ncompare_first_iff (conv : V → Bool) (pred : V → V → V) (first : V)
    (rest : List V) :
    internal.binary_ncompare_first conv pred first rest = true
      ↔ ∀ x ∈ rest, conv (pred first x) = true := by
  induction rest with
  | nil => simp [internal.binary_ncompare_first]
  | cons next rest ih => simp [internal.binary_ncompare_first, ih]

theorem internal.binary_ncompare_each_iff (conv : V → Bool) (pred : V → V → V) (first : V)
    (rest : List V) :
    internal.binary_ncompare_each conv pred first rest = true
      ↔ List.Pairwise (fun a b => conv (pred a b) = true) (first :: rest) := by
  induction rest generalizing first with
  | nil => simp [internal.binary_ncompare_each]
  | cons next rest ih =>
    rw [internal.binary_ncompare_each, Bool.and_eq_true, ih,
      internal.binary_ncompare_first_iff, List.pairwise_cons (a := first)]

theorem internal.binary_ncompare_adjacent_iff (conv : V → Bool) (pred : V → V → V) (first : V)
    (rest : List V) :
    internal.binary_ncompare_adjacent conv pred first rest = true
      ↔ List.Chain (fun a b => conv (pred a b) = true) first rest := by
  induction rest generalizing first with
  | nil => simp [internal.binary_ncompare_adjacent]
  | cons next rest ih =>
    rw [internal.binary_ncompare_adjacent, Bool.and_eq_true, ih, List.chain_cons]

/-- C11: `all_equal_first(x1, ..., xn)`, `n >= 2`, is true exactly when
`x1 == xi` converts to true for every later argument `xi` (each argument is
compared with the first only); on integers `all_equal_first(3,3,3,3,4)` and
`all_equal_first(3,3,4,3,3)` are false and `all_equal_first(-1,-1,-1,-1)` is
true. -/
theorem all_equal_first_iff (conv : V → Bool) (N : NativeOps V) (first next : V)
    (rest : List V) :
    (all_equal_first conv N first next rest = true
      ↔ ∀ x ∈ next :: rest, conv (N.eq first x) = true) ∧
    (all_equal_first conv N first next rest = true
      ↔ ∀ (i : Nat) (h : i < (next :: rest).length),
          conv (N.eq first ((next :: rest).get ⟨i, h⟩)) = true) ∧
    all_equal_first Value.toBool builtin (.int 3) (.int 3) [.int 3, .int 3, .int 4] = false ∧
    all_equal_first Value.toBool builtin (.int 3) (.int 3) [.int 4, .int 3, .int 3] = false ∧
    all_equal_first Value.toBool builtin (.int (-1)) (.int (-1)) [.int (-1), .int (-1)]
      = true := by
  have h1 : all_equal_first conv N first next rest = true
      ↔ ∀ x ∈ next :: rest, conv (N.eq first x) = true := by
    rw [all_equal_first, internal.binary_ncompare_first_iff]
    rfl
  refine ⟨h1, ?_, by decide, by decide, by decide⟩
  rw [h1]
  constructor
  · intro h i hi
    exact h _ (List.get_mem _ _ _)
  · intro h x hx
    obtain ⟨⟨i, hi⟩, rfl⟩ := List.get_of_mem hx
    exact h i hi

/-- C12: `all_equal_each(x1, ..., xn)`, `n >= 2`, is true exactly when
`xi == xj` converts to true for every pair of positions `i < j`; nothing is
assumed about `==`.  On integers `all_equal_each(3,3,4,3,3)` is false; and for
an `==` that is not transitive (equal when the difference is at most `1`)
`all_equal_each(1,0,2)` is false although `1 == 0` and `1 == 2`, because
`0 == 2` is compared too. -/
theorem all_equal_each_iff (conv : V → Bool) (N : NativeOps V) (first next : V)
    (rest : List V) :
    (all_equal_each conv N first next rest = true
      ↔ List.Pairwise (fun a b => conv (N.eq a b) = true) (first :: next :: rest)) ∧
    (all_equal_each conv N first next rest = true
      ↔ ∀ (i j : Nat) (hi : i < (first :: next :: rest).length)
          (hj : j < (first :: next :: rest).length), i < j →
          conv (N.eq ((first :: next :: rest).get ⟨i, hi⟩)
            ((first :: next :: rest).get ⟨j, hj⟩)) = true) ∧
    all_equal_each Value.toBool builtin (.int 3) (.int 3) [.int 4, .int 3, .int 3] = false ∧
    all_equal_each Value.toBool builtin (.int 3) (.int 3) [.int 3, .int 3, .int 4] = false ∧
    all_equal_each Value.toBool builtin (.int (-1)) (.int (-1)) [.int (-1), .int (-1)] = true ∧
    all_equal_each Value.toBool nearlyEqual (.int 1) (.int 0) [.int 2] = false ∧
    all_equal_first Value.toBool nearlyEqual (.int 1) (.int 0) [.int 2] = true := by
  have h1 : all_equal_each conv N first next rest = true
      ↔ List.Pairwise (fun a b => conv (N.eq a b) = true) (first :: next :: rest) := by
    rw [all_equal_each, internal.binary_ncompare_each_iff]
    rfl
  refine ⟨h1, ?_, by decide, by decide, by decide, by decide, by decide⟩
  rw [h1, List.pairwise_iff_getElem]
  constructor
  · intro h i j hi hj hij
    exact h i j hi hj hij
  · intro h i j hi hj hij
    exact h i j hi hj hij

/-- C13: when `==` is symmetric and transitive on the arguments,
`all_equal_first(x1, ..., xn)` and `all_equal_each(x1, ..., xn)` agree for
every argument list with `n >= 2`, and both are true exactly when every two
arguments compare equal. -/
theorem all_equal_first_eq_all_equal_each (conv : V → Bool) (N : NativeOps V) (first next : V)
    (rest : List V)
    (hsymm : ∀ a ∈ first :: next :: rest, ∀ b ∈ first :: next :: rest,
      conv (N.eq a b) = true → conv (N.eq b a) = true)
    (htrans : ∀ a ∈ first :: next :: rest, ∀ b ∈ first :: next :: rest,
      ∀ c ∈ first :: next :: rest,
      conv (N.eq a b) = true → conv (N.eq b c) = true → conv (N.eq a c) = true) :
    all_equal_first conv N first next rest = all_equal_each conv N first next rest ∧
    (all_equal_first conv N first next rest = true
      ↔ ∀ x ∈ first :: next :: rest, ∀ y ∈ first :: next :: rest, conv (N.eq x y) = true) ∧
    (all_equal_each conv N first next rest = true
      ↔ ∀ x ∈ first :: next :: rest, ∀ y ∈ first :: next :: rest,
          conv (N.eq x y) = true) := by
  have hfirst : all_equal_first conv N first next rest = true
      ↔ ∀ x ∈ next :: rest, conv (N.eq first x) = true := by
    rw [all_equal_first, internal.binary_ncompare_first_iff]
    rfl
  have heach : all_equal_each conv N first next rest = true
      ↔ List.Pairwise (fun a b => conv (N.eq a b) = true) (first :: next :: rest) := by
    rw [all_equal_each, internal.binary_ncompare_each_iff]
    rfl
  have hmemf : first ∈ first :: next :: rest := List.mem_cons_self _ _
  have hall : (∀ x ∈ next :: rest, conv (N.eq first x) = true)
      → ∀ x ∈ first :: next :: rest, ∀ y ∈ first :: next :: rest, conv (N.eq x y) = true := by
    intro h
    have hnext : conv (N.eq first next) = true := h next (List.mem_cons_self _ _)
    have hmemn : next ∈ first :: next :: rest :=
      List.mem_cons_of_mem _ (List.mem_cons_self _ _)
    have hff : conv (N.eq first first) = true :=
      htrans first hmemf next hmemn first hmemf hnext (hsymm first hmemf next hmemn hnext)
    have hfy : ∀ y ∈ first :: next :: rest, conv (N.eq first y) = true := by
      intro y hy
      rcases List.mem_cons.mp hy with rfl | hy2
      · exact hff
      · exact h y hy2
    intro x hx y hy
    exact htrans x hx first hmemf y hy (hsymm first hmemf x hx (hfy x hx)) (hfy y hy)
  have h1 : all_equal_first conv N first next rest = true
      ↔ ∀ x ∈ first :: next :: rest, ∀ y ∈ first :: next :: rest, conv (N.eq x y) = true := by
    rw [hfirst]
    exact ⟨hall, fun h x hx => h first hmemf x (List.mem_cons_of_mem _ hx)⟩
  have h2 : all_equal_each conv N first next rest = true
      ↔ ∀ x ∈ first :: next :: rest, ∀ y ∈ first :: next :: rest, conv (N.eq x y) = true := by
    rw [heach]
    constructor
    · intro h
      exact hall (List.pairwise_cons.mp h).1
    · intro h
      exact List.pairwise_of_forall_mem_list h
  refine ⟨?_, h1, h2⟩
  rw [Bool.eq_iff_iff, h1, h2]

/-- Witness for C13: the built-in `==` on the integers `3, 3, 4, 3, 3`. -/
theorem all_equal_first_eq_all_equal_each_witness :
    (∀ a ∈ [Value.int 3, .int 3, .int 4, .int 3, .int 3],
      ∀ b ∈ [Value.int 3, .int 3, .int 4, .int 3, .int 3],
      Value.toBool (builtin.eq a b) = true → Value.toBool (builtin.eq b a) = true) ∧
    (∀ a ∈ [Value.int 3, .int 3, .int 4, .int 3, .int 3],
      ∀ b ∈ [Value.int 3, .int 3, .int 4, .int 3, .int 3],
      ∀ c ∈ [Value.int 3, .int 3, .int 4, .int 3, .int 3],
      Value.toBool (builtin.eq a b) = true → Value.toBool (builtin.eq b c) = true →
        Value.toBool (builtin.eq a c) = true) ∧
    (all_equal_first Value.toBool builtin (.int 3) (.int 3) [.int 4, .int 3, .int 3]
        = all_equal_each Value.toBool builtin (.int 3) (.int 3) [.int 4, .int 3, .int 3] ∧
     (all_equal_first Value.toBool builtin (.int 3) (.int 3) [.int 4, .int 3, .int 3] = true
        ↔ ∀ x ∈ [Value.int 3, .int 3, .int 4, .int 3, .int 3],
          ∀ y ∈ [Value.int 3, .int 3, .int 4, .int 3, .int 3],
            Value.toBool (builtin.eq x y) = true) ∧
     (all_equal_each Value.toBool builtin (.int 3) (.int 3) [.int 4, .int 3, .int 3] = true
        ↔ ∀ x ∈ [Value.int 3, .int 3, .int 4, .int 3, .int 3],
          ∀ y ∈ [Value.int 3, .int 3, .int 4, .int 3, .int 3],
            Value.toBool (builtin.eq x y) = true)) :=
  ⟨by decide, by decide,
   all_equal_first_eq_all_equal_each Value.toBool builtin (.int 3) (.int 3)
     [.int 4, .int 3, .int 3] (by decide) (by decide)⟩

/-- C14: for `n >= 2` arguments, `ascending` is true exactly when `xi <= x(i+1)`
converts to true for every adjacent pair, `strictly_ascending` when
`xi < x(i+1)` does, `descending` when `xi >= x(i+1)` does and
`strictly_descending` when `xi > x(i+1)` does; on integers these are the chains
of `<=`, `<`, `>=`, `>`, so `ascending(3,3,3,3,4)` is true and
`strictly_ascending(3,3,3,3,4)` is false. -/
theorem ascending_iff_adjacent (conv : V → Bool) (N : NativeOps V) (first next : V)
    (rest : List V) (a b : Int) (ints : List Int) :
    (ascending conv N first next rest = true
      ↔ List.Chain' (fun x y => conv (N.le x y) = true) (first :: next :: rest)) ∧
    (strictly_ascending conv N first next rest = true
      ↔ List.Chain' (fun x y => conv (N.lt x y) = true) (first :: next :: rest)) ∧
    (descending conv N first next rest = true
      ↔ List.Chain' (fun x y => conv (N.ge x y) = true) (first :: next :: rest)) ∧
    (strictly_descending conv N first next rest = true
      ↔ List.Chain' (fun x y => conv (N.gt x y) = true) (first :: next :: rest)) ∧
    (ascending Value.toBool builtin (.int a) (.int b) (ints.map Value.int) = true
      ↔ List.Chain' (fun x y => x ≤ y) (a :: b :: ints)) ∧
    (strictly_ascending Value.toBool builtin (.int a) (.int b) (ints.map Value.int) = true
      ↔ List.Chain' (fun x y => x < y) (a :: b :: ints)) ∧
    (descending Value.toBool builtin (.int a) (.int b) (ints.map Value.int) = true
      ↔ List.Chain' (fun x y => x ≥ y) (a :: b :: ints)) ∧
    (strictly_descending Value.toBool builtin (.int a) (.int b) (ints.map Value.int) = true
      ↔ List.Chain' (fun x y => x > y) (a :: b :: ints)) ∧
    ascending Value.toBool builtin (.int 3) (.int 3) [.int 3, .int 3, .int 4] = true ∧
    strictly_ascending Value.toBool builtin (.int 3) (.int 3) [.int 3, .int 3, .int 4]
      = false := by
  have hmap : ∀ (R : Int → Int → Prop) (pred : Value → Value → Value),
      (∀ x y : Int, Value.toBool (pred (.int x) (.int y)) = true ↔ R x y) →
      (internal.binary_ncompare_adjacent Value.toBool pred (.int a)
          (Value.int b :: ints.map Value.int) = true
        ↔ List.Chain' R (a :: b :: ints)) := by
    intro R pred hpred
    rw [internal.binary_ncompare_adjacent_iff, List.Chain']
    have h := List.chain_map (R := fun x y => Value.toBool (pred x y) = true) Value.int
      (b := a) (l := b :: ints)
    rw [List.map_cons] at h
    rw [h]
    simp only [hpred]
  refine ⟨?_, ?_, ?_, ?_, ?_, ?_, ?_, ?_, by decide, by decide⟩
  · rw [ascending, internal.binary_ncompare_adjacent_iff]; rfl
  · rw [strictly_ascending, internal.binary_ncompare_adjacent_iff]; rfl
  · rw [descending, internal.binary_ncompare_adjacent_iff]; rfl
  · rw [strictly_descending, internal.binary_ncompare_adjacent_iff]; rfl
  · exact hmap _ _ (fun x y => by simp [less_equal, builtin, Value.toBool, Value.toInt])
  · exact hmap _ _ (fun x y => by simp [less, builtin, Value.toBool, Value.toInt])
  · exact hmap _ _ (fun x y => by simp [greater_equal, builtin, Value.toBool, Value.toInt])
  · exact hmap _ _ (fun x y => by simp [greater, builtin, Value.toBool, Value.toInt])

end variadic

/-- C15: over exact numbers `approx_equal(lhs, rhs, delta)` is true exactly
when `|rhs - lhs| <= delta`; the boundary `|rhs - lhs| = delta` is accepted, it
is never true for a negative `delta`, and the order of `lhs` and `rhs` does not
matter.  On integers `approx_equal(1, 4, 3)` is true and `approx_equal(1, 4, 2)`
and `approx_equal(1, 1, -1)` are false. -/
theorem approx_equal_iff {α : Type} [LinearOrderedAddCommGroup α] (lhs rhs del : α) :
    (approx_equal lhs rhs del = true ↔ |rhs - lhs| ≤ del) ∧
    approx_equal lhs rhs |rhs - lhs| = true ∧
    ¬ (del < 0 ∧ approx_equal lhs rhs del = true) ∧
    approx_equal lhs rhs del = approx_equal rhs lhs del ∧
    approx_equal (1 : Int) 4 3 = true ∧
    approx_equal (1 : Int) 4 2 = false ∧
    approx_equal (1 : Int) 1 (-1) = false := by
  refine ⟨by simp [approx_equal], by simp [approx_equal], ?_, ?_, by decide, by decide,
    by decide⟩
  · rintro ⟨hneg, h⟩
    have h2 : |rhs - lhs| ≤ del := by simpa [approx_equal] using h
    exact absurd (lt_of_le_of_lt (le_trans (abs_nonneg _) h2) hneg) (lt_irrefl _)
  · simp [approx_equal, abs_sub_comm]

/-- C16: for a non-empty argument list, `all(b1, ..., bn)` is true exactly when
every `bi` converts to true and `any(b1, ..., bn)` exactly when at least one
does; `all(true, false, true)` is false, `any(false, false, true)` is true, and
`all(0)` and `any(nullptr)` are false. -/
theorem all_any_iff {V : Type} (conv : V → Bool) (first : V) (rest : List V) :
    (all conv first rest = true ↔ ∀ x ∈ first :: rest, conv x = true) ∧
    (any conv first rest = true ↔ ∃ x ∈ first :: rest, conv x = true) ∧
    all Value.toBool (.bool true) [.bool false, .bool true] = false ∧
    any Value.toBool (.bool false) [.bool false, .bool true] = true ∧
    all Value.toBool (.int 0) [] = false ∧
    any Value.toBool .nullptr [] = false := by
  refine ⟨?_, ?_, by decide, by decide, by decide, by decide⟩
  · induction rest generalizing first with
    | nil => simp [all, all1]
    | cons next rest ih =>
      rw [all, Bool.and_eq_true, ih]
      simp [all1]
  · induction rest generalizing first with
    | nil => simp [any, any1]
    | cons next rest ih =>
      rw [any, Bool.or_eq_true, ih]
      simp [any1]

end comparison

end sstest

namespace sstest

open comparison

/-! ## Tallying suites and assertions -/

theorem runLoop_counts (start_cb finish_cb : Option sstest_callback) (tests : List TestInterface)
    (pass : Bool) (num_ran : Nat) (r : TestRunner) :
    (TestSuite.runLoop start_cb finish_cb tests pass num_ran r).1.tests.length = tests.length ∧
    (TestSuite.runLoop start_cb finish_cb tests pass num_ran r).1.num_ran
      = num_ran + tests.length := by
  induction tests generalizing pass num_ran r with
  | nil => exact ⟨rfl, rfl⟩
  | cons child rest ih =>
    simp only [TestSuite.runLoop, List.length_cons]
    obtain ⟨h2, h3⟩ := ih
      (pass && (TestSuite.runSingleTestHelper child start_cb finish_cb r).1.passed) (num_ran + 1)
      (TestSuite.runSingleTestHelper child start_cb finish_cb r).2
    exact ⟨by rw [h2], by rw [h3]; omega⟩

theorem TestSuite.run_counts (suite : TestSuite) (start_cb finish_cb : Option sstest_callback)
    (r : TestRunner) :
    (suite.run start_cb finish_cb r).1.size = suite.size ∧
    (suite.run start_cb finish_cb r).1.numTestsRan = suite.size := by
  obtain ⟨h2, h3⟩ := runLoop_counts start_cb finish_cb suite.test_map true 0 r
  exact ⟨by simpa [TestSuite.run, TestSuite.size] using h2,
    by simpa [TestSuite.run, TestSuite.numTestsRan, TestSuite.size] using h3⟩

theorem foldl_count_eq_countP (tests : List TestInterface) (count : Nat) :
    tests.foldl (fun count t => count + (if t.passed then 1 else 0)) count
      = count + tests.countP (fun t => decide (t.result = TestResult.PASS)) := by
  induction tests generalizing count with
  | nil => simp
  | cons t rest ih =>
    rw [List.foldl_cons, ih, List.countP_cons]
    simp only [TestInterface.passed, TestInterface.result]
    omega

theorem TestSuite.numTestsPassed_eq_countP (s : TestSuite) :
    s.numTestsPassed = s.test_map.countP (fun t => decide (t.result = TestResult.PASS)) := by
  simp [TestSuite.numTestsPassed, foldl_count_eq_countP]

/-- C17: for a summary constructed from the one-suite list `[s]`, after
`s.run()` and one `addTestSuiteResult(s)`, `test_functions_total` and
`test_functions_ran` both equal `s.size()` and `test_functions_passed` is the
number of tests of `s` whose result is `PASS`.  A suite with two tests, one
passing and one not (its body throws, or it is failed through the runner with
`FAIL()`), yields `test_functions_total = 2`, `test_functions_ran = 2`,
`test_functions_passed = 1` and `allTestsPassed(true) = false`. -/
theorem summary_of_one_suite (s : TestSuite) (start_cb finish_cb : Option sstest_callback)
    (r : TestRunner) :
    ((TestSummary.ofSuites [s]).addTestSuiteResult
        (s.run start_cb finish_cb r).1).getTotals.test_functions_total = s.size ∧
    ((TestSummary.ofSuites [s]).addTestSuiteResult
        (s.run start_cb finish_cb r).1).getTotals.test_functions_ran = s.size ∧
    ((TestSummary.ofSuites [s]).addTestSuiteResult
        (s.run start_cb finish_cb r).1).getTotals.test_functions_passed
      = (s.run start_cb finish_cb r).1.test_map.countP
          (fun t => decide (t.result = TestResult.PASS)) ∧
    (s.run start_cb finish_cb r).1.size = s.size ∧
    (((TestSuite.new ⟨"A"⟩).addTest (passingTest "1")).bind
        (fun s1 => s1.addTest (throwingTest "2"))) = Except.ok suiteOnePassOneThrow ∧
    ((TestSummary.ofSuites [suiteOnePassOneThrow]).addTestSuiteResult
        (suiteOnePassOneThrow.run none none TestRunner.initial).1).getTotals
      = { TestTotals.zero with
            test_functions_total := 2, test_functions_ran := 2, test_functions_passed := 1,
            test_suites_total := 1, test_suites_ran := 1, test_suites_passed := 0 } ∧
    ((TestSummary.ofSuites [suiteOnePassOneThrow]).addTestSuiteResult
        (suiteOnePassOneThrow.run none none TestRunner.initial).1).getTotals.allTestsPassed
          true false = false ∧
    (TestRunner.initial.runTestCasesHelper [suiteOnePassOneFail]).1.getTotals
      = { TestTotals.zero with
            test_functions_total := 2, test_functions_ran := 2, test_functions_passed := 1,
            test_suites_total := 1, test_suites_ran := 1, test_suites_passed := 0 } ∧
    (TestRunner.initial.runTestCasesHelper [suiteOnePassOneFail]).1.getTotals.allTestsPassed
      true false = false := by
  obtain ⟨hsize, hran⟩ := TestSuite.run_counts s start_cb finish_cb r
  refine ⟨?_, ?_, ?_, hsize, rfl, by decide, by decide, by decide, by decide⟩
  · simp [TestSummary.getTotals, TestSummary.addTestSuiteResult, TestSummary.totals_ofSuites,
      TestTotals.zero]
  · simp [TestSummary.getTotals, TestSummary.addTestSuiteResult, TestSummary.totals_ofSuites,
      TestTotals.zero, hran]
  · simp [TestSummary.getTotals, TestSummary.addTestSuiteResult, TestSummary.totals_ofSuites,
      TestTotals.zero, TestSuite.numTestsPassed_eq_countP]

/-- C18: a suite with no test, once run, has `ran()` and `passed()` true, and
adding its result to a summary constructed from it gives
`test_suites_total = 1`, `test_suites_ran = 1`, `test_suites_passed = 1` with the
three test-function counters and the three assertion counters at `0`. -/
theorem summary_of_empty_suite (tinfo : TestInfo) (start_cb finish_cb : Option sstest_callback)
    (r : TestRunner) :
    ((TestSuite.new tinfo).run start_cb finish_cb r).1.ran = true ∧
    ((TestSuite.new tinfo).run start_cb finish_cb r).1.passed = true ∧
    ((TestSuite.new tinfo).run start_cb finish_cb r).1.size = 0 ∧
    ((TestSummary.ofSuites [TestSuite.new tinfo]).addTestSuiteResult
        ((TestSuite.new tinfo).run start_cb finish_cb r).1).getTotals
      = { test_functions_total := 0, test_functions_ran := 0, test_functions_passed := 0,
          test_suites_total := 1, test_suites_ran := 1, test_suites_passed := 1,
          assertions_total := 0, assertions_ran := 0, assertions_passed := 0 } := by
  refine ⟨rfl, rfl, rfl, rfl⟩

/-- C19: `addAssertionResult(a)` adds `1` to `assertions_total` and to
`assertions_ran`, adds `1` to `assertions_passed` when `a.passed()` and `0`
otherwise, and leaves the other six counters as they are; an `INVALID`
assertion is counted as ran and not passed. -/
theorem addAssertionResult_counts (sm : TestSummary) (b : AssertionBool)
    (a : Assertion Value Value) :
    (sm.addAssertionResultBool b).getTotals
      = { sm.getTotals with
            assertions_total := sm.getTotals.assertions_total + 1,
            assertions_ran := sm.getTotals.assertions_ran + 1,
            assertions_passed := sm.getTotals.assertions_passed + (if b.passed then 1 else 0) } ∧
    (sm.addAssertionResult bodyConv a ()).1.getTotals
      = { sm.getTotals with
            assertions_total := sm.getTotals.assertions_total + 1,
            assertions_ran := sm.getTotals.assertions_ran + 1,
            assertions_passed := sm.getTotals.assertions_passed
              + (if (a.passed bodyConv ()).1 then 1 else 0) } ∧
    (sm.addAssertionResultBool AssertionBool.default).getTotals
      = { sm.getTotals with
            assertions_total := sm.getTotals.assertions_total + 1,
            assertions_ran := sm.getTotals.assertions_ran + 1 } ∧
    AssertionBool.default.result = AssertionResult.INVALID := by
  refine ⟨?_, ?_, rfl, rfl⟩
  · simp only [TestSummary.addAssertionResultBool, TestSummary.countAssertion,
      TestSummary.getTotals]
    cases b.passed <;> rfl
  · simp only [TestSummary.addAssertionResult, TestSummary.countAssertion,
      TestSummary.getTotals]
    cases (a.passed bodyConv ()).1 <;> rfl

/-- C20: `addTestSuiteResult(s)` adds `1` to `test_suites_ran`, adds `1` to
`test_suites_passed` exactly when `s.passed()`, adds `s.numTestsPassed()` to
`test_functions_passed` and `s.numTestsRan()` to `test_functions_ran`, and
changes no other counter; neither `addTestSuiteResult` nor `addAssertionResult`
makes any of the nine counters smaller. -/
theorem addTestSuiteResult_counts (sm : TestSummary) (s : TestSuite) (b : AssertionBool)
    (a : Assertion Value Value) :
    (sm.addTestSuiteResult s).getTotals
      = { sm.getTotals with
            test_suites_ran := sm.getTotals.test_suites_ran + 1,
            test_suites_passed := sm.getTotals.test_suites_passed + (if s.passed then 1 else 0),
            test_functions_passed := sm.getTotals.test_functions_passed + s.numTestsPassed,
            test_functions_ran := sm.getTotals.test_functions_ran + s.numTestsRan } ∧
    List.Forall₂ (fun before after => before ≤ after) sm.getTotals.counters
      (sm.addTestSuiteResult s).getTotals.counters ∧
    List.Forall₂ (fun before after => before ≤ after) sm.getTotals.counters
      (sm.addAssertionResultBool b).getTotals.counters ∧
    List.Forall₂ (fun before after => before ≤ after) sm.getTotals.counters
      (sm.addAssertionResult bodyConv a ()).1.getTotals.counters := by
  refine ⟨rfl, ?_, ?_, ?_⟩
  · simp [TestTotals.counters, TestSummary.getTotals, TestSummary.addTestSuiteResult]
  · simp only [TestSummary.addAssertionResultBool, TestSummary.countAssertion,
      TestSummary.getTotals]
    cases b.passed <;> simp [TestTotals.counters]
  · simp only [TestSummary.addAssertionResult, TestSummary.countAssertion,
      TestSummary.getTotals]
    cases (a.passed bodyConv ()).1 <;> simp [TestTotals.counters]

end sstest

namespace sstest

open comparison

/-! ## `allTestsPassed` and the exit code -/

/-- C21: `allTestsPassed(pass_vacuous, pass_skipped)` is `pass_vacuous` when
`test_functions_ran` is `0`; otherwise it is
`test_functions_passed == test_functions_ran` when `pass_skipped` is true and
`test_functions_passed == test_functions_total` when it is false.  With
`total = 3`, `ran = 1`, `passed = 1` it is false for `pass_skipped = false` and
true for `pass_skipped = true`. -/
theorem allTestsPassed_spec (t : TestTotals) (pass_vacuous pass_skipped : Bool) :
    t.allTestsPassed pass_vacuous pass_skipped
      = (if t.test_functions_ran = 0 then pass_vacuous
         else if pass_skipped then decide (t.test_functions_passed = t.test_functions_ran)
         else decide (t.test_functions_passed = t.test_functions_total)) ∧
    totalsOneOfThreeRan.allTestsPassed pass_vacuous false = false ∧
    totalsOneOfThreeRan.allTestsPassed pass_vacuous true = true := by
  refine ⟨?_, by cases pass_vacuous <;> decide, by cases pass_vacuous <;> decide⟩
  simp only [TestTotals.allTestsPassed]
  split
  · rfl
  · cases pass_skipped <;> simp [eq_comm]

theorem runSuites_ran_eq_total (config : Configuration) (suites : List TestSuite)
    (r : TestRunner)
    (h : r.test_summary.totals.test_functions_ran + (suites.map TestSuite.size).sum
          = r.test_summary.totals.test_functions_total) :
    (TestRunner.runSuites config suites r).2.test_summary.totals.test_functions_ran
      = (TestRunner.runSuites config suites r).2.test_summary.totals.test_functions_total := by
  induction suites generalizing r with
  | nil =>
    simp only [List.map_nil, List.sum_nil] at h
    simp only [TestRunner.runSuites]
    omega
  | cons suite rest ih =>
    simp only [TestRunner.runSuites]
    obtain ⟨⟨n, p, hp, hc⟩, hsize, hran⟩ := TestSuite.run_spec config suite r
    simp only [List.map_cons, List.sum_cons] at h
    apply ih
    simp only [TestSummary.addTestSuiteResult, hc, hran]
    omega

theorem runTestCasesHelper_validate (r : TestRunner) (suites : List TestSuite) :
    (r.runTestCasesHelper suites).1.getTotals.validate = true := by
  simp only [TestRunner.runTestCasesHelper, TestSummary.getTotals]
  apply runSuites_validate <;>
    simp [TestSummary.totals_ofSuites, TestTotals.zero]

end sstest

namespace testing

open sstest

theorem ExitCode_eq_success_iff (t : TestTotals) :
    ExitCode t = SSTEST_SUCCESS
      ↔ (t.test_functions_ran = 0 ∨ t.test_functions_passed = t.test_functions_total) := by
  simp only [ExitCode, TestTotals.allTestsPassed, SSTEST_SUCCESS, SSTEST_FAILURE]
  by_cases h : t.test_functions_ran = 0
  · simp [h]
  · by_cases h2 : t.test_functions_total = t.test_functions_passed
    · simp [h, h2]
    · have h3 : ¬ t.test_functions_passed = t.test_functions_total := fun e => h2 e.symm
      simp [h, h2, h3]

/-- C22 (as amended): `ExitCode(t)` is `SSTEST_SUCCESS` exactly when no test
function ran or `test_functions_passed = test_functions_total`, and
`SSTEST_FAILURE` otherwise; it never returns a third value.  For totals in which
every counted test function ran and `passed <= ran`, this is
`test_functions_passed = test_functions_ran`; such are the totals that
`TestRunner::runTestCasesHelper` returns. -/
theorem ExitCode_spec (t : TestTotals) (r : TestRunner) (suites : List TestSuite) :
    (ExitCode t = SSTEST_SUCCESS
      ↔ (t.test_functions_ran = 0 ∨ t.test_functions_passed = t.test_functions_total)) ∧
    (ExitCode t = SSTEST_FAILURE
      ↔ ¬ (t.test_functions_ran = 0 ∨ t.test_functions_passed = t.test_functions_total)) ∧
    (ExitCode t = SSTEST_SUCCESS ∨ ExitCode t = SSTEST_FAILURE) ∧
    SSTEST_SUCCESS ≠ SSTEST_FAILURE ∧
    (t.test_functions_ran = t.test_functions_total →
      t.test_functions_passed ≤ t.test_functions_ran →
      (ExitCode t = SSTEST_SUCCESS ↔ t.test_functions_passed = t.test_functions_ran)) ∧
    (ExitCode (r.runTestCasesHelper suites).1.getTotals = SSTEST_SUCCESS
      ↔ (r.runTestCasesHelper suites).1.getTotals.test_functions_passed
          = (r.runTestCasesHelper suites).1.getTotals.test_functions_ran) := by
  have hne : SSTEST_SUCCESS ≠ SSTEST_FAILURE := by decide
  have hcond : ∀ u : TestTotals, u.test_functions_ran = u.test_functions_total →
      u.test_functions_passed ≤ u.test_functions_ran →
      (ExitCode u = SSTEST_SUCCESS ↔ u.test_functions_passed = u.test_functions_ran) := by
    intro u h1 h2
    rw [ExitCode_eq_success_iff]
    omega
  refine ⟨ExitCode_eq_success_iff t, ?_, ?_, hne, hcond t, ?_⟩
  · rw [← ExitCode_eq_success_iff]
    unfold ExitCode
    split
    · simp [hne]
    · simp [hne.symm]
  · unfold ExitCode
    split
    · exact Or.inl rfl
    · exact Or.inr rfl
  · apply hcond
    · simp only [TestRunner.runTestCasesHelper, TestSummary.getTotals]
      apply runSuites_ran_eq_total
      simp [TestSummary.totals_ofSuites, TestTotals.zero]
    · exact ((TestTotals.validate_iff _).mp (runTestCasesHelper_validate r suites)).2.2.1

end testing

namespace testing

open sstest

/-- C22, as stated, fails: with `test_functions_total = 3`, `test_functions_ran = 1`
and `test_functions_passed = 1` (the totals of `test_summary_multi_test` after
its first suite) every test function that ran has passed, yet `ExitCode`
returns `SSTEST_FAILURE`, because the passed count is compared with the total. -/
theorem ExitCode_failure_although_ran_passed :
    totalsOneOfThreeRan.test_functions_passed = totalsOneOfThreeRan.test_functions_ran ∧
    totalsOneOfThreeRan.validate = true ∧
    ExitCode totalsOneOfThreeRan = SSTEST_FAILURE ∧
    ExitCode totalsOneOfThreeRan ≠ SSTEST_SUCCESS := by
  decide

end testing

namespace sstest

open comparison

/-! ## Registration of tests and suites -/

theorem length_eq_zero_iff_eq_empty (name : String) : name.length = 0 ↔ name = "" := by
  constructor
  · intro h
    obtain ⟨data⟩ := name
    have hdata : data = [] := List.length_eq_zero.mp h
    subst hdata
    rfl
  · rintro rfl
    rfl

/-- C23: `addTest(t)` throws `InvalidArgument` exactly when the suite already
contains a test whose name equals `t.name()` (the throwing branch writes
nothing, so the suite is left as it was); otherwise it succeeds, `size()` grows
by exactly `1`, every test registered before is still there, the new test is
stored, and names stay unique. -/
theorem addTest_spec (s : TestSuite) (t : TestInterface) :
    (s.addTest t = Except.error (t.name ++ " already exists")
      ↔ ∃ t2 ∈ s.test_map, t2.name = t.name) ∧
    ((∃ e, s.addTest t = Except.error e) ↔ ∃ t2 ∈ s.test_map, t2.name = t.name) ∧
    (s.addTest t = Except.ok { s with test_map := s.test_map ++ [t] }
      ↔ ∀ t2 ∈ s.test_map, t2.name ≠ t.name) ∧
    ((∃ s2, s.addTest t = Except.ok s2) ↔ ∀ t2 ∈ s.test_map, t2.name ≠ t.name) ∧
    (∀ s2, s.addTest t = Except.ok s2 →
      s2.size = s.size + 1 ∧ (∀ t2 ∈ s.test_map, t2 ∈ s2.test_map) ∧ t ∈ s2.test_map ∧
      s2.test_map = s.test_map ++ [t] ∧
      ((s.test_map.map TestInterface.name).Nodup →
        (s2.test_map.map TestInterface.name).Nodup)) := by
  cases hfind : s.test_map.find? (fun t2 => decide (t2.name = t.name)) with
  | none =>
    have hno : ∀ t2 ∈ s.test_map, t2.name ≠ t.name := by
      simpa using List.find?_eq_none.mp hfind
    have hnot : ¬ ∃ t2 ∈ s.test_map, t2.name = t.name := by
      rintro ⟨t2, h2, h3⟩
      exact hno t2 h2 h3
    have hadd : s.addTest t = Except.ok { s with test_map := s.test_map ++ [t] } := by
      simp only [TestSuite.addTest, hfind]
    refine ⟨?_, ?_, ?_, ?_, ?_⟩
    · simp [hadd, hnot]
    · simp [hadd, hnot]
    · exact iff_of_true hadd hno
    · exact iff_of_true ⟨_, hadd⟩ hno
    · intro s2 h2
      rw [hadd] at h2
      injection h2 with h2
      subst h2
      refine ⟨by simp [TestSuite.size], fun t2 h => List.mem_append_left _ h, by simp, rfl, ?_⟩
      intro hnodup
      simp only [List.map_append, List.map_cons, List.map_nil]
      rw [List.nodup_append]
      refine ⟨hnodup, List.nodup_singleton _, ?_⟩
      intro a ha hb
      rw [List.mem_singleton] at hb
      obtain ⟨t2, ht2, rfl⟩ := List.mem_map.mp ha
      exact hno t2 ht2 hb
  | some t3 =>
    have hmem : t3 ∈ s.test_map := List.mem_of_find?_eq_some hfind
    have hname : t3.name = t.name := by simpa using List.find?_some hfind
    have hex : ∃ t2 ∈ s.test_map, t2.name = t.name := ⟨t3, hmem, hname⟩
    have hnot : ¬ ∀ t2 ∈ s.test_map, t2.name ≠ t.name := fun h => h t3 hmem hname
    have hadd : s.addTest t = Except.error (t.name ++ " already exists") := by
      simp only [TestSuite.addTest, hfind]
    refine ⟨?_, ?_, ?_, ?_, ?_⟩
    · simp [hadd, hex]
    · simp [hadd, hex]
    · simp [hadd, hnot]
    · simp [hadd, hnot]
    · intro s2 h2
      rw [hadd] at h2
      cases h2

theorem getTest_eq_error_iff (s : TestSuite) (n : String) :
    s.getTest n = Except.error (n ++ " is not defined") ↔ ∀ t2 ∈ s.test_map, t2.name ≠ n := by
  cases hfind : s.test_map.find? (fun t2 => decide (t2.name = n)) with
  | none =>
    have hno : ∀ t2 ∈ s.test_map, t2.name ≠ n := by
      simpa using List.find?_eq_none.mp hfind
    exact iff_of_true (by simp only [TestSuite.getTest, hfind]) hno
  | some t3 =>
    have hmem : t3 ∈ s.test_map := List.mem_of_find?_eq_some hfind
    have hname : t3.name = n := by simpa using List.find?_some hfind
    have hnot : ¬ ∀ t2 ∈ s.test_map, t2.name ≠ n := fun h => h t3 hmem hname
    simp [TestSuite.getTest, hfind, hnot]

/-- C27: after a successful `addTest(t)`, `getTest(t.name())` returns the test
that was stored (the clone of `t`, which has its name); `getTest(n)` throws
`InvalidArgument` exactly when no stored test has name `n`, for any other name
`n` it answers as before the `addTest`, and on a new suite it throws for every
name. -/
theorem getTest_after_addTest (s s2 : TestSuite) (t : TestInterface)
    (hadd : s.addTest t = Except.ok s2) :
    s2.getTest t.name = Except.ok t ∧
    (∀ t2, s2.getTest t.name = Except.ok t2 → t2.name = t.name ∧ t2 ∈ s2.test_map) ∧
    (∀ n, s2.getTest n = Except.error (n ++ " is not defined")
      ↔ ∀ t2 ∈ s2.test_map, t2.name ≠ n) ∧
    (∀ n, n ≠ t.name → s2.getTest n = s.getTest n) ∧
    (∀ (tinfo : TestInfo) (n : String),
      (TestSuite.new tinfo).getTest n = Except.error (n ++ " is not defined")) := by
  cases hfind : s.test_map.find? (fun t2 => decide (t2.name = t.name)) with
  | some t3 =>
    simp only [TestSuite.addTest, hfind] at hadd
    cases hadd
  | none =>
    simp only [TestSuite.addTest, hfind] at hadd
    injection hadd with hadd
    subst hadd
    have hget : ({ s with test_map := s.test_map ++ [t] } : TestSuite).getTest t.name
        = Except.ok t := by
      simp [TestSuite.getTest, List.find?_append, hfind]
    refine ⟨hget, ?_, fun n => getTest_eq_error_iff _ n, ?_, fun tinfo n => rfl⟩
    · intro t2 h2
      rw [hget] at h2
      injection h2 with h2
      subst h2
      exact ⟨rfl, by simp⟩
    · intro n hn
      have hne : ¬ t.name = n := fun e => hn e.symm
      simp only [TestSuite.getTest, List.find?_append]
      cases hf2 : s.test_map.find? (fun t2 => decide (t2.name = n)) with
      | none => simp [hne]
      | some t4 => simp

/-- Witness for C27: the test `"1"` added to a new suite `A`. -/
theorem getTest_after_addTest_witness :
    (TestSuite.new ⟨"A"⟩).addTest (passingTest "1")
      = Except.ok { TestSuite.new ⟨"A"⟩ with test_map := [passingTest "1"] } ∧
    (({ TestSuite.new ⟨"A"⟩ with test_map := [passingTest "1"] } : TestSuite).getTest
        (passingTest "1").name = Except.ok (passingTest "1") ∧
     (∀ t2, ({ TestSuite.new ⟨"A"⟩ with test_map := [passingTest "1"] } : TestSuite).getTest
        (passingTest "1").name = Except.ok t2 →
        t2.name = (passingTest "1").name ∧
        t2 ∈ ({ TestSuite.new ⟨"A"⟩ with test_map := [passingTest "1"] } : TestSuite).test_map) ∧
     (∀ n, ({ TestSuite.new ⟨"A"⟩ with test_map := [passingTest "1"] } : TestSuite).getTest n
          = Except.error (n ++ " is not defined")
        ↔ ∀ t2 ∈ ({ TestSuite.new ⟨"A"⟩ with test_map := [passingTest "1"] } :
            TestSuite).test_map, t2.name ≠ n) ∧
     (∀ n, n ≠ (passingTest "1").name →
        ({ TestSuite.new ⟨"A"⟩ with test_map := [passingTest "1"] } : TestSuite).getTest n
          = (TestSuite.new ⟨"A"⟩).getTest n) ∧
     (∀ (tinfo : TestInfo) (n : String),
        (TestSuite.new tinfo).getTest n = Except.error (n ++ " is not defined"))) :=
  ⟨rfl, getTest_after_addTest (TestSuite.new ⟨"A"⟩)
    { TestSuite.new ⟨"A"⟩ with test_map := [passingTest "1"] } (passingTest "1") rfl⟩

end sstest

namespace sstest

open comparison

theorem TestRegistry.getTestCase_of_empty (reg : TestRegistry) :
    reg.getTestCase "" = Except.error "Test Group \"\" is reserved for default" := rfl

theorem TestRegistry.getTestCase_cases (reg : TestRegistry) (name : String) (hname : name ≠ "") :
    (∃ suite, reg.test_map.find? (fun suite => decide (suite.name = name)) = some suite ∧
        suite ∈ reg.test_map ∧ suite.name = name ∧
        reg.getTestCase name = Except.ok (suite, reg)) ∨
    ((∀ suite ∈ reg.test_map, suite.name ≠ name) ∧
        reg.getTestCase name
          = Except.ok (TestSuite.new ⟨name⟩,
              { test_map := reg.test_map ++ [TestSuite.new ⟨name⟩] })) := by
  have hlen : ¬ name.length = 0 := fun h => hname ((length_eq_zero_iff_eq_empty name).mp h)
  cases hfind : reg.test_map.find? (fun suite => decide (suite.name = name)) with
  | none =>
    right
    refine ⟨by simpa using List.find?_eq_none.mp hfind, ?_⟩
    simp only [TestRegistry.getTestCase, hlen, if_false, hfind]
  | some suite =>
    left
    refine ⟨suite, rfl, List.mem_of_find?_eq_some hfind,
      by simpa using List.find?_some hfind, ?_⟩
    simp only [TestRegistry.getTestCase, hlen, if_false, hfind]

theorem TestRegistry.nodup_afterGetTestCase (reg : TestRegistry) (name : String)
    (h : (reg.test_map.map TestSuite.name).Nodup) :
    ((reg.afterGetTestCase name).test_map.map TestSuite.name).Nodup := by
  by_cases hname : name = ""
  · subst hname
    simpa [TestRegistry.afterGetTestCase, TestRegistry.getTestCase_of_empty] using h
  · rcases TestRegistry.getTestCase_cases reg name hname with ⟨suite, _, _, _, hget⟩ | ⟨hno, hget⟩
    · simpa [TestRegistry.afterGetTestCase, hget] using h
    · simp only [TestRegistry.afterGetTestCase, hget, List.map_append, List.map_cons,
        List.map_nil]
      rw [List.nodup_append]
      refine ⟨h, List.nodup_singleton _, ?_⟩
      intro a ha hb
      rw [List.mem_singleton] at hb
      obtain ⟨suite, hs, rfl⟩ := List.mem_map.mp ha
      exact hno suite hs hb

theorem TestRegistry.head_afterGetTestCase (reg : TestRegistry) (name : String)
    (rest : List TestSuite) (h : reg.test_map = TestSuite.new ⟨""⟩ :: rest) :
    ∃ rest2, (reg.afterGetTestCase name).test_map = TestSuite.new ⟨""⟩ :: rest2 := by
  by_cases hname : name = ""
  · subst hname
    exact ⟨rest, by simpa [TestRegistry.afterGetTestCase, TestRegistry.getTestCase_of_empty]
      using h⟩
  · rcases TestRegistry.getTestCase_cases reg name hname with ⟨suite, _, _, _, hget⟩ | ⟨hno, hget⟩
    · exact ⟨rest, by simpa [TestRegistry.afterGetTestCase, hget] using h⟩
    · exact ⟨rest ++ [TestSuite.new ⟨name⟩], by
        simp [TestRegistry.afterGetTestCase, hget, h]⟩

theorem TestRegistry.foldl_afterGetTestCase (names : List String) (reg : TestRegistry)
    (rest : List TestSuite) (h : reg.test_map = TestSuite.new ⟨""⟩ :: rest)
    (hnodup : (reg.test_map.map TestSuite.name).Nodup) :
    ((names.foldl TestRegistry.afterGetTestCase reg).test_map.map TestSuite.name).Nodup ∧
    ∃ rest2, (names.foldl TestRegistry.afterGetTestCase reg).test_map
      = TestSuite.new ⟨""⟩ :: rest2 := by
  induction names generalizing reg rest with
  | nil => exact ⟨hnodup, rest, h⟩
  | cons name names ih =>
    obtain ⟨rest2, h2⟩ := TestRegistry.head_afterGetTestCase reg name rest h
    exact ih (reg.afterGetTestCase name) rest2 h2
      (TestRegistry.nodup_afterGetTestCase reg name hnodup)

/-- C26: `getTestCase(name)` throws `InvalidArgument` exactly when `name` is
empty.  For a non-empty name it returns a suite of that name which the registry
holds afterwards: either the suite already stored under the name, the registry
being left as it was, or one new empty suite, appended to the registry, when no
stored suite has the name; a second call with the same name returns the same
suite and changes nothing.  Starting from a new registry, after any calls of
`getTestCase` no two stored suites have equal names, and the default suite is
still the one `getDefaultTestCase` returns. -/
theorem getTestCase_spec (reg : TestRegistry) (name : String) (names : List String) :
    ((∃ e, reg.getTestCase name = Except.error e) ↔ name = "") ∧
    (name ≠ "" →
      ∃ suite, reg.getTestCase name = Except.ok (suite, reg.afterGetTestCase name) ∧
        suite.name = name ∧
        suite ∈ (reg.afterGetTestCase name).test_map ∧
        (reg.afterGetTestCase name).getTestCase name
          = Except.ok (suite, reg.afterGetTestCase name) ∧
        ((suite ∈ reg.test_map ∧ reg.afterGetTestCase name = reg) ∨
         ((∀ stored ∈ reg.test_map, stored.name ≠ name) ∧ suite = TestSuite.new ⟨name⟩ ∧
          suite.empty = true ∧
          (reg.afterGetTestCase name).test_map = reg.test_map ++ [suite]))) ∧
    ((TestRegistry.afterCalls names).test_map.map TestSuite.name).Nodup ∧
    (TestRegistry.afterCalls names).getDefaultTestCase = some (TestSuite.new ⟨""⟩) ∧
    TestRegistry.new.getDefaultTestCase = some (TestSuite.new ⟨""⟩) := by
  have hcalls := TestRegistry.foldl_afterGetTestCase names TestRegistry.new [] rfl
    (by simp [TestRegistry.new])
  refine ⟨?_, ?_, hcalls.1, ?_, rfl⟩
  · constructor
    · rintro ⟨e, he⟩
      by_contra hname
      rcases TestRegistry.getTestCase_cases reg name hname with ⟨suite, _, _, _, hget⟩ | ⟨_, hget⟩
      · rw [hget] at he
        cases he
      · rw [hget] at he
        cases he
    · rintro rfl
      exact ⟨_, TestRegistry.getTestCase_of_empty reg⟩
  · intro hname
    have hlen : ¬ name.length = 0 := fun h => hname ((length_eq_zero_iff_eq_empty name).mp h)
    rcases TestRegistry.getTestCase_cases reg name hname with
      ⟨suite, hfind, hmem, hsname, hget⟩ | ⟨hno, hget⟩
    · have hafter : reg.afterGetTestCase name = reg := by
        simp [TestRegistry.afterGetTestCase, hget]
      refine ⟨suite, ?_, hsname, ?_, ?_, Or.inl ⟨hmem, hafter⟩⟩
      · rw [hafter, hget]
      · rw [hafter]
        exact hmem
      · rw [hafter, hget]
    · have hafter : reg.afterGetTestCase name
          = { test_map := reg.test_map ++ [TestSuite.new ⟨name⟩] } := by
        simp [TestRegistry.afterGetTestCase, hget]
      have hfind2 : (reg.test_map ++ [TestSuite.new ⟨name⟩]).find?
          (fun suite => decide (suite.name = name)) = some (TestSuite.new ⟨name⟩) := by
        have hnone : reg.test_map.find? (fun suite => decide (suite.name = name)) = none := by
          simpa using hno
        rw [List.find?_append, hnone]
        simp [TestSuite.name, TestSuite.new]
      refine ⟨TestSuite.new ⟨name⟩, ?_, rfl, ?_, ?_, Or.inr ⟨hno, rfl, rfl, ?_⟩⟩
      · rw [hafter, hget]
      · rw [hafter]
        simp
      · rw [hafter]
        simp only [TestRegistry.getTestCase, hlen, if_false, hfind2]
      · rw [hafter]
  · obtain ⟨rest2, h2⟩ := hcalls.2
    unfold TestRegistry.afterCalls
    simp [TestRegistry.getDefaultTestCase, h2, TestSuite.name, TestSuite.new]

end sstest

namespace sstest

open comparison

/-! ## Running tests and suites -/

theorem TestInterface.fail_fail (t : TestInterface) : (t.fail true).fail true = t.fail true := rfl

theorem Option.map_fail_fail (o : Option TestInterface) :
    (o.map (fun t => t.fail true)).map (fun t => t.fail true) = o.map (fun t => t.fail true) := by
  cases o <;> rfl

theorem TestRunner.curr_test_reportAssertion (r : TestRunner) (a : Assertion Value Value) :
    (r.reportAssertion bodyConv a ()).1.curr_test
      = if (a.failed bodyConv ()).1 then r.curr_test.map (fun t => t.fail true)
        else r.curr_test := by
  simp only [TestRunner.reportAssertion]
  split <;> rfl

theorem TestRunner.curr_test_reportAssertionBool (r : TestRunner) (a : AssertionBool) :
    (r.reportAssertionBool a).curr_test
      = if a.failed then r.curr_test.map (fun t => t.fail true) else r.curr_test := by
  simp only [TestRunner.reportAssertionBool]
  split <;> rfl

theorem Stmt.curr_test_report (st : Stmt) (r : TestRunner) (hst : st.isAssertion = true) :
    (st.report r).curr_test
      = if st.callsFail then r.curr_test.map (fun t => t.fail true) else r.curr_test := by
  cases st with
  | assertion on_fail a => exact TestRunner.curr_test_reportAssertion r a
  | assertionBool on_fail a => exact TestRunner.curr_test_reportAssertionBool r a
  | failure => simp [Stmt.isAssertion] at hst
  | success => simp [Stmt.isAssertion] at hst
  | throwException => simp [Stmt.isAssertion] at hst

theorem Stmt.execBody_cons_of_isAssertion (st : Stmt) (rest : List Stmt) (r : TestRunner)
    (hst : st.isAssertion = true) :
    execBody (st :: rest) r
      = if st.continues then execBody rest (st.report r) else (st.report r, false) := by
  by_cases hpass : st.passes = true
  · rw [Stmt.continues_of_passes st rest r hst hpass]
    simp [Stmt.continues, hst, hpass]
  · have hfail : st.passes = false := by simpa using hpass
    by_cases hexp : st.isExpect = true
    · rw [Stmt.continues_of_isExpect st rest r hexp]
      simp [Stmt.continues, hst, hexp]
    · have hreq : st.isRequire = true := by
        cases st with
        | assertion on_fail a => cases on_fail <;> simp_all [Stmt.isRequire, Stmt.isExpect]
        | assertionBool on_fail a => cases on_fail <;> simp_all [Stmt.isRequire, Stmt.isExpect]
        | failure => simp [Stmt.isAssertion] at hst
        | success => simp [Stmt.isAssertion] at hst
        | throwException => simp [Stmt.isAssertion] at hst
      rw [Stmt.stops_of_isRequire st rest r hreq hfail]
      have hexp2 : st.isExpect = false := by simpa using hexp
      simp [Stmt.continues, hst, hfail, hexp2]

theorem curr_test_execBody (body : List Stmt) (r : TestRunner) :
    (execBody body r).1.curr_test
      = if callsFail body then r.curr_test.map (fun t => t.fail true) else r.curr_test := by
  induction body generalizing r with
  | nil => simp [execBody, callsFail]
  | cons st rest ih =>
    by_cases hst : st.isAssertion = true
    · rw [Stmt.execBody_cons_of_isAssertion st rest r hst]
      have hrep := Stmt.curr_test_report st r hst
      by_cases hcont : st.continues = true
      · simp only [hcont, if_true, ih, hrep, callsFail, Bool.true_and]
        by_cases h1 : st.callsFail = true <;> by_cases h2 : callsFail rest = true <;>
          simp only [h1, h2, if_true, if_false, Bool.true_or, Bool.or_true, Bool.or_self,
            Bool.false_eq_true, Option.map_fail_fail]
      · have hcont2 : st.continues = false := by simpa using hcont
        simp only [hcont2, Bool.false_eq_true, if_false, hrep, callsFail, Bool.false_and,
          Bool.or_false]
    · cases st with
      | assertion on_fail a => simp [Stmt.isAssertion] at hst
      | assertionBool on_fail a => simp [Stmt.isAssertion] at hst
      | failure =>
        simp [execBody, callsFail, Stmt.callsFail, TestRunner.explicitFailure,
          TestRunner.failCurrent]
      | success => simp [execBody, callsFail, Stmt.callsFail, Stmt.continues, Stmt.isAssertion]
      | throwException =>
        simp [execBody, callsFail, Stmt.callsFail, Stmt.continues, Stmt.isAssertion]

theorem threw_execBody (body : List Stmt) (r r2 : TestRunner) :
    (execBody body r).2 = (execBody body r2).2 := by
  induction body generalizing r r2 with
  | nil => rfl
  | cons st rest ih =>
    by_cases hst : st.isAssertion = true
    · rw [Stmt.execBody_cons_of_isAssertion st rest r hst,
        Stmt.execBody_cons_of_isAssertion st rest r2 hst]
      split
      · exact ih _ _
      · rfl
    · cases st with
      | assertion on_fail a => simp [Stmt.isAssertion] at hst
      | assertionBool on_fail a => simp [Stmt.isAssertion] at hst
      | failure => rfl
      | success => rfl
      | throwException => rfl

theorem TestFunction.run_eq (test : TestInterface) (r : TestRunner) :
    (TestFunction.run test r).1
      = { test with result_ :=
            if (execBody test.invoker r).2 then TestResult.THROW
            else if callsFail test.invoker && r.curr_test.isSome then TestResult.FAIL
            else TestResult.PASS } := by
  simp only [TestFunction.run, TestInterface.runTestHelper]
  rw [threw_execBody test.invoker _ r, curr_test_execBody]
  cases hcur : r.curr_test with
  | none => cases (execBody test.invoker r).2 <;> cases callsFail test.invoker <;> simp
  | some cur =>
    cases (execBody test.invoker r).2 <;> cases callsFail test.invoker <;>
      simp [TestInterface.fail]

theorem TestFunction.ran_run (test : TestInterface) (r : TestRunner) :
    (TestFunction.run test r).1.ran = true := by
  rw [TestFunction.run_eq]
  simp only [TestInterface.ran]
  cases (execBody test.invoker r).2 <;> cases (callsFail test.invoker && r.curr_test.isSome) <;>
    simp

theorem TestSuite.runSingleTestHelper_fst (test : TestInterface)
    (start_cb finish_cb : Option sstest_callback) (r : TestRunner) :
    ∃ r0, (TestSuite.runSingleTestHelper test start_cb finish_cb r).1
      = (TestFunction.run test r0).1 := by
  cases start_cb with
  | none => exact ⟨r, rfl⟩
  | some cb => exact ⟨cb test r, rfl⟩

theorem runLoop_tests (start_cb finish_cb : Option sstest_callback) (tests : List TestInterface)
    (pass : Bool) (num_ran : Nat) (r : TestRunner) :
    List.Forall₂ (fun t t2 => ∃ r0, t2 = (TestFunction.run t r0).1) tests
      (TestSuite.runLoop start_cb finish_cb tests pass num_ran r).1.tests ∧
    (TestSuite.runLoop start_cb finish_cb tests pass num_ran r).1.pass
      = (pass && (TestSuite.runLoop start_cb finish_cb tests pass num_ran r).1.tests.all
          (fun t => t.passed)) := by
  induction tests generalizing pass num_ran r with
  | nil => simp [TestSuite.runLoop]
  | cons child rest ih =>
    simp only [TestSuite.runLoop]
    obtain ⟨h1, h2⟩ := ih
      (pass && (TestSuite.runSingleTestHelper child start_cb finish_cb r).1.passed) (num_ran + 1)
      (TestSuite.runSingleTestHelper child start_cb finish_cb r).2
    obtain ⟨r0, hr0⟩ := TestSuite.runSingleTestHelper_fst child start_cb finish_cb r
    refine ⟨List.Forall₂.cons ⟨r0, hr0⟩ h1, ?_⟩
    rw [h2]
    simp [List.all_cons, Bool.and_assoc]

end sstest

namespace sstest

open comparison

theorem forall₂_exists_left {α β : Type} (R : α → β → Prop) (l1 : List α) (l2 : List β)
    (h : List.Forall₂ R l1 l2) : ∀ b ∈ l2, ∃ a ∈ l1, R a b := by
  induction h with
  | nil => simp
  | cons hab _ ih =>
    intro b hb
    rcases List.mem_cons.mp hb with rfl | hb2
    · exact ⟨_, List.mem_cons_self _ _, hab⟩
    · obtain ⟨a, ha, hr⟩ := ih b hb2
      exact ⟨a, List.mem_cons_of_mem _ ha, hr⟩

/-- C24: `TestSuite::run()` runs every registered test, one run of
`TestFunction::run()` for each, whether or not earlier tests failed.
Afterwards `numTestsRan() = size()` (and `size()` is what it was), `ran()` is
true, every contained test has `ran()` true, and `passed()` is true exactly
when every contained test passed, that is when `numTestsPassed() = size()`.
In a suite whose first test throws, the second test is still run. -/
theorem run_runs_every_test (s : TestSuite) (start_cb finish_cb : Option sstest_callback)
    (r : TestRunner) :
    (s.run start_cb finish_cb r).1.numTestsRan = (s.run start_cb finish_cb r).1.size ∧
    (s.run start_cb finish_cb r).1.size = s.size ∧
    (s.run start_cb finish_cb r).1.ran = true ∧
    List.Forall₂ (fun t t2 => ∃ r0, t2 = (TestFunction.run t r0).1) s.test_map
      (s.run start_cb finish_cb r).1.test_map ∧
    (∀ t ∈ (s.run start_cb finish_cb r).1.test_map, t.ran = true) ∧
    ((s.run start_cb finish_cb r).1.passed = true
      ↔ ∀ t ∈ (s.run start_cb finish_cb r).1.test_map, t.passed = true) ∧
    ((s.run start_cb finish_cb r).1.passed = true
      ↔ (s.run start_cb finish_cb r).1.numTestsPassed = (s.run start_cb finish_cb r).1.size) ∧
    (suiteOneThrowOnePass.run none none TestRunner.initial).1.test_map.map TestInterface.result
      = [TestResult.THROW, TestResult.PASS] ∧
    (suiteOneThrowOnePass.run none none TestRunner.initial).1.numTestsRan = 2 ∧
    (suiteOneThrowOnePass.run none none TestRunner.initial).1.passed = false := by
  obtain ⟨hsize, hran⟩ := TestSuite.run_counts s start_cb finish_cb r
  obtain ⟨hall, hpass⟩ := runLoop_tests start_cb finish_cb s.test_map true 0 r
  have hpassed : (s.run start_cb finish_cb r).1.passed = true
      ↔ ∀ t ∈ (s.run start_cb finish_cb r).1.test_map, t.passed = true := by
    simp only [TestSuite.run, TestSuite.passed, hpass, Bool.true_and, List.all_eq_true]
  refine ⟨by rw [hran, hsize], hsize, rfl, hall, ?_, hpassed, ?_, by decide, by decide,
    by decide⟩
  · intro t ht
    obtain ⟨t0, _, r0, hr0⟩ := forall₂_exists_left _ _ _ hall t ht
    rw [hr0]
    exact TestFunction.ran_run t0 r0
  · rw [hpassed, TestSuite.numTestsPassed_eq_countP, TestSuite.size, List.countP_eq_length]
    simp [TestInterface.passed, TestInterface.result]

/-- C25: let `fail()` not be called through a null `curr_test` (the runner has
set `curr_test`, or the body makes no call of `fail()`).  Then the result of
`TestFunction::run()` is `THROW` when the body throws, whatever happened before
the exception; otherwise it is `FAIL` when the body called `fail()`, and `PASS`
when it did not.  `run()` always returns, leaving `ran()` true, and `passed()`
is true exactly when the body neither threw nor called `fail()`; `THROW` is
distinct from `FAIL`.  In a suite whose first test throws and whose second has
an empty body, both tests run, the results are `THROW` and `PASS`, and the
summary counts two test functions ran and one passed. -/
theorem run_result (test : TestInterface) (r : TestRunner)
    (hcur : r.curr_test.isSome = true ∨ callsFail test.invoker = false) :
    (TestFunction.run test r).1
      = { test with result_ :=
            if (execBody test.invoker r).2 then TestResult.THROW
            else if callsFail test.invoker then TestResult.FAIL
            else TestResult.PASS } ∧
    ((execBody test.invoker r).2 = true →
      (TestFunction.run test r).1.result = TestResult.THROW ∧
      (TestFunction.run test r).1.passed = false ∧
      (TestFunction.run test r).1.ran = true) ∧
    ((execBody test.invoker r).2 = false → callsFail test.invoker = false →
      (TestFunction.run test r).1.result = TestResult.PASS) ∧
    (TestFunction.run test r).1.ran = true ∧
    ((TestFunction.run test r).1.passed = true
      ↔ ((execBody test.invoker r).2 = false ∧ callsFail test.invoker = false)) ∧
    TestResult.THROW ≠ TestResult.FAIL ∧
    (suiteOneThrowOnePass.run none none TestRunner.initial).1.test_map.map TestInterface.result
      = [TestResult.THROW, TestResult.PASS] ∧
    ((TestSummary.ofSuites [suiteOneThrowOnePass]).addTestSuiteResult
        (suiteOneThrowOnePass.run none none TestRunner.initial).1).getTotals
      = { TestTotals.zero with
            test_functions_total := 2, test_functions_ran := 2, test_functions_passed := 1,
            test_suites_total := 1, test_suites_ran := 1, test_suites_passed := 0 } := by
  have hrun : (TestFunction.run test r).1
      = { test with result_ :=
            if (execBody test.invoker r).2 then TestResult.THROW
            else if callsFail test.invoker then TestResult.FAIL
            else TestResult.PASS } := by
    rw [TestFunction.run_eq]
    rcases hcur with h | h
    · simp [h]
    · simp [h]
  refine ⟨hrun, ?_, ?_, TestFunction.ran_run test r, ?_, by decide, by decide, by decide⟩
  · intro hthrow
    rw [hrun]
    simp [hthrow, TestInterface.result, TestInterface.passed, TestInterface.ran]
  · intro hthrow hfail
    rw [hrun]
    simp [hthrow, hfail, TestInterface.result]
  · rw [hrun]
    cases (execBody test.invoker r).2 <;> cases callsFail test.invoker <;>
      simp [TestInterface.passed]

/-- Witness for C25: a test whose body is `EXPECT_TRUE(false);` followed by a
throwing statement, run with `curr_test` set: the result is `THROW`, not `FAIL`. -/
theorem run_result_witness :
    (({ TestRunner.initial with curr_test := some (passingTest "0") } :
          TestRunner).curr_test.isSome = true ∨
      callsFail (expectThenThrowTest "t").invoker = false) ∧
    (TestFunction.run (expectThenThrowTest "t")
        { TestRunner.initial with curr_test := some (passingTest "0") }).1.result
      = TestResult.THROW ∧
    (TestFunction.run (expectThenThrowTest "t")
        { TestRunner.initial with curr_test := some (passingTest "0") }).1.passed = false ∧
    (TestFunction.run (expectThenThrowTest "t")
        { TestRunner.initial with curr_test := some (passingTest "0") }).1.ran = true :=
  ⟨Or.inl rfl,
   (run_result (expectThenThrowTest "t")
      { TestRunner.initial with curr_test := some (passingTest "0") } (Or.inl rfl)).2.1
      (by decide)⟩

end sstest

namespace sstest

open comparison

/-! ## Text and printing of assertions -/

/-- C28: `text()` is the macro name followed by `" ( " + T + " ) "` when the
argument text `T` is not empty, and exactly the macro name when it is empty;
it does not depend on the comparison or on the evaluated result of the
assertion.  The name `"FAIL"` with the text `"false"` gives
`"FAIL ( false ) "`. -/
theorem text_spec {Res V : Type} (a : Assertion Res V) (b : AssertionBool) (N T : String)
    (line_info : LineInfo) (compare : CompareHelper Res V) (eval : Bool) :
    a.text = (if a.arg_text = "" then a.assertion_info.name
              else a.assertion_info.name ++ (" ( " ++ a.arg_text ++ " ) ")) ∧
    b.text = (if b.arg_text = "" then b.assertion_info.name
              else b.assertion_info.name ++ (" ( " ++ b.arg_text ++ " ) ")) ∧
    (make_assertion ⟨N⟩ line_info T compare).text
      = (if T = "" then N else N ++ (" ( " ++ T ++ " ) ")) ∧
    (make_assertion_bool ⟨N⟩ line_info T eval).text
      = (if T = "" then N else N ++ (" ( " ++ T ++ " ) ")) ∧
    (make_assertion_bool ⟨"FAIL"⟩ line_info "false" false).text = "FAIL ( false ) " ∧
    (make_assertion_bool ⟨"PASS"⟩ line_info "true" true).text = "PASS ( true ) " ∧
    (make_assertion_bool ⟨"FAIL"⟩ line_info "" false).text = "FAIL" := by
  have hgen : ∀ (name text : String),
      name ++ (if text.length ≠ 0 then " ( " ++ text ++ " ) " else "")
        = (if text = "" then name else name ++ (" ( " ++ text ++ " ) ")) := by
    intro name text
    by_cases h : text = ""
    · subst h
      simp
    · have hlen : text.length ≠ 0 := fun e => h ((length_eq_zero_iff_eq_empty text).mp e)
      simp [h, hlen]
  refine ⟨hgen _ _, hgen _ _, hgen _ _, hgen _ _, ?_, ?_, ?_⟩
  · exact (hgen "FAIL" "false").trans (by decide)
  · exact (hgen "PASS" "true").trans (by decide)
  · exact (hgen "FAIL" "").trans (by decide)

theorem Reporter.out_tuplePrinter (N : Nat) (logger : Logger) (tup : List Value)
    (hN : N ≤ tup.length) :
    (Reporter.tuplePrinter N logger tup).out
      = logger.out ++ (tup.take N).map LogItem.writeLineValue := by
  induction N with
  | zero => simp [Reporter.tuplePrinter]
  | succ N ih =>
    have hlt : N < tup.length := hN
    simp only [Reporter.tuplePrinter, List.getElem?_eq_getElem hlt, Logger.writeLineValue,
      ih (Nat.le_of_lt hlt), List.take_succ, List.map_append, List.append_assoc]
    simp [List.getElem?_eq_getElem hlt]

theorem Reporter.out_printComparison (logger : Logger) (compare : CompareHelper Value Value) :
    (Reporter.printComparison logger compare).out
      = logger.out ++
          ([LogItem.writeLine "evaluated to:", LogItem.writeLineValue compare.result,
            LogItem.writeLine "with arguments:"]
            ++ compare.args.map LogItem.writeLineValue) := by
  simp [Reporter.printComparison, Reporter.out_tuplePrinter, Logger.writeLine,
    Logger.writeLineValue]

/-- C30: `tuplePrinter` instantiated at the size `N` of the captured tuple
writes one line per captured operand, the operand at index `0` first and the
one at index `N - 1` last, each once; so `printComparison` writes its two
headings and the result, and then the operands in capture order.  For the
chain `Decomposer() << a OP1 b OP2 c` the operand lines are those of `a`, `b`,
`c`. -/
theorem printComparison_order (logger : Logger) (tup : List Value)
    (compare : CompareHelper Value Value) (N : NativeOps Value) (a b c : Value)
    (op1 op2 : BinOp) :
    (Reporter.tuplePrinter tup.length logger tup).out
      = logger.out ++ tup.map LogItem.writeLineValue ∧
    (Reporter.printComparison logger compare).out
      = logger.out ++
          ([LogItem.writeLine "evaluated to:", LogItem.writeLineValue compare.result,
            LogItem.writeLine "with arguments:"]
            ++ compare.args.map LogItem.writeLineValue) ∧
    (Reporter.tuplePrinter 3 logger (chain N a [(op1, b), (op2, c)]).args).out
      = logger.out ++ [LogItem.writeLineValue a, LogItem.writeLineValue b,
                       LogItem.writeLineValue c] := by
  refine ⟨?_, Reporter.out_printComparison logger compare, ?_⟩
  · rw [Reporter.out_tuplePrinter _ _ _ (Nat.le_refl _), List.take_length]
  · have hargs : (chain N a [(op1, b), (op2, c)]).args = [a, b, c] := by
      simp [chain, Collector.args_apply, Decomposer.shl]
    rw [hargs]
    simp [Reporter.tuplePrinter, Logger.writeLineValue]

end sstest

namespace sstest

open comparison

theorem Reporter.forEachLoggerM_pure {σ : Type} (func : Logger → σ → Logger × σ)
    (g : Logger → Logger) (hfunc : ∀ logger s, func logger s = (g logger, s))
    (loggers : List Logger) (s : σ) :
    Reporter.forEachLoggerM func loggers s = (loggers.map g, s) := by
  induction loggers generalizing s with
  | nil => rfl
  | cons logger rest ih => simp [Reporter.forEachLoggerM, hfunc, ih]

theorem Reporter.printComparison_eq (logger : Logger) (compare : CompareHelper Value Value) :
    Reporter.printComparison logger compare
      = { out := logger.out ++
            ([LogItem.writeLine "evaluated to:", LogItem.writeLineValue compare.result,
              LogItem.writeLine "with arguments:"]
              ++ compare.args.map LogItem.writeLineValue) } := by
  have h := Reporter.out_printComparison logger compare
  cases hp : Reporter.printComparison logger compare with
  | mk out =>
    rw [hp] at h
    simp only at h
    rw [h]

theorem Reporter.reportAssertionTo_pureConv {σ : Type} (f : Value → Bool)
    (settings : Configuration) (a : Assertion Value Value) (logger : Logger) (s : σ) :
    Reporter.reportAssertionTo (pureConv f) settings a logger s
      = ({ out := logger.out
            ++ (if (f a.compare_.result && settings.show_assertion_pass)
                    || (!f a.compare_.result && settings.show_assertion_fail)
                then [LogItem.write (a.where_ ++ ": "),
                      LogItem.writeLine (Reporter.banner
                        (if f a.compare_.result then AssertionResult.PASS
                         else AssertionResult.FAIL)),
                      LogItem.tab, LogItem.writeLine a.text]
                else [])
            ++ (if (f a.compare_.result && settings.expand_args_assertion_pass)
                    || (!f a.compare_.result && settings.expand_args_assertion_fail)
                then [LogItem.writeLine "evaluated to:",
                      LogItem.writeLineValue a.compare_.result,
                      LogItem.writeLine "with arguments:"]
                     ++ a.compare_.args.map LogItem.writeLineValue
                else []) }, s) := by
  have hres : a.result (pureConv f) s
      = (if f a.compare_.result then AssertionResult.PASS else AssertionResult.FAIL, s) := rfl
  simp only [Reporter.reportAssertionTo, Reporter.printAssertionResult, hres,
    Assertion.compare_result]
  cases hf : f a.compare_.result <;> cases settings.show_assertion_pass <;>
    cases settings.show_assertion_fail <;> cases settings.expand_args_assertion_pass <;>
    cases settings.expand_args_assertion_fail <;>
    simp [Reporter.printComparison_eq, Logger.write, Logger.writeLine, Logger.tab]

/-- C29: for every configuration, each logger receives from
`Reporter::reportAssertion`, for an assertion with captured operands, the
banner of the assertion exactly when (it passed and `show_assertion_pass`) or
(it failed and `show_assertion_fail`) or its result is `INVALID` (which
`result()` of such an assertion never is), and after it the captured operands
exactly when (it passed and `expand_args_assertion_pass`) or (it failed and
`expand_args_assertion_fail`); nothing else is written, so no operand is printed
for an outcome whose expansion flag is off.  The overload for `Assertion<bool>`,
which has no captured operands, writes the banner under the same condition and
nothing else. -/
theorem reportAssertion_prints_iff {σ : Type} (f : Value → Bool) (settings : Configuration)
    (a : Assertion Value Value) (b : AssertionBool) (logger : Logger) (rep : Reporter) (s : σ) :
    (a.passed (pureConv f) s).1 = f a.compare_.result ∧
    (a.failed (pureConv f) s).1 = (!f a.compare_.result) ∧
    (a.result (pureConv f) s).1 ≠ AssertionResult.INVALID ∧
    (Reporter.reportAssertionTo (pureConv f) settings a logger s).1.out
      = logger.out
          ++ (if ((a.passed (pureConv f) s).1 && settings.show_assertion_pass)
                  || ((a.failed (pureConv f) s).1 && settings.show_assertion_fail)
                  || decide ((a.result (pureConv f) s).1 = AssertionResult.INVALID)
              then [LogItem.write (a.where_ ++ ": "),
                    LogItem.writeLine (Reporter.banner (a.result (pureConv f) s).1),
                    LogItem.tab, LogItem.writeLine a.text]
              else [])
          ++ (if ((a.passed (pureConv f) s).1 && settings.expand_args_assertion_pass)
                  || ((a.failed (pureConv f) s).1 && settings.expand_args_assertion_fail)
              then [LogItem.writeLine "evaluated to:",
                    LogItem.writeLineValue a.compare_.result,
                    LogItem.writeLine "with arguments:"]
                   ++ a.compare_.args.map LogItem.writeLineValue
              else []) ∧
    (rep.reportAssertion (pureConv f) settings a s).1.loggers
      = rep.loggers.map
          (fun logger => (Reporter.reportAssertionTo (pureConv f) settings a logger s).1) ∧
    (Reporter.reportAssertionBoolTo settings b logger).out
      = logger.out
          ++ (if (b.passed && settings.show_assertion_pass)
                  || (b.failed && settings.show_assertion_fail)
                  || decide (b.result = AssertionResult.INVALID)
              then [LogItem.write (b.where_ ++ ": "),
                    LogItem.writeLine (Reporter.banner b.result),
                    LogItem.tab, LogItem.writeLine b.text]
              else []) ∧
    (rep.reportAssertionBool settings b).loggers
      = rep.loggers.map (Reporter.reportAssertionBoolTo settings b) := by
  have hres : (a.result (pureConv f) s).1
      = (if f a.compare_.result then AssertionResult.PASS else AssertionResult.FAIL) := rfl
  have hpass : (a.passed (pureConv f) s).1 = f a.compare_.result := by
    simp only [Assertion.passed, Assertion.result, CompareHelper.opBool, pureConv]
    by_cases h : f a.compare_.result = true
    · simp [h]
    · simp only [Bool.not_eq_true] at h
      simp [h]
  have hfail : (a.failed (pureConv f) s).1 = (!f a.compare_.result) := by
    simp only [Assertion.failed, Assertion.result, CompareHelper.opBool, pureConv]
    by_cases h : f a.compare_.result = true
    · simp [h]
    · simp only [Bool.not_eq_true] at h
      simp [h]
  have hinv : (a.result (pureConv f) s).1 ≠ AssertionResult.INVALID := by
    rw [hres]
    by_cases h : f a.compare_.result = true
    · simp [h]
    · simp only [Bool.not_eq_true] at h
      simp [h]
  refine ⟨hpass, hfail, hinv, ?_, ?_, ?_, rfl⟩
  · rw [hpass, hfail, decide_eq_false hinv, hres, Reporter.reportAssertionTo_pureConv]
    simp
  · simp only [Reporter.reportAssertion]
    rw [Reporter.forEachLoggerM_pure _
      (fun logger => (Reporter.reportAssertionTo (pureConv f) settings a logger s).1)]
    intro logger s2
    rw [Reporter.reportAssertionTo_pureConv, Reporter.reportAssertionTo_pureConv]
  · obtain ⟨res, ti, li, txt⟩ := b
    simp only [Reporter.reportAssertionBoolTo, Reporter.printAssertionResultBool,
      AssertionBool.result, AssertionBool.passed, AssertionBool.failed]
    cases res <;> cases settings.show_assertion_pass <;> cases settings.show_assertion_fail <;>
      simp [Logger.write, Logger.writeLine, Logger.tab]

end sstest

namespace sstest

open comparison

/-! ## Invalid assertions, sums of totals, sticky failure -/

/-- C31 (as amended): reporting an `Assertion<bool>` whose result is `INVALID`
through `TestRunner::reportAssertion` raises no exception.  Every logger gets
the location, the banner `invalid assertion result:` and the text, whatever the
`show_assertion_*` flags are; the summary counts the assertion as it counts a
failed one (`assertions_total` and `assertions_ran` grow by `1`,
`assertions_passed` stays); and `curr_test` is left as it was, since `failed()`
is false, so the current test is not marked `FAIL`.  A test whose body reports
a default-constructed assertion ends with the result `PASS`, not `THROW`. -/
theorem invalid_assertion_reported_and_tallied (r : TestRunner) (test_info : TestInfo)
    (line_info : LineInfo) (arg_text : String) (name : String) :
    (AssertionBool.mk AssertionResult.INVALID test_info line_info arg_text).passed = false ∧
    (AssertionBool.mk AssertionResult.INVALID test_info line_info arg_text).failed = false ∧
    (r.reportAssertionBool
        (AssertionBool.mk AssertionResult.INVALID test_info line_info arg_text)).curr_test
      = r.curr_test ∧
    (r.reportAssertionBool
        (AssertionBool.mk AssertionResult.INVALID test_info line_info arg_text)).test_summary.getTotals
      = { r.test_summary.getTotals with
            assertions_total := r.test_summary.getTotals.assertions_total + 1,
            assertions_ran := r.test_summary.getTotals.assertions_ran + 1 } ∧
    (r.reportAssertionBool
        (AssertionBool.mk AssertionResult.INVALID test_info line_info arg_text)).test_summary
      = (r.reportAssertionBool
          (AssertionBool.mk AssertionResult.FAIL test_info line_info arg_text)).test_summary ∧
    (r.reportAssertionBool
        (AssertionBool.mk AssertionResult.INVALID test_info line_info arg_text)).reporter_.loggers
      = r.reporter_.loggers.map (fun logger =>
          { out := logger.out ++
              [LogItem.write (line_info.where_ ++ ": "),
               LogItem.writeLine "invalid assertion result:",
               LogItem.tab,
               LogItem.writeLine
                 (AssertionBool.mk AssertionResult.INVALID test_info line_info arg_text).text] }) ∧
    (execBody (invalidAssertionTest name).invoker r).2 = false ∧
    (TestFunction.run (invalidAssertionTest name) r).1.result = TestResult.PASS := by
  refine ⟨rfl, rfl, rfl, rfl, rfl, ?_, rfl, ?_⟩
  · simp [TestRunner.reportAssertionBool, AssertionBool.failed, AssertionBool.result,
      Reporter.reportAssertionBool, Reporter.reportAssertionBoolTo,
      Reporter.printAssertionResultBool, Reporter.banner, Logger.write, Logger.writeLine,
      Logger.tab, AssertionBool.where_]
  · rw [TestFunction.run_eq]
    rfl

/-- C31, as stated, fails: a default-constructed `Assertion<bool>` (result
`INVALID`) reported by the body of a test does not end the body with an
exception (the test ends with `PASS`, not `THROW`), and the totals afterwards
are those left by reporting a failed assertion: one assertion ran, none
passed. -/
theorem invalid_assertion_not_fatal :
    AssertionBool.default.result = AssertionResult.INVALID ∧
    (execBody [Stmt.assertionBool OnFail.CONTINUE AssertionBool.default]
        TestRunner.initial).2 = false ∧
    (TestFunction.run (invalidAssertionTest "t")
        { TestRunner.initial with curr_test := some (passingTest "0") }).1.result
      = TestResult.PASS ∧
    (TestRunner.initial.reportAssertionBool AssertionBool.default).test_summary.getTotals
      = totalsOneAssertionFailed ∧
    (TestRunner.initial.reportAssertionBool AssertionBool.default).test_summary
      = (TestRunner.initial.reportAssertionBool
          (make_assertion_bool ⟨"EXPECT_TRUE"⟩ ⟨"test.cpp", 1⟩ "x" false)).test_summary := by
  decide

/-- C32: evaluation of `TestTotals::operator+` where the claim fails.  For the
totals with 3 test functions and 2 suites and the zero totals, the sum has
`test_suites_total = 3` (taken from `test_functions_total`), not `2`, so
`a + TestTotals()` differs from `a`; for the totals of one failed assertion the
sum has `assertions_passed = 1` (taken from `assertions_total`), not `0`.  The
counters `test_functions_*` and `assertions_total` are the sums of the
corresponding counters. -/
theorem add_takes_counters_from_wrong_fields (a b : TestTotals) :
    (totalsOneOfThreeRan.add TestTotals.zero).test_suites_total = 3 ∧
    totalsOneOfThreeRan.test_suites_total + TestTotals.zero.test_suites_total = 2 ∧
    totalsOneOfThreeRan.add TestTotals.zero ≠ totalsOneOfThreeRan ∧
    (totalsOneAssertionFailed.add TestTotals.zero).assertions_passed = 1 ∧
    totalsOneAssertionFailed.assertions_passed + TestTotals.zero.assertions_passed = 0 ∧
    totalsOneAssertionFailed.add TestTotals.zero ≠ totalsOneAssertionFailed ∧
    ((TestSummary.mk totalsOneOfThreeRan).add TestSummary.blank).getTotals
      ≠ totalsOneOfThreeRan ∧
    (a.add b).test_suites_total = a.test_functions_total + b.test_functions_total ∧
    (a.add b).test_suites_ran = a.test_functions_ran + b.test_functions_ran ∧
    (a.add b).test_suites_passed = a.test_functions_passed + b.test_functions_passed ∧
    (a.add b).assertions_ran = a.assertions_total + b.assertions_total ∧
    (a.add b).assertions_passed = a.assertions_total + b.assertions_total ∧
    (a.add b).test_functions_total = a.test_functions_total + b.test_functions_total ∧
    (a.add b).test_functions_ran = a.test_functions_ran + b.test_functions_ran ∧
    (a.add b).test_functions_passed = a.test_functions_passed + b.test_functions_passed ∧
    (a.add b).assertions_total = a.assertions_total + b.assertions_total := by
  refine ⟨by decide, by decide, by decide, by decide, by decide, by decide, by decide,
    rfl, rfl, rfl, rfl, rfl, rfl, rfl, rfl, rfl⟩

/-- C33: `TestTotals::operator+` preserves validity: when `a.validate()` and
`b.validate()` are true, `(a + b).validate()` is true (counters are natural
numbers, so no addition overflows). -/
theorem add_preserves_validate (a b : TestTotals) (ha : a.validate = true)
    (hb : b.validate = true) : (a.add b).validate = true := by
  rw [TestTotals.validate_iff] at ha hb ⊢
  simp only [TestTotals.add]
  omega

/-- Witness for C33: the totals of a run of one of three tests and the totals
of one failed assertion are valid, and so is their sum. -/
theorem add_preserves_validate_witness :
    totalsOneOfThreeRan.validate = true ∧ totalsOneAssertionFailed.validate = true ∧
    (totalsOneOfThreeRan.add totalsOneAssertionFailed).validate = true :=
  ⟨by decide, by decide,
   add_preserves_validate totalsOneOfThreeRan totalsOneAssertionFailed (by decide) (by decide)⟩

theorem callsFail_append_of_continuing (pre : List Stmt) (st : Stmt) (post : List Stmt)
    (hpre : ∀ s ∈ pre, s.continues = true) (hfail : st.callsFail = true) :
    callsFail (pre ++ st :: post) = true := by
  induction pre with
  | nil => simp [callsFail, hfail]
  | cons s pre ih =>
    have hs : s.continues = true := hpre s (List.mem_cons_self _ _)
    have hrest := ih (fun s2 h2 => hpre s2 (List.mem_cons_of_mem _ h2))
    simp [callsFail, hs, hrest]

theorem TestRunner.curr_test_reportAssertionBool_eq (r : TestRunner) (a : AssertionBool) :
    (r.reportAssertionBool a).curr_test
      = if a.failed then r.curr_test.map (fun t => t.fail true) else r.curr_test := by
  simp only [TestRunner.reportAssertionBool]
  split <;> rfl

theorem TestRunner.curr_test_reportAssertion_eq (r : TestRunner) (a : Assertion Value Value) :
    (r.reportAssertion bodyConv a ()).1.curr_test
      = if (a.failed bodyConv ()).1 then r.curr_test.map (fun t => t.fail true)
        else r.curr_test := by
  simp only [TestRunner.reportAssertion]
  split <;> rfl

/-- C35: `TestFunction::run()` sets the result to `PASS` before the body runs;
`TestRunner::reportAssertion` calls `fail()` on the current test exactly when
the reported assertion `failed()`; `fail(true)` sets the result to `FAIL` and
`fail(false)` leaves the test as it is.  Hence, with `curr_test` set by the
runner, when the body reaches a statement that calls `fail()` (a failed
assertion, or `FAIL()`), every statement before it being an assertion the body
continues after, the result at the end of `run()` is `THROW` if the body threw
and `FAIL` otherwise, never `PASS`, whatever the statements after it are. -/
theorem failure_is_sticky (test : TestInterface) (r : TestRunner) (pre post : List Stmt)
    (st : Stmt) (a : Assertion Value Value) (b : AssertionBool)
    (hcur : r.curr_test.isSome = true)
    (hbody : test.invoker = pre ++ st :: post)
    (hpre : ∀ s ∈ pre, s.continues = true)
    (hfail : st.callsFail = true) :
    TestFunction.run test r
      = TestInterface.runTestHelper { test with result_ := TestResult.PASS } r ∧
    (r.reportAssertion bodyConv a ()).1.curr_test
      = (if (a.failed bodyConv ()).1 then r.curr_test.map (fun t => t.fail true)
         else r.curr_test) ∧
    (r.reportAssertionBool b).curr_test
      = (if b.failed then r.curr_test.map (fun t => t.fail true) else r.curr_test) ∧
    (test.fail true).result = TestResult.FAIL ∧
    test.fail false = test ∧
    (TestFunction.run test r).1.result
      = (if (execBody test.invoker r).2 then TestResult.THROW else TestResult.FAIL) ∧
    ((TestFunction.run test r).1.result = TestResult.FAIL
      ∨ (TestFunction.run test r).1.result = TestResult.THROW) ∧
    (TestFunction.run test r).1.result ≠ TestResult.PASS ∧
    (TestFunction.run test r).1.passed = false := by
  have hcalls : callsFail test.invoker = true := by
    rw [hbody]
    exact callsFail_append_of_continuing pre st post hpre hfail
  have hres : (TestFunction.run test r).1.result
      = (if (execBody test.invoker r).2 then TestResult.THROW else TestResult.FAIL) := by
    rw [TestFunction.run_eq]
    simp [hcalls, hcur, TestInterface.result]
  refine ⟨rfl, TestRunner.curr_test_reportAssertion_eq r a,
    TestRunner.curr_test_reportAssertionBool_eq r b, rfl, rfl, hres, ?_, ?_, ?_⟩
  · rw [hres]
    cases (execBody test.invoker r).2 <;> simp
  · rw [hres]
    cases (execBody test.invoker r).2 <;> simp
  · simp only [TestInterface.passed]
    rw [show (TestFunction.run test r).1.result_ = _ from hres]
    cases (execBody test.invoker r).2 <;> simp

/-- Witness for C35: the body `EXPECT_TRUE(false); EXPECT_TRUE(true);` run with
`curr_test` set: the first assertion fails, the second passes, and the result
is `FAIL`. -/
theorem failure_is_sticky_witness :
    (({ TestRunner.initial with curr_test := some (passingTest "0") } :
        TestRunner).curr_test.isSome = true) ∧
    (expectFailThenPassTest "t").invoker = [] ++ EXPECT_TRUE 1 false :: [EXPECT_TRUE 2 true] ∧
    (EXPECT_TRUE 1 false).callsFail = true ∧
    (EXPECT_TRUE 2 true).passes = true ∧
    (TestFunction.run (expectFailThenPassTest "t")
        { TestRunner.initial with curr_test := some (passingTest "0") }).1.result
      = TestResult.FAIL ∧
    (TestFunction.run (expectFailThenPassTest "t")
        { TestRunner.initial with curr_test := some (passingTest "0") }).1.result
      ≠ TestResult.PASS :=
  ⟨rfl, rfl, by decide, by decide, by decide,
   (failure_is_sticky (expectFailThenPassTest "t")
      { TestRunner.initial with curr_test := some (passingTest "0") } []
      [EXPECT_TRUE 2 true] (EXPECT_TRUE 1 false)
      (make_assertion ⟨"REQUIRE"⟩ ⟨"test.cpp", 1⟩ "a == b"
        (comparison.chain comparison.builtin (.int 1) [(comparison.BinOp.eq, .int 1)]))
      AssertionBool.default rfl rfl (by simp) (by decide)).2.2.2.2.2.2.2.1⟩

end sstest

namespace sstest

namespace comparison

/-! ## Sortedness of the whole list -/

theorem chain_iff_pairwise_of_trans_on {α : Type} (R : α → α → Prop) (a : α) (l : List α)
    (htrans : ∀ x ∈ a :: l, ∀ y ∈ a :: l, ∀ z ∈ a :: l, R x y → R y z → R x z) :
    List.Chain R a l ↔ List.Pairwise R (a :: l) := by
  constructor
  · intro h
    induction l generalizing a with
    | nil => simp
    | cons b l ih =>
      rw [List.chain_cons] at h
      have hsub : ∀ x ∈ b :: l, ∀ y ∈ b :: l, ∀ z ∈ b :: l, R x y → R y z → R x z :=
        fun x hx y hy z hz =>
          htrans x (List.mem_cons_of_mem _ hx) y (List.mem_cons_of_mem _ hy) z
            (List.mem_cons_of_mem _ hz)
      have hp := ih b hsub h.2
      rw [List.pairwise_cons]
      refine ⟨?_, hp⟩
      intro x hx
      rcases List.mem_cons.mp hx with rfl | hx2
      · exact h.1
      · exact htrans a (List.mem_cons_self _ _) b
          (List.mem_cons_of_mem _ (List.mem_cons_self _ _)) x (List.mem_cons_of_mem _ hx)
          h.1 ((List.pairwise_cons.mp hp).1 x hx2)
  · intro h
    exact List.Pairwise.chain h

/-- C34: when `<=` is transitive on the operands, `ascending(x1, ..., xn)` is
true exactly when `xi <= xj` for every pair of positions `i < j`, and when `<`
is transitive on the operands, `strictly_ascending(x1, ..., xn)` is true exactly
when `xi < xj` for every pair of positions `i < j`. -/
theorem ascending_iff_sorted {V : Type} (conv : V → Bool) (N : NativeOps V) (first next : V)
    (rest : List V)
    (hle : ∀ x ∈ first :: next :: rest, ∀ y ∈ first :: next :: rest,
      ∀ z ∈ first :: next :: rest,
      conv (N.le x y) = true → conv (N.le y z) = true → conv (N.le x z) = true)
    (hlt : ∀ x ∈ first :: next :: rest, ∀ y ∈ first :: next :: rest,
      ∀ z ∈ first :: next :: rest,
      conv (N.lt x y) = true → conv (N.lt y z) = true → conv (N.lt x z) = true) :
    (ascending conv N first next rest = true
      ↔ ∀ (i j : Nat) (hi : i < (first :: next :: rest).length)
          (hj : j < (first :: next :: rest).length), i < j →
          conv (N.le ((first :: next :: rest).get ⟨i, hi⟩)
            ((first :: next :: rest).get ⟨j, hj⟩)) = true) ∧
    (strictly_ascending conv N first next rest = true
      ↔ ∀ (i j : Nat) (hi : i < (first :: next :: rest).length)
          (hj : j < (first :: next :: rest).length), i < j →
          conv (N.lt ((first :: next :: rest).get ⟨i, hi⟩)
            ((first :: next :: rest).get ⟨j, hj⟩)) = true) := by
  constructor
  · rw [ascending, internal.binary_ncompare_adjacent_iff]
    rw [chain_iff_pairwise_of_trans_on (fun a b => conv (less_equal N a b) = true) first
      (next :: rest) hle, List.pairwise_iff_getElem]
    rfl
  · rw [strictly_ascending, internal.binary_ncompare_adjacent_iff]
    rw [chain_iff_pairwise_of_trans_on (fun a b => conv (less N a b) = true) first
      (next :: rest) hlt, List.pairwise_iff_getElem]
    rfl

/-- Witness for C34: on the integers `3, 3, 3, 3, 4` the built-in `<=` and `<`
are transitive; `ascending` is true and every earlier operand is `<=` every
later one. -/
theorem ascending_iff_sorted_witness :
    ascending Value.toBool builtin (.int 3) (.int 3) [.int 3, .int 3, .int 4] = true ∧
    (∀ (i j : Nat) (hi : i < [Value.int 3, .int 3, .int 3, .int 3, .int 4].length)
        (hj : j < [Value.int 3, .int 3, .int 3, .int 3, .int 4].length), i < j →
        Value.toBool (builtin.le ([Value.int 3, .int 3, .int 3, .int 3, .int 4].get ⟨i, hi⟩)
          ([Value.int 3, .int 3, .int 3, .int 3, .int 4].get ⟨j, hj⟩)) = true) :=
  ⟨by decide,
   (ascending_iff_sorted Value.toBool builtin (.int 3) (.int 3) [.int 3, .int 3, .int 4]
      (by decide) (by decide)).1.mp (by decide)⟩

end comparison

end sstest

namespace sstest

/-! ## `cmemcmp` and `StringView` -/

theorem min_eq_left_or_right (a b : Nat) :
    sstest.min a b ≤ a ∧ sstest.min a b ≤ b ∧ (sstest.min a b = a ∨ sstest.min a b = b) := by
  unfold sstest.min
  split <;> omega

theorem min_comm_size (a b : Nat) : sstest.min a b = sstest.min b a := by
  unfold sstest.min
  split <;> split <;> omega

theorem headD_eq_getD (l : List Int) : l.headD 0 = l.getD 0 0 := by
  cases l <;> rfl

theorem tail_getD (l : List Int) (i : Nat) : l.tail.getD i 0 = l.getD (i + 1) 0 := by
  cases l <;> simp

theorem drop_getD (l : List Int) (k i : Nat) : (l.drop k).getD i 0 = l.getD (k + i) 0 := by
  simp [List.getD_eq_getElem?_getD, List.getElem?_drop]

theorem cmemcmp_values (lhs rhs : List Int) (n : Nat) :
    cmemcmp lhs rhs n = 0 ∨ cmemcmp lhs rhs n = -1 ∨ cmemcmp lhs rhs n = 1 := by
  induction n generalizing lhs rhs with
  | zero => exact Or.inl rfl
  | succ n ih =>
    simp only [cmemcmp]
    split
    · exact Or.inr (Or.inl rfl)
    · split
      · exact Or.inr (Or.inr rfl)
      · exact ih _ _

theorem cmemcmp_eq_zero_iff (lhs rhs : List Int) (n : Nat) :
    cmemcmp lhs rhs n = 0 ↔ ∀ i, i < n → lhs.getD i 0 = rhs.getD i 0 := by
  induction n generalizing lhs rhs with
  | zero => simp [cmemcmp]
  | succ n ih =>
    simp only [cmemcmp, headD_eq_getD]
    by_cases h1 : lhs.getD 0 0 < rhs.getD 0 0
    · simp only [h1, if_true]
      constructor
      · intro h
        omega
      · intro h
        have := h 0 (Nat.succ_pos n)
        omega
    · by_cases h2 : lhs.getD 0 0 > rhs.getD 0 0
      · simp only [h1, h2, if_true, if_false]
        constructor
        · intro h
          omega
        · intro h
          have := h 0 (Nat.succ_pos n)
          omega
      · simp only [h1, h2, if_false, ih]
        constructor
        · intro h i hi
          cases i with
          | zero => omega
          | succ i =>
            have := h i (by omega)
            rwa [tail_getD, tail_getD] at this
        · intro h i hi
          rw [tail_getD, tail_getD]
          exact h (i + 1) (by omega)

theorem cmemcmp_neg_iff (lhs rhs : List Int) (n : Nat) :
    cmemcmp lhs rhs n < 0
      ↔ ∃ i, i < n ∧ (∀ j, j < i → lhs.getD j 0 = rhs.getD j 0)
          ∧ lhs.getD i 0 < rhs.getD i 0 := by
  induction n generalizing lhs rhs with
  | zero => simp [cmemcmp]
  | succ n ih =>
    simp only [cmemcmp, headD_eq_getD]
    by_cases h1 : lhs.getD 0 0 < rhs.getD 0 0
    · simp only [h1, if_true]
      constructor
      · intro _
        exact ⟨0, Nat.succ_pos n, fun j hj => absurd hj (Nat.not_lt_zero j), h1⟩
      · intro _
        decide
    · by_cases h2 : lhs.getD 0 0 > rhs.getD 0 0
      · simp only [h1, h2, if_true, if_false]
        constructor
        · intro h
          omega
        · rintro ⟨i, _, hpre, hlt⟩
          cases i with
          | zero => omega
          | succ i =>
            have := hpre 0 (Nat.succ_pos i)
            omega
      · simp only [h1, h2, if_false, ih]
        constructor
        · rintro ⟨i, hi, hpre, hlt⟩
          refine ⟨i + 1, by omega, ?_, ?_⟩
          · intro j hj
            cases j with
            | zero => omega
            | succ j =>
              have := hpre j (by omega)
              rwa [tail_getD, tail_getD] at this
          · rwa [tail_getD, tail_getD] at hlt
        · rintro ⟨i, hi, hpre, hlt⟩
          cases i with
          | zero => omega
          | succ i =>
            refine ⟨i, by omega, ?_, ?_⟩
            · intro j hj
              rw [tail_getD, tail_getD]
              exact hpre (j + 1) (by omega)
            · rwa [tail_getD, tail_getD]

theorem cmemcmp_swap (lhs rhs : List Int) (n : Nat) :
    cmemcmp rhs lhs n = - cmemcmp lhs rhs n := by
  induction n generalizing lhs rhs with
  | zero => simp [cmemcmp]
  | succ n ih =>
    simp only [cmemcmp]
    rw [ih lhs.tail rhs.tail]
    generalize lhs.headD 0 = x
    generalize rhs.headD 0 = y
    generalize cmemcmp lhs.tail rhs.tail n = c
    split_ifs <;> omega

theorem cmemcmp_pos_iff (lhs rhs : List Int) (n : Nat) :
    cmemcmp lhs rhs n > 0
      ↔ ∃ i, i < n ∧ (∀ j, j < i → lhs.getD j 0 = rhs.getD j 0)
          ∧ lhs.getD i 0 > rhs.getD i 0 := by
  have h := cmemcmp_neg_iff rhs lhs n
  rw [cmemcmp_swap lhs rhs n] at h
  constructor
  · intro hpos
    obtain ⟨i, hi, hpre, hlt⟩ := h.mp (by omega)
    exact ⟨i, hi, fun j hj => (hpre j hj).symm, hlt⟩
  · rintro ⟨i, hi, hpre, hgt⟩
    have := h.mpr ⟨i, hi, fun j hj => (hpre j hj).symm, hgt⟩
    omega

theorem StringView.lt_iff (a b : StringView) :
    a.lt b = true
      ↔ (cmemcmp a.data_ b.data_ (sstest.min a.length_ b.length_) < 0
          ∨ (cmemcmp a.data_ b.data_ (sstest.min a.length_ b.length_) = 0
              ∧ a.length_ < b.length_)) := by
  simp [StringView.lt, StringView.data, StringView.length]

theorem StringView.gt_iff (a b : StringView) :
    a.gt b = true
      ↔ (cmemcmp a.data_ b.data_ (sstest.min a.length_ b.length_) > 0
          ∨ (cmemcmp a.data_ b.data_ (sstest.min a.length_ b.length_) = 0
              ∧ a.length_ > b.length_)) := by
  simp [StringView.gt, StringView.data, StringView.length]

theorem StringView.eq_iff (a b : StringView) :
    a.eq b = true
      ↔ (a.length_ = b.length_
          ∧ cmemcmp a.data_ b.data_ (sstest.min a.length_ b.length_) = 0) := by
  simp only [StringView.eq, StringView.data, StringView.length, Bool.and_eq_true,
    decide_eq_true_eq]
  constructor
  · rintro ⟨h1, h2⟩
    have hm : sstest.min a.length_ b.length_ = a.length_ := by
      unfold sstest.min
      split <;> omega
    rw [hm]
    exact ⟨h1, h2⟩
  · rintro ⟨h1, h2⟩
    have hm : sstest.min a.length_ b.length_ = a.length_ := by
      unfold sstest.min
      split <;> omega
    rw [hm] at h2
    exact ⟨h1, h2⟩

/-- C36: `operator<` on `StringView` is the lexicographic order of the viewed
characters in which a proper prefix is less than the longer string: `a < b`
exactly when, at the first position at which the views differ, the character of
`a` is the smaller one, or `a` is a proper prefix of `b`; `a == b` exactly when
the lengths are equal and the characters are the same.  In particular
`"a" < "b"`, `"a" < "ab"`, `"ab" < "b"` and `"aa" < "ab"`. -/
theorem stringview_lt_is_lexicographic (a b : StringView) :
    (a.lt b = true
      ↔ ((∃ i, i < a.length ∧ i < b.length ∧ (∀ j, j < i → a.at_ j = b.at_ j)
            ∧ a.at_ i < b.at_ i)
          ∨ (a.length < b.length ∧ ∀ j, j < a.length → a.at_ j = b.at_ j))) ∧
    (a.eq b = true ↔ (a.length = b.length ∧ ∀ j, j < a.length → a.at_ j = b.at_ j)) ∧
    (a.ne b = !a.eq b) ∧
    (StringView.ofCStr (literal "a")).lt (StringView.ofCStr (literal "b")) = true ∧
    (StringView.ofCStr (literal "a")).lt (StringView.ofCStr (literal "ab")) = true ∧
    (StringView.ofCStr (literal "ab")).lt (StringView.ofCStr (literal "b")) = true ∧
    (StringView.ofCStr (literal "aa")).lt (StringView.ofCStr (literal "ab")) = true ∧
    (StringView.ofCStr (literal "b")).lt (StringView.ofCStr (literal "ab")) = false ∧
    (StringView.ofCStr (literal "a")).eq (StringView.ofCStr (literal "a")) = true ∧
    (StringView.ofCStr (literal "a")).eq (StringView.ofCStr (literal "ab")) = false ∧
    (StringView.ofCStr (literal "")).eq StringView.new = true := by
  obtain ⟨hm1, hm2, hm3⟩ := min_eq_left_or_right a.length_ b.length_
  refine ⟨?_, ?_, rfl, by decide, by decide, by decide, by decide, by decide, by decide,
    by decide, by decide⟩
  · rw [StringView.lt_iff, cmemcmp_neg_iff, cmemcmp_eq_zero_iff]
    simp only [StringView.length, StringView.at_]
    constructor
    · rintro (⟨i, hi, hpre, hlt⟩ | ⟨heq, hlen⟩)
      · exact Or.inl ⟨i, by omega, by omega, hpre, hlt⟩
      · refine Or.inr ⟨hlen, fun j hj => heq j ?_⟩
        rcases hm3 with h | h <;> omega
    · rintro (⟨i, hi1, hi2, hpre, hlt⟩ | ⟨hlen, heq⟩)
      · refine Or.inl ⟨i, ?_, hpre, hlt⟩
        rcases hm3 with h | h <;> omega
      · exact Or.inr ⟨fun j hj => heq j (by omega), hlen⟩
  · rw [StringView.eq_iff, cmemcmp_eq_zero_iff]
    simp only [StringView.length, StringView.at_]
    constructor
    · rintro ⟨hlen, heq⟩
      refine ⟨hlen, fun j hj => heq j ?_⟩
      rcases hm3 with h | h <;> omega
    · rintro ⟨hlen, heq⟩
      exact ⟨hlen, fun j hj => heq j (by omega)⟩

end sstest

namespace sstest

theorem StringView.lt_def (a b : StringView) :
    a.lt b = (decide (cmemcmp a.data_ b.data_ (sstest.min a.length_ b.length_) < 0)
      || (decide (cmemcmp a.data_ b.data_ (sstest.min a.length_ b.length_) = 0)
          && decide (a.length_ < b.length_))) := rfl

theorem StringView.gt_def (a b : StringView) :
    a.gt b = (decide (cmemcmp a.data_ b.data_ (sstest.min a.length_ b.length_) > 0)
      || (decide (cmemcmp a.data_ b.data_ (sstest.min a.length_ b.length_) = 0)
          && decide (a.length_ > b.length_))) := rfl

theorem StringView.eq_def (a b : StringView) :
    a.eq b = (decide (a.length_ = b.length_)
      && decide (cmemcmp a.data_ b.data_ (sstest.min a.length_ b.length_) = 0)) := by
  rw [Bool.eq_iff_iff, StringView.eq_iff]
  simp

theorem StringView.cmemcmp_min_swap (a b : StringView) :
    cmemcmp b.data_ a.data_ (sstest.min b.length_ a.length_)
      = - cmemcmp a.data_ b.data_ (sstest.min a.length_ b.length_) := by
  rw [min_comm_size b.length_ a.length_, cmemcmp_swap]

theorem StringView.order_cases (a b : StringView) :
    (a.lt b = true ∧ a.eq b = false ∧ a.gt b = false
        ∧ b.lt a = false ∧ b.eq a = false ∧ b.gt a = true) ∨
    (a.lt b = false ∧ a.eq b = true ∧ a.gt b = false
        ∧ b.lt a = false ∧ b.eq a = true ∧ b.gt a = false) ∨
    (a.lt b = false ∧ a.eq b = false ∧ a.gt b = true
        ∧ b.lt a = true ∧ b.eq a = false ∧ b.gt a = false) := by
  rw [StringView.lt_def a b, StringView.gt_def a b, StringView.eq_def a b,
    StringView.lt_def b a, StringView.gt_def b a, StringView.eq_def b a,
    StringView.cmemcmp_min_swap a b]
  have hc := cmemcmp_values a.data_ b.data_ (sstest.min a.length_ b.length_)
  generalize cmemcmp a.data_ b.data_ (sstest.min a.length_ b.length_) = c at hc
  generalize a.length_ = la
  generalize b.length_ = lb
  rcases hc with rfl | rfl | rfl
  · rcases Nat.lt_trichotomy la lb with h | h | h
    · have h1 : ¬ lb < la := by omega
      have h2 : ¬ la = lb := by omega
      have h3 : ¬ lb = la := by omega
      simp [h, h1, h2, h3]
    · subst h
      simp
    · have h1 : ¬ la < lb := by omega
      have h2 : ¬ la = lb := by omega
      have h3 : ¬ lb = la := by omega
      simp [h, h1, h2, h3]
  · simp
  · simp

/-- C37: for all views `a` and `b` exactly one of `a < b`, `a == b`, `a > b`
holds and `a < b` exactly when `b > a`; `compare(a, b)` is `0` exactly when
`a == b`, `-1` exactly when `a < b` and `1` exactly when `a > b`, so
`compare(a, b) = -compare(b, a)`; `compare(a, b, n)` is `compare` of the two
views truncated to their first `n` characters.  For the view of the six
characters `hello\0` and the view `hello`: `compare` is `1`, in the other order
`-1`, and with `n = 5` it is `0`. -/
theorem stringview_compare_trichotomy (a b : StringView) (n : Nat) :
    ((a.lt b = true ∧ a.eq b = false ∧ a.gt b = false) ∨
     (a.lt b = false ∧ a.eq b = true ∧ a.gt b = false) ∨
     (a.lt b = false ∧ a.eq b = false ∧ a.gt b = true)) ∧
    a.lt b = b.gt a ∧
    (compare a b = 0 ↔ a.eq b = true) ∧
    (compare a b = -1 ↔ a.lt b = true) ∧
    (compare a b = 1 ↔ a.gt b = true) ∧
    compare a b = - compare b a ∧
    compareN a b n = compare (a.substr 0 n) (b.substr 0 n) ∧
    (a.substr 0 n).length = Nat.min a.length n ∧
    (∀ i, i < (a.substr 0 n).length → (a.substr 0 n).at_ i = a.at_ i) ∧
    compare (StringView.ofCStrN (literal "hello") 6) (StringView.ofCStr (literal "hello")) = 1 ∧
    compare (StringView.ofCStr (literal "hello")) (StringView.ofCStrN (literal "hello") 6)
      = -1 ∧
    compareN (StringView.ofCStrN (literal "hello") 6) (StringView.ofCStr (literal "hello")) 5
      = 0 := by
  have hcases := StringView.order_cases a b
  have hsub : (a.substr 0 n).length = Nat.min a.length n ∧
      (∀ i, i < (a.substr 0 n).length → (a.substr 0 n).at_ i = a.at_ i) := by
    simp only [StringView.substr, StringView.length, StringView.at_]
    by_cases h0 : 0 ≥ a.length_
    · have hz : a.length_ = 0 := by omega
      simp [hz, StringView.ofCStr, literal, cstrlen]
    · simp only [h0, if_false, StringView.ofCStrN, List.drop_zero, Nat.sub_zero]
      refine ⟨?_, fun _ _ => trivial⟩
      unfold sstest.min
      split
      · exact (Nat.min_eq_left (by omega)).symm
      · exact (Nat.min_eq_right (by omega)).symm
  refine ⟨?_, ?_, ?_, ?_, ?_, ?_, rfl, hsub.1, hsub.2, by decide, by decide, by decide⟩
  · rcases hcases with h | h | h
    · exact Or.inl ⟨h.1, h.2.1, h.2.2.1⟩
    · exact Or.inr (Or.inl ⟨h.1, h.2.1, h.2.2.1⟩)
    · exact Or.inr (Or.inr ⟨h.1, h.2.1, h.2.2.1⟩)
  · rcases hcases with h | h | h <;> rw [h.1, h.2.2.2.2.2]
  · rcases hcases with h | h | h <;> simp [compare, h.1, h.2.1]
  · rcases hcases with h | h | h <;> simp [compare, h.1, h.2.1]
  · rcases hcases with h | h | h <;> simp [compare, h.1, h.2.1, h.2.2.1]
  · rcases hcases with h | h | h <;>
      simp [compare, h.1, h.2.1, h.2.2.2.1, h.2.2.2.2.1]

theorem cmemcmp_eq_memcmp_sign_of_unsigned (lhs rhs : List Int) (n : Nat)
    (hl : ∀ i, i < n → 0 ≤ lhs.getD i 0 ∧ lhs.getD i 0 < 256)
    (hr : ∀ i, i < n → 0 ≤ rhs.getD i 0 ∧ rhs.getD i 0 < 256) :
    cmemcmp lhs rhs n = memcmp_sign lhs rhs n := by
  induction n generalizing lhs rhs with
  | zero => rfl
  | succ n ih =>
    have hl0 := hl 0 (Nat.succ_pos n)
    have hr0 := hr 0 (Nat.succ_pos n)
    rw [← headD_eq_getD] at hl0 hr0
    have ih2 := ih lhs.tail rhs.tail
      (fun i hi => by rw [tail_getD]; exact hl (i + 1) (by omega))
      (fun i hi => by rw [tail_getD]; exact hr (i + 1) (by omega))
    simp only [cmemcmp, memcmp_sign, ih2, Int.emod_eq_of_lt hl0.1 hl0.2,
      Int.emod_eq_of_lt hr0.1 hr0.2]

/-- C38: evaluation of `cmemcmp` where the claim fails.  With `char` signed, the
byte `0x80` is the `char` value `-128`: `cmemcmp("\x80", "\x01", 1)` is `-1`,
while `memcmp`, which compares the bytes as `unsigned char` (`128` against
`1`), is positive.  What holds for all arrays: `cmemcmp` is `0`, `-1` or `1`;
it is `0` exactly when the first `n` characters are equal; arrays that agree on
their first `n` characters give the same result; and it agrees with `memcmp`
when the first `n` `char` values of both arrays are in `0..255`. -/
theorem cmemcmp_compares_as_signed_char (lhs rhs lhs2 rhs2 : List Int) (n : Nat) :
    cmemcmp [-128] [1] 1 = -1 ∧
    memcmp_sign [-128] [1] 1 = 1 ∧
    cmemcmp [-128, 0] [1, 0] 1 ≠ memcmp_sign [-128, 0] [1, 0] 1 ∧
    (cmemcmp lhs rhs n = 0 ∨ cmemcmp lhs rhs n = -1 ∨ cmemcmp lhs rhs n = 1) ∧
    (cmemcmp lhs rhs n = 0 ↔ ∀ i, i < n → lhs.getD i 0 = rhs.getD i 0) ∧
    ((∀ i, i < n → lhs.getD i 0 = lhs2.getD i 0) → (∀ i, i < n → rhs.getD i 0 = rhs2.getD i 0) →
      cmemcmp lhs rhs n = cmemcmp lhs2 rhs2 n) ∧
    ((∀ i, i < n → 0 ≤ lhs.getD i 0 ∧ lhs.getD i 0 < 256) →
      (∀ i, i < n → 0 ≤ rhs.getD i 0 ∧ rhs.getD i 0 < 256) →
      cmemcmp lhs rhs n = memcmp_sign lhs rhs n) ∧
    cmemcmp (literal "ab") (literal "ac") 1 = 0 ∧
    cmemcmp (literal "ab") (literal "ac") 2 = -1 ∧
    cmemcmp (literal "ac") (literal "ab") 2 = 1 := by
  refine ⟨by decide, by decide, by decide, cmemcmp_values lhs rhs n,
    cmemcmp_eq_zero_iff lhs rhs n, ?_, cmemcmp_eq_memcmp_sign_of_unsigned lhs rhs n,
    by decide, by decide, by decide⟩
  intro hl hr
  induction n generalizing lhs rhs lhs2 rhs2 with
  | zero => rfl
  | succ n ih =>
    have hl0 := hl 0 (Nat.succ_pos n)
    have hr0 := hr 0 (Nat.succ_pos n)
    rw [← headD_eq_getD, ← headD_eq_getD] at hl0 hr0
    have ih2 := ih lhs.tail rhs.tail lhs2.tail rhs2.tail
      (fun i hi => by rw [tail_getD, tail_getD]; exact hl (i + 1) (by omega))
      (fun i hi => by rw [tail_getD, tail_getD]; exact hr (i + 1) (by omega))
    simp only [cmemcmp, hl0, hr0, ih2]

/-- C39: `s.substr(pos, count)` is the empty view when `pos >= s.length()`;
otherwise its length is `min(s.length() - pos, count)` and its characters are
those of `s` from index `pos` on, so it ends at or before the end of `s`.
Hence `s.substr(0) == s` (the default `count` is `npos`, the largest `size_t`)
and `StringView("hello").substr(0, 3) == StringView("hello", 3)`. -/
theorem substr_spec (s : StringView) (pos count : Nat) :
    (pos ≥ s.length → (s.substr pos count).length = 0 ∧ (s.substr pos count).empty = true
      ∧ s.substr pos count = StringView.ofCStr (literal "")) ∧
    (pos < s.length →
      (s.substr pos count).length = Nat.min (s.length - pos) count ∧
      (∀ i, i < (s.substr pos count).length → (s.substr pos count).at_ i = s.at_ (pos + i)) ∧
      pos + (s.substr pos count).length ≤ s.length) ∧
    (s.length ≤ count → (s.substr 0 count).eq s = true) ∧
    (s.length ≤ StringView.npos → (s.substr 0 StringView.npos).eq s = true) ∧
    ((StringView.ofCStr (literal "hello")).substr 0 StringView.npos).eq
      (StringView.ofCStr (literal "hello")) = true ∧
    ((StringView.ofCStr (literal "hello")).substr 0 3).eq
      (StringView.ofCStrN (literal "hello") 3) = true ∧
    (StringView.ofCStr (literal "hello")).substr 0 3 = StringView.ofCStrN (literal "hello") 3 ∧
    ((StringView.ofCStr (literal "hello")).substr 5 2).empty = true ∧
    (StringView.ofCStr (literal "hello")).substr 3 7
      = StringView.ofCStrN (literal "lo") 2 := by
  have hfull : ∀ c, s.length ≤ c → (s.substr 0 c).eq s = true := by
    intro c hc
    simp only [StringView.length] at hc
    rw [StringView.eq_iff, cmemcmp_eq_zero_iff]
    simp only [StringView.substr]
    by_cases h0 : 0 ≥ s.length_
    · have hz : s.length_ = 0 := by omega
      simp [hz, StringView.ofCStr, literal, cstrlen, sstest.min]
    · have hmin : sstest.min (s.length_ - 0) c = s.length_ := by
        unfold sstest.min
        split <;> omega
      simp only [h0, if_false, StringView.ofCStrN, List.drop_zero, hmin]
      exact ⟨trivial, fun _ _ => trivial⟩
  refine ⟨?_, ?_, hfull count, hfull StringView.npos, by decide, by decide, by decide,
    by decide, by decide⟩
  · intro hpos
    simp only [StringView.length] at hpos
    simp only [StringView.substr, hpos, if_true]
    exact ⟨rfl, rfl, trivial⟩
  · intro hpos
    simp only [StringView.length] at hpos
    have hnot : ¬ pos ≥ s.length_ := by omega
    simp only [StringView.substr, hnot, if_false, StringView.ofCStrN, StringView.length,
      StringView.at_, drop_getD]
    have hm := min_eq_left_or_right (s.length_ - pos) count
    refine ⟨?_, fun _ _ => trivial, by omega⟩
    unfold sstest.min
    split
    · exact (Nat.min_eq_left (by omega)).symm
    · exact (Nat.min_eq_right (by omega)).symm

end sstest

namespace sstest

/-! ## `range` and `iterable_range` -/

namespace iterable_range

theorem range_eq_self (r : sstest.range) : r.eq r = true := by
  simp [range.eq]

theorem first_eq (r : iterable_range) : first r = { range := r, current := r.lower } := by
  simp only [first, const_iterator.new]
  split <;> rfl

theorem last_eq (r : iterable_range) :
    last r = { range := r, current := if r.lower ≤ r.upper then r.upper else r.lower } := by
  simp only [last, const_iterator.new, range.in_range]
  by_cases h : r.lower ≤ r.upper
  · simp [h]
  · simp [h]

theorem rangeFor_counts (r : sstest.range) (d : Nat) (c : Int) (k : Nat) :
    rangeFor (d + 1 + k) { range := r, current := c } { range := r, current := c + d }
      = some ((List.range d).map (fun i : Nat => c + (i : Int))) := by
  induction d generalizing c with
  | zero =>
    have hfuel : 0 + 1 + k = k + 1 := by omega
    rw [hfuel]
    simp [rangeFor, const_iterator.ne, const_iterator.eq, range_eq_self]
  | succ d ih =>
    have hfuel : d + 1 + 1 + k = (d + 1 + k) + 1 := by omega
    have hne : ¬ c = c + ((d + 1 : Nat) : Int) := by omega
    have hnext : c + ((d + 1 : Nat) : Int) = (c + 1) + (d : Int) := by omega
    rw [hfuel]
    simp only [rangeFor, const_iterator.ne, const_iterator.eq, range_eq_self, hne,
      decide_False, Bool.and_false, Bool.not_false, if_true, const_iterator.inc,
      const_iterator.deref]
    rw [hnext, ih (c + 1), List.range_succ_eq_map]
    simp only [Option.map_some', List.map_cons, List.map_map]
    congr 2
    · simp
    · apply List.map_congr_left
      intro i _
      simp only [Function.comp, Nat.cast_succ]
      omega

theorem rangeFor_mono (fuel k : Nat) (it e : const_iterator) (vs : List Int)
    (h : rangeFor fuel it e = some vs) : rangeFor (fuel + k) it e = some vs := by
  induction fuel generalizing it vs with
  | zero => simp [rangeFor] at h
  | succ fuel ih =>
    have hfuel : fuel + 1 + k = (fuel + k) + 1 := by omega
    rw [hfuel]
    simp only [rangeFor] at h ⊢
    split
    · rename_i hne
      simp only [hne, if_true] at h
      cases hrec : rangeFor fuel it.inc e with
      | none => simp [hrec] at h
      | some rest =>
        rw [ih it.inc rest hrec]
        simpa [hrec] using h
    · rename_i hne
      simpa [hne] using h

theorem values_eq (r : iterable_range) (k : Nat) :
    values r ((r.upper - r.lower).toNat + 1 + k)
      = some ((List.range (r.upper - r.lower).toNat).map (fun i : Nat => r.lower + (i : Int))) := by
  simp only [values, first_eq, last_eq]
  by_cases h : r.lower ≤ r.upper
  · have hu : r.upper = r.lower + ((r.upper - r.lower).toNat : Int) := by omega
    simp only [h, if_true]
    have := rangeFor_counts r (r.upper - r.lower).toNat r.lower k
    rw [← hu] at this
    exact this
  · have hz : (r.upper - r.lower).toNat = 0 := by omega
    simp only [h, if_false, hz]
    have := rangeFor_counts r 0 r.lower k
    simpa using this

end iterable_range

/-- C40: `range{lower, upper}.in_range(n)` is true exactly when
`lower <= n <= upper`.  The loop over `iterable_range{lower, upper}` from
`begin()` to `end()` ends (after `upper - lower + 1` evaluations of its
condition when `lower <= upper`, after one otherwise) and yields exactly
`lower, lower + 1, ..., upper - 1` in increasing order, `upper - lower` values,
when `lower <= upper`, and no value when `lower > upper`. -/
theorem range_and_iteration (r : range) (n : Int) (k fuel : Nat) (vs : List Int) :
    (r.in_range n = true ↔ (r.lower ≤ n ∧ n ≤ r.upper)) ∧
    iterable_range.values r ((r.upper - r.lower).toNat + 1 + k)
      = some ((List.range (r.upper - r.lower).toNat).map (fun i : Nat => r.lower + (i : Int))) ∧
    (iterable_range.values r fuel = some vs →
      vs = (List.range (r.upper - r.lower).toNat).map (fun i : Nat => r.lower + (i : Int))) ∧
    ((List.range (r.upper - r.lower).toNat).map (fun i : Nat => r.lower + (i : Int))).length
      = (r.upper - r.lower).toNat ∧
    (∀ x, x ∈ (List.range (r.upper - r.lower).toNat).map (fun i : Nat => r.lower + (i : Int))
      ↔ (r.lower ≤ x ∧ x < r.upper)) ∧
    List.Pairwise (fun x y => x < y)
      ((List.range (r.upper - r.lower).toNat).map (fun i : Nat => r.lower + (i : Int))) ∧
    (r.lower > r.upper → iterable_range.values r (1 + k) = some []) ∧
    iterable_range.values ⟨0, -1⟩ 1 = some [] ∧
    iterable_range.values ⟨0, 1⟩ 2 = some [0] ∧
    iterable_range.values ⟨-2, 3⟩ 6 = some [-2, -1, 0, 1, 2] ∧
    range.in_range ⟨-1, 1⟩ 0 = true ∧ range.in_range ⟨-1, 1⟩ (-1) = true ∧
    range.in_range ⟨-1, 1⟩ 1 = true ∧ range.in_range ⟨-1, 1⟩ (-2) = false ∧
    range.in_range ⟨-1, 1⟩ 2 = false := by
  refine ⟨?_, iterable_range.values_eq r k, ?_, by simp, ?_, ?_, ?_, by decide, by decide,
    by decide, by decide, by decide, by decide, by decide, by decide⟩
  · simp [range.in_range]
  · intro h
    have h1 := iterable_range.rangeFor_mono fuel ((r.upper - r.lower).toNat + 1) _ _ vs h
    have h2 := iterable_range.values_eq r fuel
    have hfuel : (r.upper - r.lower).toNat + 1 + fuel = fuel + ((r.upper - r.lower).toNat + 1) := by
      omega
    rw [iterable_range.values, hfuel, h1] at h2
    exact Option.some.inj h2
  · intro x
    simp only [List.mem_map, List.mem_range]
    constructor
    · rintro ⟨i, hi, rfl⟩
      omega
    · intro hx
      exact ⟨(x - r.lower).toNat, by omega, by omega⟩
  · rw [List.pairwise_map]
    have hlt : List.Pairwise (fun a b : Nat => a < b) (List.range (r.upper - r.lower).toNat) :=
      List.pairwise_lt_range _
    exact hlt.imp (fun h => by omega)
  · intro hgt
    have hz : (r.upper - r.lower).toNat = 0 := by omega
    have h := iterable_range.values_eq r k
    rw [hz] at h
    simpa using h

end sstest
